import Mathlib

/-!
# Motion command sequencer of the L-Bot socket controller

Shallow embedding of `src/lbot-socket-control/enkiSocketControl.cpp`
(class `SocketControlExample`): the command parser, the FIFO command queue
and the pose-feedback completion state machine.

Modelling conventions.

* `double` values are exact rationals (`ℚ`): rounding, infinities and NaN are
  outside the model.  `M_PI` is the rational value of the `double` constant.
  The exception is the termination of the two normalisation loops of
  `checkMovementProgress`, which rounding decides: for it the loops are also
  given on doubles (`whileAboveDouble`, `whileBelowDouble`), every operation
  rounded to the nearest number with a significand of 53 bits (`roundDouble`).
* `QString` is `String`; the character-level Qt functions (`trimmed`,
  `toUpper`, `toLower`, `isLetter`, `split`) are modelled on the ASCII range
  that the line protocol uses.
* `QString::toDouble` and `sqrt` belong to Qt and to the C library, not to the
  repository: they are the two fields of `Lib`, a parameter of every
  function that calls them.  `stdLib` is one concrete instance, used to run
  the controller on concrete command lines.
* `sendResponse` appends to the log `sent`, whether or not a client is
  connected; each `Response` constructor stands for one message text of the
  source, with the numbers it prints kept as numbers.
* The pose of the robot is written by the simulation between two timer
  events: the event `world`.  The controller reads the pose and writes the two
  wheel speeds.
* `executeNextCommand` and `executeSingleCommand` call each other as in the
  source; the recursion ends because every round pops one token.
* The members `stepCounter`, `verbose`, `server`, `clientSocket` and
  `statusTimer` play no part in the sequencer and are left out.
* The calls of `executeSingleCommand` are no part of the state.  Where a
  statement speaks of them, `enteredBy` lists the calls one event leads to,
  with the state at the entry of each: it follows the three call sites of
  `executeNextCommand` outside `executeSingleCommand` (`nextCallOf`) and then
  the tail calls (`entries`).
-/

namespace LBot

/-! ## Numbers and library functions -/

/-- The `double` constant `M_PI` of `<cmath>`, as the exact rational it denotes. -/
def M_PI : ℚ := 884279719003555 / 281474976710656

/-- The library functions the controller calls but does not define:
`QString::toDouble` (its result is `none` when the `ok` flag is false) and
`sqrt`. -/
structure Lib where
  toDouble : String → Option ℚ
  sqrt : ℚ → ℚ

/-! ## QString operations -/

/-- The test `QChar::isSpace`: ASCII 9 to 13, the blank, and the Unicode separators. -/
def isSpace (c : Char) : Bool :=
  let n := c.toNat
  n == 0x20 || (0x09 ≤ n && n ≤ 0x0d) || n == 0x85 || n == 0xa0 || n == 0x1680 ||
    (0x2000 ≤ n && n ≤ 0x200a) || n == 0x2028 || n == 0x2029 || n == 0x202f ||
    n == 0x205f || n == 0x3000

/-- The test `QChar::isLetter`, on ASCII. -/
def isLetter (c : Char) : Bool := c.isAlpha

/-- Strip the white space at both ends of a character list. -/
def trimList (l : List Char) : List Char :=
  ((l.dropWhile isSpace).reverse.dropWhile isSpace).reverse

/-- The method `QString::trimmed`. -/
def trimmed (s : String) : String := ⟨trimList s.data⟩

/-- The method `QString::toUpper`, on ASCII. -/
def toUpper (s : String) : String := ⟨s.data.map Char.toUpper⟩

/-- The method `QString::toLower`, on ASCII. -/
def toLower (s : String) : String := ⟨s.data.map Char.toLower⟩

/-- The method `QString::isEmpty`. -/
def isEmpty (s : String) : Bool := s.data.isEmpty

/-- The method `QString::length`. -/
def length (s : String) : Nat := s.data.length

/-- The method `QString::left`: the first `n` characters. -/
def left (n : Nat) (s : String) : String := ⟨s.data.take n⟩

/-- The method `QString::right`: the last `n` characters. -/
def right (n : Nat) (s : String) : String := ⟨s.data.drop (s.data.length - n)⟩

/-- The method `QString::mid` with one argument: everything from position `n` on. -/
def mid (n : Nat) (s : String) : String := ⟨s.data.drop n⟩

/-- Indexing `s[i]`; the source only indexes inside the string. -/
def charAt (s : String) (i : Nat) : Char := s.data.getD i (Char.ofNat 0)

/-- Cut a character list at every `sep`; `cur` holds the part being read, reversed. -/
def splitAux (sep : Char) : List Char → List Char → List String
  | [], cur => [String.mk cur.reverse]
  | c :: cs, cur =>
    if c = sep then String.mk cur.reverse :: splitAux sep cs []
    else splitAux sep cs (c :: cur)

/-- The call `QString::split(sep, Qt::SkipEmptyParts)`. -/
def split (sep : Char) (s : String) : List String :=
  (splitAux sep s.data []).filter (fun part => !isEmpty part)

/-! ## Data model -/

/-- The type `Enki::Point`. -/
structure Point where
  x : ℚ
  y : ℚ
deriving DecidableEq

/-- The part of `Enki::EPuck` the controller reads (pose) and writes (wheel speeds). -/
structure EPuck where
  pos : Point
  angle : ℚ
  leftSpeed : ℚ
  rightSpeed : ℚ
deriving DecidableEq

/-- The messages handed to `sendResponse`, one constructor per message text. -/
inductive Response where
  /-- The text "STATUS: pos=(x,y) angle=a left_speed=l right_speed=r". -/
  | status (x y angle leftSpeed rightSpeed : ℚ)
  /-- The text "OK: Goodbye!". -/
  | okGoodbye
  /-- The text "OK: Robot stopped and command queue cleared". -/
  | okStopped
  /-- The text "ERROR: Invalid command format. Use: XF;YB;ZL;WR (e.g., 10F;5R)". -/
  | errInvalidCommandFormat
  /-- The text "ERROR: No movements provided". -/
  | errNoMovements
  /-- The text "INFO: Added n commands to queue". -/
  | infoAdded (n : Nat)
  /-- The text "OK: All commands completed". -/
  | okAllCompleted
  /-- The text "ERROR: Invalid movement format: " followed by the token. -/
  | errInvalidMovementFormat (movement : String)
  /-- The text "ERROR: Invalid distance in movement: m (parsed: n)". -/
  | errInvalidDistance (movement numberStr : String)
  /-- The text "OK: Rotating left d degrees". -/
  | okRotatingLeft (degrees : ℚ)
  /-- The text "OK: Rotating right d degrees". -/
  | okRotatingRight (degrees : ℚ)
  /-- The text "ERROR: Invalid rotation direction 'c'. Use L or R for rotation". -/
  | errInvalidRotationDirection (direction : Char)
  /-- The text "OK: Moving forward for d units". -/
  | okMovingForward (units : ℚ)
  /-- The text "OK: Moving backward for d units". -/
  | okMovingBackward (units : ℚ)
  /-- The text "OK: Turning left 90° then moving d units". -/
  | okTurningLeft (units : ℚ)
  /-- The text "OK: Turning right 90° then moving d units". -/
  | okTurningRight (units : ℚ)
  /-- The text "ERROR: Invalid displacement direction 'c'. Use F, B, L, R". -/
  | errInvalidDisplacementDirection (direction : Char)
  /-- The text "ERROR: Unknown command type for: " followed by the token. -/
  | errUnknownCommandType (movement : String)
  /-- The text "OK: Completed k movement of t units". -/
  | okCompletedMovement (kind : String) (units : ℚ)
  /-- The text "OK: Completed k rotation of t degrees". -/
  | okCompletedRotation (kind : String) (degrees : ℚ)
  /-- The text "OK: Rotation complete, now moving forward d units". -/
  | okRotationComplete (units : ℚ)
deriving DecidableEq

/-- The members of `SocketControlExample` that make up the sequencer, with the
log `sent` of the messages passed to `sendResponse` and the flag `quitRequested`
set by `QApplication::quit`. -/
structure SocketControlExample where
  robot : EPuck
  isMoving : Bool
  targetDistance : ℚ
  currentDistance : ℚ
  startPosition : Point
  startAngle : ℚ
  currentMovementType : String
  pendingMoveDistance : ℚ
  accumulatedRotation : ℚ
  lastAngle : ℚ
  commandQueue : List String
  executingQueue : Bool
  sent : List Response
  quitRequested : Bool
deriving DecidableEq

/-- The state built by the constructor and `setupRobot`. -/
def initial : SocketControlExample where
  robot := { pos := ⟨60, 60⟩, angle := 0, leftSpeed := 0, rightSpeed := 0 }
  isMoving := false
  targetDistance := 0
  currentDistance := 0
  startPosition := ⟨0, 0⟩
  startAngle := 0
  currentMovementType := ""
  pendingMoveDistance := 0
  accumulatedRotation := 0
  lastAngle := 0
  commandQueue := []
  executingQueue := false
  sent := []
  quitRequested := false

/-- The local constant `DEFAULT_SPEED` of the source. -/
def DEFAULT_SPEED : ℚ := 5.0

/-! ## Operations of the controller -/

/-- The method `sendResponse`: the message is appended to the log. -/
def sendResponse (message : Response) (s : SocketControlExample) : SocketControlExample :=
  { s with sent := s.sent ++ [message] }

/-- The method `sendRobotStatus`. -/
def sendRobotStatus (s : SocketControlExample) : SocketControlExample :=
  sendResponse (.status s.robot.pos.x s.robot.pos.y s.robot.angle
    s.robot.leftSpeed s.robot.rightSpeed) s

/-- The method `stopRobot`. -/
def stopRobot (s : SocketControlExample) : SocketControlExample :=
  { s with
    robot := { s.robot with leftSpeed := 0.0, rightSpeed := 0.0 }
    isMoving := false
    targetDistance := 0.0
    currentDistance := 0.0
    currentMovementType := "" }

/-- The method `resetRotationTracking`. -/
def resetRotationTracking (s : SocketControlExample) : SocketControlExample :=
  { s with accumulatedRotation := 0.0, lastAngle := s.startAngle }

/-- The wheel-speed writes `robot->leftSpeed = l; robot->rightSpeed = r`. -/
def setSpeeds (l r : ℚ) (s : SocketControlExample) : SocketControlExample :=
  { s with robot := { s.robot with leftSpeed := l, rightSpeed := r } }

mutual

/-- The method `executeNextCommand`. -/
def executeNextCommand (L : Lib) (s : SocketControlExample) : SocketControlExample :=
  match _h : s.commandQueue with
  | [] => sendResponse .okAllCompleted { s with executingQueue := false }
  | movement :: rest => executeSingleCommand L { s with commandQueue := rest } movement
termination_by (s.commandQueue.length, 0)
decreasing_by
  simp [_h, Prod.lex_def]

/-- The method `executeSingleCommand`.  The switch on `direction.toLatin1()` is a
comparison of `direction` with the four letters, which are Latin-1 characters. -/
def executeSingleCommand (L : Lib) (s : SocketControlExample) (movement : String) :
    SocketControlExample :=
  if isEmpty movement then executeNextCommand L s
  else
    let cleanMove := toUpper (trimmed movement)
    if length cleanMove < 2 then
      executeNextCommand L (sendResponse (.errInvalidMovementFormat movement) s)
    else
      let direction := charAt (right 1 cleanMove) 0
      let numberStr := left (length cleanMove - 1) cleanMove
      let startsWithLetter := !isEmpty numberStr && isLetter (charAt numberStr 0)
      let isRotationCommand := startsWithLetter && charAt numberStr 0 == 'R'
      let isDisplacementCommand := if startsWithLetter then charAt numberStr 0 == 'D' else true
      let numberStr := if startsWithLetter then mid 1 numberStr else numberStr
      match L.toDouble numberStr with
      | none =>
        executeNextCommand L (sendResponse (.errInvalidDistance movement numberStr) s)
      | some distance =>
        if distance < 0 then
          executeNextCommand L (sendResponse (.errInvalidDistance movement numberStr) s)
        else
          let s := if s.isMoving then stopRobot s else s
          if isRotationCommand then
            let s := { s with
              startAngle := s.robot.angle
              targetDistance := distance * M_PI / 180.0
              currentDistance := 0.0
              isMoving := true }
            if direction = 'L' then
              resetRotationTracking
                (sendResponse (.okRotatingLeft distance)
                  (setSpeeds (-DEFAULT_SPEED * 0.6) (DEFAULT_SPEED * 0.6)
                    { s with currentMovementType := "rotate_left" }))
            else if direction = 'R' then
              resetRotationTracking
                (sendResponse (.okRotatingRight distance)
                  (setSpeeds (DEFAULT_SPEED * 0.6) (-DEFAULT_SPEED * 0.6)
                    { s with currentMovementType := "rotate_right" }))
            else
              sendResponse (.errInvalidRotationDirection direction) s
          else if isDisplacementCommand then
            if direction = 'F' then
              sendResponse (.okMovingForward distance)
                (setSpeeds DEFAULT_SPEED DEFAULT_SPEED
                  { s with
                    startPosition := s.robot.pos
                    targetDistance := distance
                    currentDistance := 0.0
                    isMoving := true
                    currentMovementType := "forward" })
            else if direction = 'B' then
              sendResponse (.okMovingBackward distance)
                (setSpeeds (-DEFAULT_SPEED) (-DEFAULT_SPEED)
                  { s with
                    startPosition := s.robot.pos
                    targetDistance := distance
                    currentDistance := 0.0
                    isMoving := true
                    currentMovementType := "backward" })
            else if direction = 'L' then
              sendResponse (.okTurningLeft distance)
                (resetRotationTracking
                  (setSpeeds (-DEFAULT_SPEED * 0.6) (DEFAULT_SPEED * 0.6)
                    { s with
                      startAngle := s.robot.angle
                      targetDistance := M_PI / 2
                      currentDistance := 0.0
                      isMoving := true
                      currentMovementType := "turn_left_then_move"
                      pendingMoveDistance := distance }))
            else if direction = 'R' then
              sendResponse (.okTurningRight distance)
                (resetRotationTracking
                  (setSpeeds (DEFAULT_SPEED * 0.6) (-DEFAULT_SPEED * 0.6)
                    { s with
                      startAngle := s.robot.angle
                      targetDistance := M_PI / 2
                      currentDistance := 0.0
                      isMoving := true
                      currentMovementType := "turn_right_then_move"
                      pendingMoveDistance := distance }))
            else
              executeNextCommand L
                (sendResponse (.errInvalidDisplacementDirection direction) s)
          else
            executeNextCommand L (sendResponse (.errUnknownCommandType movement) s)
termination_by (s.commandQueue.length, 1)
decreasing_by
  all_goals first
    | (simp [Prod.lex_def, sendResponse]; done)
    | (split <;> simp [Prod.lex_def, sendResponse, stopRobot])

end

/-- The loop `while (angleDiff > M_PI) angleDiff -= 2*M_PI;`. -/
def whileAbove (angleDiff : ℚ) : ℚ :=
  if angleDiff > M_PI then whileAbove (angleDiff - 2 * M_PI) else angleDiff
termination_by Int.toNat ⌈(angleDiff - M_PI) / (2 * M_PI)⌉
decreasing_by
  rename_i h
  have hpi : (0 : ℚ) < 2 * M_PI := by norm_num [M_PI]
  have hq : (angleDiff - 2 * M_PI - M_PI) / (2 * M_PI)
      = (angleDiff - M_PI) / (2 * M_PI) - 1 := by
    field_simp
    ring
  have hpos : 0 < ⌈(angleDiff - M_PI) / (2 * M_PI)⌉ :=
    Int.ceil_pos.mpr (div_pos (sub_pos.mpr h) hpi)
  rw [hq, Int.ceil_sub_one, Int.toNat_lt_toNat hpos]
  omega

/-- The loop `while (angleDiff < -M_PI) angleDiff += 2*M_PI;`. -/
def whileBelow (angleDiff : ℚ) : ℚ :=
  if angleDiff < -M_PI then whileBelow (angleDiff + 2 * M_PI) else angleDiff
termination_by Int.toNat ⌈(-M_PI - angleDiff) / (2 * M_PI)⌉
decreasing_by
  rename_i h
  have hpi : (0 : ℚ) < 2 * M_PI := by norm_num [M_PI]
  have hq : (-M_PI - (angleDiff + 2 * M_PI)) / (2 * M_PI)
      = (-M_PI - angleDiff) / (2 * M_PI) - 1 := by
    field_simp
    ring
  have hpos : 0 < ⌈(-M_PI - angleDiff) / (2 * M_PI)⌉ :=
    Int.ceil_pos.mpr (div_pos (sub_pos.mpr h) hpi)
  rw [hq, Int.ceil_sub_one, Int.toNat_lt_toNat hpos]
  omega

/-- The method `checkMovementProgress`.  The three branches are those of the
source, in its order; the two rotation branches repeat the normalisation and
the accumulation as the source does. -/
def checkMovementProgress (L : Lib) (s : SocketControlExample) : SocketControlExample :=
  if !s.isMoving then s
  else if s.currentMovementType = "forward" ∨ s.currentMovementType = "backward" then
    let dx := s.robot.pos.x - s.startPosition.x
    let dy := s.robot.pos.y - s.startPosition.y
    let s := { s with currentDistance := L.sqrt (dx * dx + dy * dy) }
    if s.currentDistance ≥ s.targetDistance then
      let s := stopRobot s
      let s := sendResponse (.okCompletedMovement s.currentMovementType s.targetDistance) s
      if s.executingQueue then executeNextCommand L s else s
    else s
  else if s.currentMovementType = "rotate_left" ∨ s.currentMovementType = "rotate_right" then
    let angleDiff := whileBelow (whileAbove (s.robot.angle - s.lastAngle))
    let s :=
      if s.currentMovementType = "rotate_left" then
        if angleDiff > 0 then
          { s with accumulatedRotation := s.accumulatedRotation + angleDiff }
        else if angleDiff < -M_PI / 2 then
          { s with accumulatedRotation := s.accumulatedRotation + (2 * M_PI + angleDiff) }
        else s
      else
        if angleDiff < 0 then
          { s with accumulatedRotation := s.accumulatedRotation + |angleDiff| }
        else if angleDiff > M_PI / 2 then
          { s with accumulatedRotation := s.accumulatedRotation + (2 * M_PI - angleDiff) }
        else s
    let s := { s with lastAngle := s.robot.angle, currentDistance := s.accumulatedRotation }
    if s.currentDistance ≥ s.targetDistance then
      let s := stopRobot s
      let s := { s with accumulatedRotation := 0.0 }
      let s := sendResponse
        (.okCompletedRotation s.currentMovementType (s.targetDistance * 180.0 / M_PI)) s
      if s.executingQueue then executeNextCommand L s else s
    else s
  else if s.currentMovementType = "turn_left_then_move"
      ∨ s.currentMovementType = "turn_right_then_move" then
    let angleDiff := whileBelow (whileAbove (s.robot.angle - s.lastAngle))
    let s :=
      if s.currentMovementType = "turn_left_then_move" then
        if angleDiff > 0 then
          { s with accumulatedRotation := s.accumulatedRotation + angleDiff }
        else if angleDiff < -M_PI / 2 then
          { s with accumulatedRotation := s.accumulatedRotation + (2 * M_PI + angleDiff) }
        else s
      else
        if angleDiff < 0 then
          { s with accumulatedRotation := s.accumulatedRotation + |angleDiff| }
        else if angleDiff > M_PI / 2 then
          { s with accumulatedRotation := s.accumulatedRotation + (2 * M_PI - angleDiff) }
        else s
    let s := { s with lastAngle := s.robot.angle, currentDistance := s.accumulatedRotation }
    if s.currentDistance ≥ s.targetDistance then
      let s := { s with
        accumulatedRotation := 0.0
        startPosition := s.robot.pos
        targetDistance := s.pendingMoveDistance
        currentDistance := 0.0
        currentMovementType := "forward" }
      let s := setSpeeds DEFAULT_SPEED DEFAULT_SPEED s
      let s := sendResponse (.okRotationComplete s.pendingMoveDistance) s
      { s with pendingMoveDistance := 0.0 }
    else s
  else s

/-- The method `timerEvent`, without the step counter and the console output. -/
def timerEvent (L : Lib) (s : SocketControlExample) : SocketControlExample :=
  if s.isMoving then checkMovementProgress L s else s

/-- The loop of `executeMovementSequence`, which runs in both of its branches:
every movement that is not empty once trimmed is appended, trimmed, to the queue. -/
def appendMovements (commandQueue movements : List String) : List String :=
  movements.foldl
    (fun queue movement =>
      if !isEmpty (trimmed movement) then queue ++ [trimmed movement] else queue)
    commandQueue

/-- The method `executeMovementSequence`. -/
def executeMovementSequence (L : Lib) (s : SocketControlExample) (movements : List String) :
    SocketControlExample :=
  if movements.isEmpty then sendResponse .errNoMovements s
  else if s.isMoving then
    let s := { s with commandQueue := appendMovements s.commandQueue movements }
    sendResponse (.infoAdded movements.length) s
  else
    let s := { s with commandQueue := [] }
    let s := { s with commandQueue := appendMovements s.commandQueue movements }
    let s := { s with executingQueue := true }
    executeNextCommand L s

/-- The method `processCommand`. -/
def processCommand (L : Lib) (s : SocketControlExample) (command : String) :
    SocketControlExample :=
  let cmd := trimmed command
  if toLower cmd = "status" then sendRobotStatus s
  else if toLower cmd = "quit" then
    { sendResponse .okGoodbye s with quitRequested := true }
  else if toLower cmd = "stop" then
    let s := stopRobot s
    let s := { s with commandQueue := [] }
    let s := { s with executingQueue := false }
    sendResponse .okStopped s
  else
    let movements := split ';' cmd
    if movements.isEmpty then sendResponse .errInvalidCommandFormat s
    else executeMovementSequence L s movements

/-! ## The controller in its environment -/

/-- What happens to the controller: a command line arrives, the timer fires,
or the simulation moves the robot to a new pose. -/
inductive Event where
  | command (line : String)
  | timer
  | world (pos : Point) (angle : ℚ)

/-- The simulation writes the pose of the robot. -/
def setPose (pos : Point) (angle : ℚ) (s : SocketControlExample) : SocketControlExample :=
  { s with robot := { s.robot with pos := pos, angle := angle } }

/-- The effect of one event. -/
def step (L : Lib) (s : SocketControlExample) : Event → SocketControlExample
  | .command line => processCommand L s line
  | .timer => timerEvent L s
  | .world pos angle => setPose pos angle s

/-- The effect of a sequence of events. -/
def run (L : Lib) (s : SocketControlExample) (events : List Event) : SocketControlExample :=
  events.foldl (step L) s

/-- The states the controller can be in: those a sequence of events produces
from the initial state. -/
def Reachable (L : Lib) (s : SocketControlExample) : Prop :=
  ∃ events, run L initial events = s

/-- One tick with a pose sample: the simulation has moved the robot to the
sample, and the timer examines it. -/
def tick (L : Lib) (s : SocketControlExample) (sample : Point × ℚ) : SocketControlExample :=
  timerEvent L (setPose sample.1 sample.2 s)

/-- A sequence of ticks, one per pose sample. -/
def ticks (L : Lib) (s : SocketControlExample) (samples : List (Point × ℚ)) :
    SocketControlExample :=
  samples.foldl (tick L) s

/-! ## A concrete library instance -/

/-- The number a string of decimal digits denotes. -/
def digitsValue (cs : List Char) : ℕ :=
  cs.foldl (fun n c => 10 * n + (c.toNat - 48)) 0

/-- An unsigned decimal numeral: digits, then optionally a point and digits,
with at least one digit in all. -/
def unsignedDecimal (cs : List Char) : Option ℚ :=
  let whole := cs.takeWhile Char.isDigit
  match cs.dropWhile Char.isDigit with
  | [] => if whole.isEmpty then none else some (digitsValue whole)
  | c :: frac =>
    if c = '.' ∧ frac.all Char.isDigit ∧ ¬ (whole.isEmpty ∧ frac.isEmpty) then
      some (digitsValue whole + digitsValue frac / 10 ^ frac.length)
    else none

/-- The reading of `QString::toDouble` on signed decimal numerals; every other
string is refused. -/
def decimalToDouble (s : String) : Option ℚ :=
  match s.data with
  | '-' :: cs => (unsignedDecimal cs).map (fun q => -q)
  | '+' :: cs => unsignedDecimal cs
  | cs => unsignedDecimal cs

/-- The library instance of the worked examples: decimal numerals, and the
rational square root of Mathlib, which is exact on squares. -/
def stdLib : Lib where
  toDouble := decimalToDouble
  sqrt := Rat.sqrt

/-! ## Auxiliary definitions for the statements -/

/-- How `executeSingleCommand` ends: by the tail call `executeNextCommand()`
on a state, or by returning a state. -/
inductive Outcome where
  | next (s : SocketControlExample)
  | done (s : SocketControlExample)

/-- The result an outcome stands for. -/
def Outcome.finish (L : Lib) : Outcome → SocketControlExample
  | .next s => executeNextCommand L s
  | .done s => s

/-- The direction letter of a cleaned token: its last character. -/
def directionOf (cleanMove : String) : Char := charAt (right 1 cleanMove) 0

/-- The magnitude field of a cleaned token: everything but the last character. -/
def magnitudeField (cleanMove : String) : String := left (length cleanMove - 1) cleanMove

/-- The test for a mode prefix: the magnitude field starts with a letter. -/
def startsWithLetter (cleanMove : String) : Bool :=
  !isEmpty (magnitudeField cleanMove) && isLetter (charAt (magnitudeField cleanMove) 0)

/-- The value of the flag `isRotationCommand` for a cleaned token. -/
def isRotationCommand (cleanMove : String) : Bool :=
  startsWithLetter cleanMove && charAt (magnitudeField cleanMove) 0 == 'R'

/-- The value of the flag `isDisplacementCommand` for a cleaned token. -/
def isDisplacementCommand (cleanMove : String) : Bool :=
  if startsWithLetter cleanMove then charAt (magnitudeField cleanMove) 0 == 'D' else true

/-- The final value of `numberStr` for a cleaned token: the magnitude field
without its mode prefix. -/
def numberStrOf (cleanMove : String) : String :=
  if startsWithLetter cleanMove then mid 1 (magnitudeField cleanMove) else magnitudeField cleanMove

/-- The second half of `executeSingleCommand`, from the test of
`isRotationCommand` on, up to its tail calls. -/
def armEffect (s : SocketControlExample) (movement : String)
    (isRotationCommand isDisplacementCommand : Bool) (direction : Char) (distance : ℚ) :
    Outcome :=
  if isRotationCommand then
    let s := { s with
      startAngle := s.robot.angle
      targetDistance := distance * M_PI / 180.0
      currentDistance := 0.0
      isMoving := true }
    if direction = 'L' then
      .done (resetRotationTracking
        (sendResponse (.okRotatingLeft distance)
          (setSpeeds (-DEFAULT_SPEED * 0.6) (DEFAULT_SPEED * 0.6)
            { s with currentMovementType := "rotate_left" })))
    else if direction = 'R' then
      .done (resetRotationTracking
        (sendResponse (.okRotatingRight distance)
          (setSpeeds (DEFAULT_SPEED * 0.6) (-DEFAULT_SPEED * 0.6)
            { s with currentMovementType := "rotate_right" })))
    else
      .done (sendResponse (.errInvalidRotationDirection direction) s)
  else if isDisplacementCommand then
    if direction = 'F' then
      .done (sendResponse (.okMovingForward distance)
        (setSpeeds DEFAULT_SPEED DEFAULT_SPEED
          { s with
            startPosition := s.robot.pos
            targetDistance := distance
            currentDistance := 0.0
            isMoving := true
            currentMovementType := "forward" }))
    else if direction = 'B' then
      .done (sendResponse (.okMovingBackward distance)
        (setSpeeds (-DEFAULT_SPEED) (-DEFAULT_SPEED)
          { s with
            startPosition := s.robot.pos
            targetDistance := distance
            currentDistance := 0.0
            isMoving := true
            currentMovementType := "backward" }))
    else if direction = 'L' then
      .done (sendResponse (.okTurningLeft distance)
        (resetRotationTracking
          (setSpeeds (-DEFAULT_SPEED * 0.6) (DEFAULT_SPEED * 0.6)
            { s with
              startAngle := s.robot.angle
              targetDistance := M_PI / 2
              currentDistance := 0.0
              isMoving := true
              currentMovementType := "turn_left_then_move"
              pendingMoveDistance := distance })))
    else if direction = 'R' then
      .done (sendResponse (.okTurningRight distance)
        (resetRotationTracking
          (setSpeeds (DEFAULT_SPEED * 0.6) (-DEFAULT_SPEED * 0.6)
            { s with
              startAngle := s.robot.angle
              targetDistance := M_PI / 2
              currentDistance := 0.0
              isMoving := true
              currentMovementType := "turn_right_then_move"
              pendingMoveDistance := distance })))
    else
      .next (sendResponse (.errInvalidDisplacementDirection direction) s)
  else
    .next (sendResponse (.errUnknownCommandType movement) s)

/-- The body of `executeSingleCommand` up to its tail calls. -/
def commandEffect (L : Lib) (s : SocketControlExample) (movement : String) : Outcome :=
  if isEmpty movement then .next s
  else
    let cleanMove := toUpper (trimmed movement)
    if length cleanMove < 2 then
      .next (sendResponse (.errInvalidMovementFormat movement) s)
    else
      match L.toDouble (numberStrOf cleanMove) with
      | none =>
        .next (sendResponse (.errInvalidDistance movement (numberStrOf cleanMove)) s)
      | some distance =>
        if distance < 0 then
          .next (sendResponse (.errInvalidDistance movement (numberStrOf cleanMove)) s)
        else
          armEffect (if s.isMoving then stopRobot s else s) movement
            (isRotationCommand cleanMove) (isDisplacementCommand cleanMove)
            (directionOf cleanMove) distance

/-- The motion intents of the data model of the specification. -/
inductive MotionIntent where
  | Forward (distance : ℚ)
  | Backward (distance : ℚ)
  | RotateLeft (angleRad : ℚ)
  | RotateRight (angleRad : ℚ)
  | TurnLeftThenMove (distance : ℚ)
  | TurnRightThenMove (distance : ℚ)
deriving DecidableEq

/-- The table of the parser in the words of the specification, for a token made
of the mode prefix `pre` (none, `D` or `R`), a numeral of value `n` and the
direction letter `dir`.  Rotation mode takes `L` and `R` only; the other
combinations denote no intent. -/
def denotes (pre : List Char) (dir : Char) (n : ℚ) : Option MotionIntent :=
  if pre = ['R'] then
    if dir = 'L' then some (.RotateLeft (n * M_PI / 180))
    else if dir = 'R' then some (.RotateRight (n * M_PI / 180))
    else none
  else if pre = [] ∨ pre = ['D'] then
    if dir = 'F' then some (.Forward n)
    else if dir = 'B' then some (.Backward n)
    else if dir = 'L' then some (.TurnLeftThenMove n)
    else if dir = 'R' then some (.TurnRightThenMove n)
    else none
  else none

/-- The controller `r` holds the freshly armed motion `intent`, armed while the
robot was at position `pos` with heading `heading`: kind, target, zero
progress, reference position or heading, and pending distance. -/
def Armed (r : SocketControlExample) (pos : Point) (heading : ℚ) : MotionIntent → Prop
  | .Forward d =>
    r.isMoving = true ∧ r.currentMovementType = "forward" ∧ r.targetDistance = d ∧
      r.currentDistance = 0 ∧ r.startPosition = pos
  | .Backward d =>
    r.isMoving = true ∧ r.currentMovementType = "backward" ∧ r.targetDistance = d ∧
      r.currentDistance = 0 ∧ r.startPosition = pos
  | .RotateLeft a =>
    r.isMoving = true ∧ r.currentMovementType = "rotate_left" ∧ r.targetDistance = a ∧
      r.currentDistance = 0 ∧ r.accumulatedRotation = 0 ∧ r.lastAngle = heading
  | .RotateRight a =>
    r.isMoving = true ∧ r.currentMovementType = "rotate_right" ∧ r.targetDistance = a ∧
      r.currentDistance = 0 ∧ r.accumulatedRotation = 0 ∧ r.lastAngle = heading
  | .TurnLeftThenMove d =>
    r.isMoving = true ∧ r.currentMovementType = "turn_left_then_move" ∧
      r.targetDistance = M_PI / 2 ∧ r.currentDistance = 0 ∧ r.accumulatedRotation = 0 ∧
      r.lastAngle = heading ∧ r.pendingMoveDistance = d
  | .TurnRightThenMove d =>
    r.isMoving = true ∧ r.currentMovementType = "turn_right_then_move" ∧
      r.targetDistance = M_PI / 2 ∧ r.currentDistance = 0 ∧ r.accumulatedRotation = 0 ∧
      r.lastAngle = heading ∧ r.pendingMoveDistance = d

instance (r : SocketControlExample) (pos : Point) (heading : ℚ) (intent : MotionIntent) :
    Decidable (Armed r pos heading intent) := by
  cases intent <;> (unfold Armed; infer_instance)

/-- The completion reports: the two "OK: Completed" messages. -/
def isCompletion : Response → Bool
  | .okCompletedMovement _ _ => true
  | .okCompletedRotation _ _ => true
  | _ => false

/-- The error reports: the messages that start with "ERROR:". -/
def isError : Response → Bool
  | .errInvalidCommandFormat => true
  | .errNoMovements => true
  | .errInvalidMovementFormat _ => true
  | .errInvalidDistance _ _ => true
  | .errInvalidRotationDirection _ => true
  | .errInvalidDisplacementDirection _ => true
  | .errUnknownCommandType _ => true
  | _ => false

/-- The number of completion reports in a log. -/
def completions (log : List Response) : ℕ := log.countP isCompletion

/-- The distance `sqrt(dx*dx + dy*dy)` between the reference position `p0` and
the position `p`, as `checkMovementProgress` computes it. -/
def distanceFrom (L : Lib) (p0 p : Point) : ℚ :=
  L.sqrt ((p.x - p0.x) * (p.x - p0.x) + (p.y - p0.y) * (p.y - p0.y))

/-- The normalised difference between the heading of the robot and `lastAngle`. -/
def angleDelta (s : SocketControlExample) : ℚ :=
  whileBelow (whileAbove (s.robot.angle - s.lastAngle))

/-- The accumulation rule of the specification for left-turning motions. -/
def leftIncrement (delta : ℚ) : ℚ :=
  if delta > 0 then delta else if delta < -M_PI / 2 then 2 * M_PI + delta else 0

/-- The accumulation rule of the specification for right-turning motions. -/
def rightIncrement (delta : ℚ) : ℚ :=
  if delta < 0 then |delta| else if delta > M_PI / 2 then 2 * M_PI - delta else 0

/-- The kinds that turn left: `rotate_left` and `turn_left_then_move`. -/
def turnsLeft (kind : String) : Bool :=
  kind = "rotate_left" || kind = "turn_left_then_move"

/-- The increment of one rotation sample under the rule of the specification. -/
def increment (s : SocketControlExample) : ℚ :=
  if turnsLeft s.currentMovementType then leftIncrement (angleDelta s)
  else rightIncrement (angleDelta s)

/-- No sample of the list completes the rotation under way in `s`: each one leaves the
accumulated progress below the target. -/
def keepsTurning (L : Lib) : SocketControlExample → List (Point × ℚ) → Prop
  | _, [] => True
  | s, sample :: samples =>
    (setPose sample.1 sample.2 s).accumulatedRotation
        + increment (setPose sample.1 sample.2 s) < s.targetDistance
      ∧ keepsTurning L (tick L s sample) samples

/-! ## States of the worked examples -/

/-- The forward motion of "10F" under way, with "5R" waiting in the queue. -/
def forwardTenActive : SocketControlExample :=
  { initial with
    robot := { initial.robot with leftSpeed := 5, rightSpeed := 5 }
    isMoving := true
    targetDistance := 10
    startPosition := ⟨60, 60⟩
    currentMovementType := "forward"
    commandQueue := ["5R"]
    executingQueue := true
    sent := [.okMovingForward 10] }

/-- The turn phase of "3L" armed at heading 0, the robot having turned to heading 2. -/
def turnLeftThreeTurned : SocketControlExample :=
  { initial with
    robot := { pos := ⟨60, 60⟩, angle := 2, leftSpeed := -3, rightSpeed := 3 }
    isMoving := true
    targetDistance := M_PI / 2
    currentMovementType := "turn_left_then_move"
    pendingMoveDistance := 3
    commandQueue := ["5F"]
    executingQueue := true
    sent := [.okTurningLeft 3] }

/-- The rotation of "R90L" armed at heading 0, the robot having turned to heading 1. -/
def rotateLeftQuarterTurned : SocketControlExample :=
  { initial with
    robot := { pos := ⟨60, 60⟩, angle := 1, leftSpeed := -3, rightSpeed := 3 }
    isMoving := true
    targetDistance := M_PI / 2
    currentMovementType := "rotate_left"
    executingQueue := true
    sent := [.okRotatingLeft 90] }

/-- The rotation of "R0L" armed at heading 0, the robot having turned to heading 1. -/
def rotateLeftZeroTurned : SocketControlExample :=
  { initial with
    robot := { pos := ⟨60, 60⟩, angle := 1, leftSpeed := -3, rightSpeed := 3 }
    isMoving := true
    currentMovementType := "rotate_left"
    executingQueue := true
    sent := [.okRotatingLeft 0] }

/-- The rotation of "R90L" armed at heading 0. -/
def rotateLeftQuarterArmed : SocketControlExample :=
  { initial with
    robot := { pos := ⟨60, 60⟩, angle := 0, leftSpeed := -3, rightSpeed := 3 }
    isMoving := true
    targetDistance := M_PI / 2
    currentMovementType := "rotate_left"
    executingQueue := true
    sent := [.okRotatingLeft 90] }

/-- The forward motion of "10F" armed at (60, 60), nothing waiting in the queue. -/
def forwardTenArmed : SocketControlExample :=
  { initial with
    robot := { initial.robot with leftSpeed := 5, rightSpeed := 5 }
    isMoving := true
    targetDistance := 10
    startPosition := ⟨60, 60⟩
    currentMovementType := "forward"
    executingQueue := true
    sent := [.okMovingForward 10] }

/-- The state after the line "10F;R90F;5F" is submitted to the initial state. -/
def forwardTenThenBadRotation : SocketControlExample :=
  { initial with
    robot := { initial.robot with leftSpeed := 5, rightSpeed := 5 }
    isMoving := true
    targetDistance := 10
    startPosition := ⟨60, 60⟩
    currentMovementType := "forward"
    commandQueue := ["R90F", "5F"]
    executingQueue := true
    sent := [.okMovingForward 10] }

/-- The state after the line "R90F" is submitted to the initial state. -/
def stuckRotation : SocketControlExample :=
  { initial with
    isMoving := true
    targetDistance := 90 * M_PI / 180
    executingQueue := true
    sent := [.errInvalidRotationDirection 'F'] }

/-- A left rotation under way whose reference heading is `M_PI` while the robot is at
heading 0. -/
def rotateLeftHalfTurnBack : SocketControlExample :=
  { initial with
    robot := { pos := ⟨60, 60⟩, angle := 0, leftSpeed := -3, rightSpeed := 3 }
    isMoving := true
    targetDistance := 4 * M_PI
    currentMovementType := "rotate_left"
    lastAngle := M_PI
    executingQueue := true
    sent := [.okRotatingLeft 720] }

/-- The two states agree on every member of the controller; only the log of sent
messages may differ. -/
def sameButLog (a b : SocketControlExample) : Prop :=
  { a with sent := b.sent } = b

/-- The two outcomes end the same way on states that agree but for the log. -/
def Outcome.sameButLog : Outcome → Outcome → Prop
  | .next a, .next b => LBot.sameButLog a b
  | .done a, .done b => LBot.sameButLog a b
  | _, _ => False

/-- The Idle controller with the token "5F" waiting, as `executeNextCommand` leaves it
when it pops the first token of the line "5X;5F". -/
def idleFiveForwardQueued : SocketControlExample :=
  { initial with commandQueue := ["5F"], executingQueue := true }

/-- The Actuator Mapper of the specification: the wheel speeds `(left, right)` of each
intent, with `S` the base speed `DEFAULT_SPEED`; for the turn-then-move intents these are
the speeds of the turn phase. -/
def speedsFor : MotionIntent → ℚ × ℚ
  | .Forward _ => (DEFAULT_SPEED, DEFAULT_SPEED)
  | .Backward _ => (-DEFAULT_SPEED, -DEFAULT_SPEED)
  | .RotateLeft _ => (-(0.6 * DEFAULT_SPEED), 0.6 * DEFAULT_SPEED)
  | .RotateRight _ => (0.6 * DEFAULT_SPEED, -(0.6 * DEFAULT_SPEED))
  | .TurnLeftThenMove _ => (-(0.6 * DEFAULT_SPEED), 0.6 * DEFAULT_SPEED)
  | .TurnRightThenMove _ => (0.6 * DEFAULT_SPEED, -(0.6 * DEFAULT_SPEED))

/-! ## The calls of `executeSingleCommand` and the invariant of the sequencer -/

/-- The calls of `executeSingleCommand` made while `executeNextCommand` works through the
queue `queue` from the state `s`: for each call, the state at its entry (the token is
already taken from the queue) and the token.  A call that ends by the tail call
`executeNextCommand()` is followed by the calls of that one; a call that returns is the
last. -/
def entriesFrom (L : Lib) :
    List String → SocketControlExample → List (SocketControlExample × String)
  | [], _ => []
  | movement :: rest, s =>
    ({ s with commandQueue := rest }, movement) ::
      match commandEffect L { s with commandQueue := rest } movement with
      | .next s1 => entriesFrom L rest s1
      | .done _ => []

/-- The calls of `executeSingleCommand` made by `executeNextCommand` on the state `s`. -/
def entries (L : Lib) (s : SocketControlExample) : List (SocketControlExample × String) :=
  entriesFrom L s.commandQueue s

/-- The state on which an event makes the controller call `executeNextCommand`, when it
does.  A command line does in `executeMovementSequence`, when it is no literal, has a
token and no motion is active; the timer does in `checkMovementProgress`, when a
displacement or a pure rotation completes while `executingQueue` is set, after
`stopRobot` and the completion report.  These are the three call sites outside
`executeSingleCommand`. -/
def nextCallOf (L : Lib) (s : SocketControlExample) : Event → Option SocketControlExample
  | .command line =>
    let cmd := trimmed line
    if toLower cmd = "status" then none
    else if toLower cmd = "quit" then none
    else if toLower cmd = "stop" then none
    else
      let movements := split ';' cmd
      if movements.isEmpty then none
      else if s.isMoving then none
      else
        some { s with commandQueue := appendMovements [] movements, executingQueue := true }
  | .timer =>
    if !s.isMoving then none
    else if s.currentMovementType = "forward" ∨ s.currentMovementType = "backward" then
      if s.targetDistance ≤ distanceFrom L s.startPosition s.robot.pos then
        if s.executingQueue then
          some (sendResponse (.okCompletedMovement "" 0)
            (stopRobot { s with currentDistance := distanceFrom L s.startPosition s.robot.pos }))
        else none
      else none
    else if s.currentMovementType = "rotate_left" ∨ s.currentMovementType = "rotate_right" then
      if s.targetDistance ≤ s.accumulatedRotation + increment s then
        if s.executingQueue then
          some (sendResponse (.okCompletedRotation "" 0)
            { stopRobot s with accumulatedRotation := 0, lastAngle := s.robot.angle })
        else none
      else none
    else none
  | .world _ _ => none

/-- The calls of `executeSingleCommand` an event leads to in the state `s`, in order: for
each call, the state at its entry and the token. -/
def enteredBy (L : Lib) (s : SocketControlExample) (event : Event) :
    List (SocketControlExample × String) :=
  match nextCallOf L s event with
  | some s1 => entries L s1
  | none => []

/-- The invariant of the sequencer: while no motion is active the queue is empty, both
wheel speeds are zero and no kind is set; while one is active `executingQueue` is set. -/
def Settled (s : SocketControlExample) : Prop :=
  (s.isMoving = false →
    s.commandQueue = [] ∧ s.robot.leftSpeed = 0 ∧ s.robot.rightSpeed = 0
      ∧ s.currentMovementType = "")
  ∧ (s.isMoving = true → s.executingQueue = true)

/-- The controller is at rest: no motion is active, both wheel speeds are zero and no
kind is set, as the constructor and `stopRobot` leave it. -/
def AtRest (s : SocketControlExample) : Prop :=
  s.isMoving = false ∧ s.robot.leftSpeed = 0 ∧ s.robot.rightSpeed = 0
    ∧ s.currentMovementType = ""

/-- The event is the literal command `stop`, in any letter case and with blanks around
it. -/
def Event.isStop : Event → Bool
  | .command line => decide (toLower (trimmed line) = "stop")
  | _ => false

/-- The state `b` differs from the state `a` at most in the pose of the robot, the queue,
the log of sent messages and the quit flag: the motion members and both wheel speeds are
those of `a`. -/
def sameMotion (a b : SocketControlExample) : Prop :=
  { a with
    robot := { a.robot with pos := b.robot.pos, angle := b.robot.angle }
    commandQueue := b.commandQueue
    sent := b.sent
    quitRequested := b.quitRequested } = b

/-- The state at the entry of `executeSingleCommand("R90F")` once the line "R90F;5F"
is submitted to the initial state: "5F" waits in the queue. -/
def idleBadRotationPopped : SocketControlExample :=
  { initial with commandQueue := ["5F"], executingQueue := true }

/-! ## Arithmetic on doubles, for the normalisation loops -/

/-- The integer nearest to `x`, the even one of the two when `x` lies half-way. -/
def roundHalfEven (x : ℚ) : ℤ :=
  if x - ⌊x⌋ < 1 / 2 then ⌊x⌋
  else if x - ⌊x⌋ > 1 / 2 then ⌊x⌋ + 1
  else if ⌊x⌋ % 2 = 0 then ⌊x⌋
  else ⌊x⌋ + 1

/-- The `double` that a result of exact value `q` is rounded to: the nearest number with
a significand of 53 bits, ties to even.  With `e` the binary exponent of `q`, these
numbers are the multiples of `2 ^ (e - 52)`.  The range of the exponent is not modelled:
there is no overflow and there are no subnormal numbers. -/
def roundDouble (q : ℚ) : ℚ :=
  if q = 0 then 0
  else roundHalfEven (q / 2 ^ (Int.log 2 |q| - 52)) * 2 ^ (Int.log 2 |q| - 52)

/-- The operation `a - b` on doubles. -/
def subDouble (a b : ℚ) : ℚ := roundDouble (a - b)

/-- The operation `a + b` on doubles. -/
def addDouble (a b : ℚ) : ℚ := roundDouble (a + b)

/-- The operation `a * b` on doubles. -/
def mulDouble (a b : ℚ) : ℚ := roundDouble (a * b)

/-- The loop `while (angleDiff > M_PI) angleDiff -= 2*M_PI;` on doubles, run for at most
`fuel` rounds: the value with which the loop is left, or `none` when its condition still
holds after `fuel` rounds. -/
def whileAboveDouble : ℕ → ℚ → Option ℚ
  | 0, angleDiff => if angleDiff > M_PI then none else some angleDiff
  | fuel + 1, angleDiff =>
    if angleDiff > M_PI then whileAboveDouble fuel (subDouble angleDiff (mulDouble 2 M_PI))
    else some angleDiff

/-- The loop `while (angleDiff < -M_PI) angleDiff += 2*M_PI;` on doubles, run for at most
`fuel` rounds. -/
def whileBelowDouble : ℕ → ℚ → Option ℚ
  | 0, angleDiff => if angleDiff < -M_PI then none else some angleDiff
  | fuel + 1, angleDiff =>
    if angleDiff < -M_PI then whileBelowDouble fuel (addDouble angleDiff (mulDouble 2 M_PI))
    else some angleDiff

/-- The normalisation of `checkMovementProgress` on doubles, each loop run for at most
`fuel` rounds: `double angleDiff = robot->angle - lastAngle;` and the two loops. -/
def normaliseDouble (fuel : ℕ) (angle lastAngle : ℚ) : Option ℚ :=
  (whileAboveDouble fuel (subDouble angle lastAngle)).bind (whileBelowDouble fuel)

/-! ## The tokens that `executeSingleCommand` receives -/

/-- The token `movement` is one that `executeSingleCommand` receives: in some reachable
state some event leads to a call `executeSingleCommand(movement)`. -/
def Received (L : Lib) (movement : String) : Prop :=
  ∃ s event e, Reachable L s ∧ (e, movement) ∈ enteredBy L s event

/-- Every token of the queue is not empty. -/
def CleanQueue (s : SocketControlExample) : Prop :=
  ∀ movement ∈ s.commandQueue, isEmpty movement = false

/-! ## Basic facts -/

theorem executeSingleCommand_eq (L : Lib) (s : SocketControlExample) (movement : String) :
    executeSingleCommand L s movement = (commandEffect L s movement).finish L := by
  rw [executeSingleCommand]
  unfold commandEffect
  by_cases h1 : isEmpty movement = true
  · rw [if_pos h1, if_pos h1]; rfl
  rw [if_neg h1, if_neg h1]
  simp only [numberStrOf, isRotationCommand, isDisplacementCommand, startsWithLetter, directionOf,
    magnitudeField]
  generalize toUpper (trimmed movement) = cleanMove
  by_cases h2 : length cleanMove < 2
  · rw [if_pos h2, if_pos h2]; rfl
  rw [if_neg h2, if_neg h2]
  generalize charAt (right 1 cleanMove) 0 = direction
  generalize left (length cleanMove - 1) cleanMove = numberStr
  generalize (!isEmpty numberStr && isLetter (charAt numberStr 0)) = startsWithLetter
  generalize (if startsWithLetter = true then mid 1 numberStr else numberStr) = numberStr1
  generalize (startsWithLetter && charAt numberStr 0 == 'R') = isRotationCommand
  generalize (if startsWithLetter = true then charAt numberStr 0 == 'D' else true)
    = isDisplacementCommand
  cases L.toDouble numberStr1 with
  | none => rfl
  | some distance =>
    simp only []
    by_cases h3 : distance < 0
    · rw [if_pos h3, if_pos h3]; rfl
    rw [if_neg h3, if_neg h3]
    generalize (if s.isMoving = true then stopRobot s else s) = s1
    unfold armEffect
    split_ifs <;> rfl

theorem executeNextCommand_nil (L : Lib) (s : SocketControlExample) (h : s.commandQueue = []) :
    executeNextCommand L s = sendResponse .okAllCompleted { s with executingQueue := false } := by
  rw [executeNextCommand]
  split
  · rfl
  · simp_all

theorem executeNextCommand_cons (L : Lib) (s : SocketControlExample) (movement : String)
    (rest : List String) (h : s.commandQueue = movement :: rest) :
    executeNextCommand L s
      = (commandEffect L { s with commandQueue := rest } movement).finish L := by
  rw [executeNextCommand]
  split
  · simp_all
  · rename_i m r hq
    rw [h] at hq
    cases hq
    exact executeSingleCommand_eq L _ _

theorem commandEffect_number (L : Lib) (s : SocketControlExample) (movement : String)
    (distance : ℚ) (h1 : isEmpty movement = false)
    (h2 : 2 ≤ length (toUpper (trimmed movement)))
    (hv : L.toDouble (numberStrOf (toUpper (trimmed movement))) = some distance)
    (hd : 0 ≤ distance) :
    commandEffect L s movement
      = armEffect (if s.isMoving then stopRobot s else s) movement
          (isRotationCommand (toUpper (trimmed movement)))
          (isDisplacementCommand (toUpper (trimmed movement)))
          (directionOf (toUpper (trimmed movement))) distance := by
  unfold commandEffect
  simp only [h1, Bool.false_eq_true, if_false, not_lt.mpr h2, hv, not_lt.mpr hd]

theorem armEffect_next {s s1 : SocketControlExample} {movement : String} {rot disp : Bool}
    {dir : Char} {d : ℚ} (h : armEffect s movement rot disp dir d = .next s1) :
    ∃ e, isError e = true ∧ s1 = sendResponse e s := by
  unfold armEffect at h
  split_ifs at h <;> first
    | exact Outcome.noConfusion h
    | (cases h; refine ⟨_, ?_, rfl⟩; rfl)

theorem armEffect_done {s r : SocketControlExample} {movement : String} {rot disp : Bool}
    {dir : Char} {d : ℚ} (h : armEffect s movement rot disp dir d = .done r) :
    r.commandQueue = s.commandQueue ∧ r.executingQueue = s.executingQueue
      ∧ r.quitRequested = s.quitRequested
      ∧ r.robot.pos = s.robot.pos ∧ r.robot.angle = s.robot.angle ∧ r.isMoving = true
      ∧ (∃ msg, r.sent = s.sent ++ [msg])
      ∧ (r.lastAngle = s.lastAngle ∨ r.lastAngle = s.robot.angle) := by
  unfold armEffect at h
  split_ifs at h <;> first
    | exact Outcome.noConfusion h
    | (cases h
       simp [sendResponse, resetRotationTracking, setSpeeds])

/-- The three ways the first half of `executeSingleCommand` can go. -/
theorem commandEffect_cases (L : Lib) (s : SocketControlExample) (movement : String) :
    commandEffect L s movement = .next s
    ∨ (∃ e, isError e = true ∧ commandEffect L s movement = .next (sendResponse e s))
    ∨ (∃ distance, 0 ≤ distance ∧ isEmpty movement = false
        ∧ 2 ≤ length (toUpper (trimmed movement))
        ∧ L.toDouble (numberStrOf (toUpper (trimmed movement))) = some distance
        ∧ commandEffect L s movement
          = armEffect (if s.isMoving then stopRobot s else s) movement
              (isRotationCommand (toUpper (trimmed movement)))
              (isDisplacementCommand (toUpper (trimmed movement)))
              (directionOf (toUpper (trimmed movement))) distance) := by
  by_cases h1 : isEmpty movement = true
  · left
    simp only [commandEffect, if_pos h1]
  by_cases h2 : length (toUpper (trimmed movement)) < 2
  · right; left
    exact ⟨.errInvalidMovementFormat movement, rfl,
      by simp only [commandEffect, if_neg h1, if_pos h2]⟩
  cases hv : L.toDouble (numberStrOf (toUpper (trimmed movement))) with
  | none =>
    right; left
    exact ⟨.errInvalidDistance movement (numberStrOf (toUpper (trimmed movement))), rfl,
      by simp only [commandEffect, if_neg h1, if_neg h2, hv]⟩
  | some distance =>
    by_cases h3 : distance < 0
    · right; left
      exact ⟨.errInvalidDistance movement (numberStrOf (toUpper (trimmed movement))), rfl,
        by simp only [commandEffect, if_neg h1, if_neg h2, hv, if_pos h3]⟩
    · right; right
      exact ⟨distance, not_lt.mp h3, by simpa using h1, not_lt.mp h2, rfl,
        by simp only [commandEffect, if_neg h1, if_neg h2, hv, if_neg h3]⟩

theorem commandEffect_next {L : Lib} {s s1 : SocketControlExample} {movement : String}
    (h : commandEffect L s movement = .next s1) :
    s1 = s ∨ ∃ e, isError e = true ∧
      (s1 = sendResponse e s ∨ s1 = sendResponse e (if s.isMoving then stopRobot s else s)) := by
  rcases commandEffect_cases L s movement with h1 | ⟨e, he, h1⟩ | ⟨d, -, -, -, -, h1⟩
  · rw [h1] at h; cases h; exact Or.inl rfl
  · rw [h1] at h; cases h; exact Or.inr ⟨e, he, Or.inl rfl⟩
  · rw [h1] at h
    obtain ⟨e, he, hs⟩ := armEffect_next h
    exact Or.inr ⟨e, he, Or.inr hs⟩

theorem commandEffect_done {L : Lib} {s r : SocketControlExample} {movement : String}
    (h : commandEffect L s movement = .done r) :
    ∃ distance, 0 ≤ distance ∧
      armEffect (if s.isMoving then stopRobot s else s) movement
        (isRotationCommand (toUpper (trimmed movement)))
        (isDisplacementCommand (toUpper (trimmed movement)))
        (directionOf (toUpper (trimmed movement))) distance = .done r := by
  rcases commandEffect_cases L s movement with h1 | ⟨e, he, h1⟩ | ⟨d, hd, -, -, -, h1⟩
  · rw [h1] at h; cases h
  · rw [h1] at h; cases h
  · exact ⟨d, hd, h1 ▸ h⟩

theorem commandEffect_next_queue {L : Lib} {s s1 : SocketControlExample} {movement : String}
    (h : commandEffect L s movement = .next s1) : s1.commandQueue = s.commandQueue := by
  rcases commandEffect_next h with rfl | ⟨e, -, rfl | rfl⟩
  · rfl
  · rfl
  · split <;> rfl

/-- Induction along the queue: a relation between the state `executeNextCommand` starts
from and the state it returns holds if it holds for the three ways a call can go. -/
theorem executeNextCommand_rel (L : Lib)
    (P : SocketControlExample → SocketControlExample → Prop)
    (hnil : ∀ s, s.commandQueue = [] →
      P s (sendResponse .okAllCompleted { s with executingQueue := false }))
    (hdone : ∀ s movement rest r, s.commandQueue = movement :: rest →
      commandEffect L { s with commandQueue := rest } movement = .done r → P s r)
    (hnext : ∀ s movement rest s1 r, s.commandQueue = movement :: rest →
      commandEffect L { s with commandQueue := rest } movement = .next s1 → P s1 r → P s r)
    (s : SocketControlExample) : P s (executeNextCommand L s) := by
  generalize hn : s.commandQueue.length = n
  induction n generalizing s with
  | zero =>
    have hq : s.commandQueue = [] := List.length_eq_zero.mp hn
    rw [executeNextCommand_nil L s hq]
    exact hnil s hq
  | succ n ih =>
    obtain ⟨movement, rest, hq⟩ : ∃ m r, s.commandQueue = m :: r := by
      cases hs : s.commandQueue with
      | nil => simp [hs] at hn
      | cons m r => exact ⟨m, r, rfl⟩
    rw [executeNextCommand_cons L s movement rest hq]
    cases he : commandEffect L { s with commandQueue := rest } movement with
    | done r => exact hdone s movement rest r hq he
    | next s1 =>
      have hlen : s1.commandQueue.length = n := by
        rw [commandEffect_next_queue he]
        simp [hq] at hn
        simpa using hn
      exact hnext s movement rest s1 _ hq he (ih s1 hlen)

/-! ## Tokens of a given form -/

theorem string_eq_of_data (c : String) (l : List Char) (h : c.data = l) : c = ⟨l⟩ := by
  cases c; simp_all

theorem directionOf_snoc (xs : List Char) (dir : Char) :
    directionOf ⟨xs ++ [dir]⟩ = dir := by
  simp [directionOf, right, charAt]

theorem magnitudeField_snoc (xs : List Char) (dir : Char) :
    magnitudeField ⟨xs ++ [dir]⟩ = ⟨xs⟩ := by
  simp [magnitudeField, left, length]

theorem parts_of_form (c : String) (pre num : List Char) (dir : Char)
    (hc : c.data = pre ++ num ++ [dir]) (hpre : pre = [] ∨ pre = ['D'] ∨ pre = ['R'])
    (hnum : ∃ x xs, num = x :: xs ∧ isLetter x = false) :
    2 ≤ length c ∧ directionOf c = dir ∧ numberStrOf c = ⟨num⟩
      ∧ isRotationCommand c = decide (pre = ['R'])
      ∧ isDisplacementCommand c = !decide (pre = ['R']) := by
  obtain ⟨x, xs, rfl, hx⟩ := hnum
  have hD : isLetter 'D' = true := by decide
  have hR : isLetter 'R' = true := by decide
  rw [string_eq_of_data c _ hc]
  refine ⟨?_, directionOf_snoc _ _, ?_⟩
  · rcases hpre with rfl | rfl | rfl <;> simp [length]
  · rcases hpre with rfl | rfl | rfl
    · have hm : magnitudeField ⟨x :: (xs ++ [dir])⟩ = ⟨x :: xs⟩ :=
        magnitudeField_snoc (x :: xs) dir
      simp [numberStrOf, isRotationCommand, isDisplacementCommand, startsWithLetter, hm, isEmpty,
        charAt, mid, hx]
    · have hm : magnitudeField ⟨'D' :: x :: (xs ++ [dir])⟩ = ⟨'D' :: x :: xs⟩ :=
        magnitudeField_snoc ('D' :: x :: xs) dir
      simp [numberStrOf, isRotationCommand, isDisplacementCommand, startsWithLetter, hm, isEmpty,
        charAt, mid, hD]
    · have hm : magnitudeField ⟨'R' :: x :: (xs ++ [dir])⟩ = ⟨'R' :: x :: xs⟩ :=
        magnitudeField_snoc ('R' :: x :: xs) dir
      simp [numberStrOf, isRotationCommand, isDisplacementCommand, startsWithLetter, hm, isEmpty,
        charAt, mid, hR]

theorem isEmpty_of_form (movement : String) (xs : List Char) (dir : Char)
    (hc : (toUpper (trimmed movement)).data = xs ++ [dir]) : isEmpty movement = false := by
  cases hm : movement.data with
  | nil =>
    have : (toUpper (trimmed movement)).data = [] := by
      simp [toUpper, trimmed, trimList, hm]
    rw [this] at hc
    simp at hc
  | cons a l => simp [isEmpty, hm]

/-- A token of the form prefix, numeral, direction letter that denotes an intent arms
that intent: no tail call, one message that is not an error, queue untouched. -/
theorem commandEffect_arms (L : Lib) (s : SocketControlExample) (movement : String)
    (pre num : List Char) (dir : Char) (n : ℚ) (intent : MotionIntent)
    (hform : (toUpper (trimmed movement)).data = pre ++ num ++ [dir])
    (hpre : pre = [] ∨ pre = ['D'] ∨ pre = ['R'])
    (hnum : ∃ x xs, num = x :: xs ∧ isLetter x = false)
    (hval : L.toDouble ⟨num⟩ = some n) (hn : 0 ≤ n)
    (hi : denotes pre dir n = some intent) :
    ∃ r, commandEffect L s movement = .done r
      ∧ Armed r s.robot.pos s.robot.angle intent
      ∧ r.commandQueue = s.commandQueue ∧ r.executingQueue = s.executingQueue
      ∧ ∃ msg, r.sent = s.sent ++ [msg] ∧ isError msg = false := by
  obtain ⟨h2, hdir, hns, hrot, hdisp⟩ := parts_of_form _ pre num dir hform hpre hnum
  have h1 : isEmpty movement = false := isEmpty_of_form movement (pre ++ num) dir hform
  rw [commandEffect_number L s movement n h1 h2 (by rw [hns]; exact hval) hn, hdir, hrot,
    hdisp]
  have hs1 : ∀ t : SocketControlExample, (if s.isMoving then stopRobot s else s) = t →
      t.robot.pos = s.robot.pos ∧ t.robot.angle = s.robot.angle
        ∧ t.commandQueue = s.commandQueue ∧ t.executingQueue = s.executingQueue
        ∧ t.sent = s.sent := by
    intro t ht
    subst ht
    split <;> simp [stopRobot]
  generalize (if s.isMoving then stopRobot s else s) = t at hs1 ⊢
  obtain ⟨hp, ha, hq, he, hsent⟩ := hs1 t rfl
  unfold denotes at hi
  unfold armEffect
  by_cases hR : pre = ['R']
  · simp only [hR, if_true, decide_True] at hi ⊢
    split_ifs at hi ⊢ with hL hR2
    all_goals
      cases hi
      refine ⟨_, rfl, ?_, hq, he, _, congrArg (fun l => l ++ [_]) hsent, rfl⟩
      norm_num [Armed, resetRotationTracking, sendResponse, setSpeeds, ha]
  · have hD : pre = [] ∨ pre = ['D'] := by tauto
    simp only [hR, if_false, decide_False, hD, if_true, Bool.not_false,
      Bool.false_eq_true] at hi ⊢
    split_ifs at hi ⊢
    all_goals
      cases hi
      refine ⟨_, rfl, ?_, hq, he, _, congrArg (fun l => l ++ [_]) hsent, rfl⟩
      norm_num [Armed, resetRotationTracking, sendResponse, setSpeeds, ha, hp]

theorem stdLib_toDouble_10 : stdLib.toDouble "10" = some 10 := by
  simp [stdLib, decimalToDouble, unsignedDecimal, digitsValue]

theorem stdLib_toDouble_90 : stdLib.toDouble "90" = some 90 := by
  simp [stdLib, decimalToDouble, unsignedDecimal, digitsValue]

theorem stdLib_toDouble_5 : stdLib.toDouble "5" = some 5 := by
  simp [stdLib, decimalToDouble, unsignedDecimal, digitsValue]

/-! ## Trimming and the submission loop -/

theorem trimList_eq (l : List Char) :
    trimList l = List.rdropWhile isSpace (l.dropWhile isSpace) := rfl

theorem trimList_trimList (l : List Char) : trimList (trimList l) = trimList l := by
  have hb : (trimList l).dropWhile isSpace = trimList l := by
    obtain ⟨t, ht⟩ : trimList l <+: l.dropWhile isSpace := by
      rw [trimList_eq]; exact List.rdropWhile_prefix isSpace _
    cases hb : trimList l with
    | nil => rfl
    | cons x b =>
      have h := List.head?_dropWhile_not isSpace l
      rw [← ht, hb] at h
      simp only [List.cons_append, List.head?_cons] at h
      simp [h]
  rw [trimList_eq (trimList l), hb, trimList_eq l, List.rdropWhile_idempotent]

theorem trimmed_trimmed (m : String) : trimmed (trimmed m) = trimmed m := by
  simp [trimmed, trimList_trimList]

/-- The loop of `executeMovementSequence` appends the trimmed tokens that are not empty
once trimmed, in their order. -/
theorem appendMovements_eq (queue movements : List String) :
    appendMovements queue movements
      = queue ++ (movements.filter (fun m => !isEmpty (trimmed m))).map trimmed := by
  unfold appendMovements
  induction movements generalizing queue with
  | nil => simp
  | cons m ms ih =>
    rw [List.foldl_cons, ih]
    by_cases h : isEmpty (trimmed m) = true
    · simp [h]
    · simp [h]

theorem isEmpty_trimmed_of_form (movement : String) (xs : List Char) (dir : Char)
    (hc : (toUpper (trimmed movement)).data = xs ++ [dir]) :
    isEmpty (trimmed movement) = false := by
  cases hm : (trimmed movement).data with
  | nil =>
    have : (toUpper (trimmed movement)).data = [] := by simp [toUpper, hm]
    rw [this] at hc
    simp at hc
  | cons a l => simp [isEmpty, hm]

/-! ## One call of `checkMovementProgress` -/

/-- The state of a finished displacement or pure rotation, before the queue is advanced:
`stopRobot` has run, so the message reports the empty kind and the target zero. -/
theorem checkMovementProgress_displacement (L : Lib) (s : SocketControlExample)
    (hm : s.isMoving = true)
    (hk : s.currentMovementType = "forward" ∨ s.currentMovementType = "backward") :
    checkMovementProgress L s
      = if s.targetDistance ≤ distanceFrom L s.startPosition s.robot.pos then
          if s.executingQueue then
            executeNextCommand L (sendResponse (.okCompletedMovement "" 0)
              (stopRobot { s with currentDistance := distanceFrom L s.startPosition s.robot.pos }))
          else
            sendResponse (.okCompletedMovement "" 0)
              (stopRobot { s with currentDistance := distanceFrom L s.startPosition s.robot.pos })
        else { s with currentDistance := distanceFrom L s.startPosition s.robot.pos } := by
  unfold checkMovementProgress
  simp only [hm, Bool.not_true, Bool.false_eq_true, if_false, hk, if_true, ge_iff_le,
    distanceFrom, sendResponse, stopRobot]
  split_ifs <;> norm_num

/-- The three ways one sample of a pure rotation can go, with the increment of the
accumulation rule. -/
theorem checkMovementProgress_rotation (L : Lib) (s : SocketControlExample)
    (hm : s.isMoving = true)
    (hk : s.currentMovementType = "rotate_left" ∨ s.currentMovementType = "rotate_right") :
    checkMovementProgress L s
      = if s.targetDistance ≤ s.accumulatedRotation + increment s then
          if s.executingQueue then
            executeNextCommand L (sendResponse (.okCompletedRotation "" 0)
              { stopRobot s with accumulatedRotation := 0, lastAngle := s.robot.angle })
          else
            sendResponse (.okCompletedRotation "" 0)
              { stopRobot s with accumulatedRotation := 0, lastAngle := s.robot.angle }
        else
          { s with
            accumulatedRotation := s.accumulatedRotation + increment s
            lastAngle := s.robot.angle
            currentDistance := s.accumulatedRotation + increment s } := by
  have e1 : ("rotate_left" : String) ≠ "forward" := by decide
  have e2 : ("rotate_left" : String) ≠ "backward" := by decide
  have e3 : ("rotate_right" : String) ≠ "forward" := by decide
  have e4 : ("rotate_right" : String) ≠ "backward" := by decide
  have e5 : ("rotate_right" : String) ≠ "rotate_left" := by decide
  have e6 : ("rotate_right" : String) ≠ "turn_left_then_move" := by decide
  unfold checkMovementProgress increment leftIncrement rightIncrement angleDelta turnsLeft
  rcases hk with h | h
  · simp only [hm, h, e1, e2, Bool.not_true, Bool.false_eq_true, if_false, or_self, true_or,
      if_true, ge_iff_le, sendResponse, stopRobot, decide_True, Bool.true_or]
    split_ifs <;> first
      | (exfalso; linarith)
      | norm_num [h, hm]
  · simp only [hm, h, e3, e4, e5, e6, Bool.not_true, Bool.false_eq_true, if_false, or_self,
      or_true, if_true, ge_iff_le, sendResponse, stopRobot, decide_False, Bool.or_self]
    split_ifs <;> first
      | (exfalso; linarith)
      | norm_num [h, hm]

/-- The two ways one sample of the turn phase of a turn-then-move can go. -/
theorem checkMovementProgress_turn (L : Lib) (s : SocketControlExample)
    (hm : s.isMoving = true)
    (hk : s.currentMovementType = "turn_left_then_move"
      ∨ s.currentMovementType = "turn_right_then_move") :
    checkMovementProgress L s
      = if s.targetDistance ≤ s.accumulatedRotation + increment s then
          { sendResponse (.okRotationComplete s.pendingMoveDistance)
              (setSpeeds DEFAULT_SPEED DEFAULT_SPEED s) with
            accumulatedRotation := 0
            lastAngle := s.robot.angle
            startPosition := s.robot.pos
            targetDistance := s.pendingMoveDistance
            currentDistance := 0
            currentMovementType := "forward"
            pendingMoveDistance := 0 }
        else
          { s with
            accumulatedRotation := s.accumulatedRotation + increment s
            lastAngle := s.robot.angle
            currentDistance := s.accumulatedRotation + increment s } := by
  have e1 : ("turn_left_then_move" : String) ≠ "forward" := by decide
  have e2 : ("turn_left_then_move" : String) ≠ "backward" := by decide
  have e3 : ("turn_left_then_move" : String) ≠ "rotate_left" := by decide
  have e4 : ("turn_left_then_move" : String) ≠ "rotate_right" := by decide
  have f1 : ("turn_right_then_move" : String) ≠ "forward" := by decide
  have f2 : ("turn_right_then_move" : String) ≠ "backward" := by decide
  have f3 : ("turn_right_then_move" : String) ≠ "rotate_left" := by decide
  have f4 : ("turn_right_then_move" : String) ≠ "rotate_right" := by decide
  have f5 : ("turn_right_then_move" : String) ≠ "turn_left_then_move" := by decide
  unfold checkMovementProgress increment leftIncrement rightIncrement angleDelta turnsLeft
  rcases hk with h | h
  · simp only [hm, h, e1, e2, e3, e4, Bool.not_true, Bool.false_eq_true, if_false, or_self,
      true_or, if_true, ge_iff_le, sendResponse, setSpeeds, decide_True, decide_False,
      Bool.or_true]
    split_ifs <;> first
      | (exfalso; linarith)
      | norm_num [h, hm]
  · simp only [hm, h, f1, f2, f3, f4, f5, Bool.not_true, Bool.false_eq_true, if_false,
      or_self, or_true, if_true, ge_iff_le, sendResponse, setSpeeds, decide_False,
      Bool.or_self]
    split_ifs <;> first
      | (exfalso; linarith)
      | norm_num [h, hm]

/-! ## The normalisation loops and the accumulation rule -/

theorem M_PI_pos : 0 < M_PI := by norm_num [M_PI]

theorem whileAbove_of_le {a : ℚ} (h : a ≤ M_PI) : whileAbove a = a := by
  rw [whileAbove, if_neg (not_lt.mpr h)]

theorem whileBelow_of_le {a : ℚ} (h : -M_PI ≤ a) : whileBelow a = a := by
  rw [whileBelow, if_neg (not_lt.mpr h)]

theorem whileAbove_le (a : ℚ) : whileAbove a ≤ M_PI := by
  induction a using whileAbove.induct with
  | case1 a h ih => rw [whileAbove, if_pos h]; exact ih
  | case2 a h => rw [whileAbove, if_neg h]; exact not_lt.mp h

theorem whileBelow_ge (a : ℚ) : -M_PI ≤ whileBelow a := by
  induction a using whileBelow.induct with
  | case1 a h ih => rw [whileBelow, if_pos h]; exact ih
  | case2 a h => rw [whileBelow, if_neg h]; exact not_lt.mp h

theorem whileBelow_le {a : ℚ} (ha : a ≤ M_PI) : whileBelow a ≤ M_PI := by
  induction a using whileBelow.induct with
  | case1 a h ih =>
    rw [whileBelow, if_pos h]
    exact ih (by have := M_PI_pos; linarith)
  | case2 a h => rw [whileBelow, if_neg h]; exact ha

/-- The normalised difference lies between `-π` and `π`. -/
theorem angleDelta_range (s : SocketControlExample) :
    -M_PI ≤ angleDelta s ∧ angleDelta s ≤ M_PI :=
  ⟨whileBelow_ge _, whileBelow_le (whileAbove_le _)⟩

theorem leftIncrement_range {d : ℚ} (h1 : -M_PI ≤ d) (h2 : d ≤ M_PI) :
    0 ≤ leftIncrement d ∧ leftIncrement d < 3 * M_PI / 2 := by
  have := M_PI_pos
  unfold leftIncrement
  split_ifs with ha hb
  · constructor <;> linarith
  · constructor <;> linarith
  · constructor <;> linarith

theorem rightIncrement_range {d : ℚ} (h1 : -M_PI ≤ d) (h2 : d ≤ M_PI) :
    0 ≤ rightIncrement d ∧ rightIncrement d < 3 * M_PI / 2 := by
  have := M_PI_pos
  unfold rightIncrement
  split_ifs with ha hb
  · rw [abs_of_neg ha]; constructor <;> linarith
  · constructor <;> linarith
  · constructor <;> linarith

/-- The increment of a sample is never negative and stays below `3π/2`. -/
theorem increment_range (s : SocketControlExample) :
    0 ≤ increment s ∧ increment s < 3 * M_PI / 2 := by
  obtain ⟨h1, h2⟩ := angleDelta_range s
  unfold increment
  split
  · exact leftIncrement_range h1 h2
  · exact rightIncrement_range h1 h2

/-! ## What advancing the queue leaves alone -/

theorem stopIfMoving_frame (s : SocketControlExample) :
    (if s.isMoving then stopRobot s else s).robot.pos = s.robot.pos
      ∧ (if s.isMoving then stopRobot s else s).robot.angle = s.robot.angle
      ∧ (if s.isMoving then stopRobot s else s).lastAngle = s.lastAngle
      ∧ (if s.isMoving then stopRobot s else s).sent = s.sent
      ∧ (if s.isMoving then stopRobot s else s).commandQueue = s.commandQueue
      ∧ (if s.isMoving then stopRobot s else s).executingQueue = s.executingQueue := by
  split <;> simp [stopRobot]

/-- Advancing the queue never moves the robot, sets `lastAngle` to nothing but the
current heading, and sends at least one message. -/
theorem executeNextCommand_frame (L : Lib) (s : SocketControlExample) :
    (executeNextCommand L s).robot.pos = s.robot.pos
      ∧ (executeNextCommand L s).robot.angle = s.robot.angle
      ∧ ((executeNextCommand L s).lastAngle = s.lastAngle
          ∨ (executeNextCommand L s).lastAngle = s.robot.angle)
      ∧ ∃ msg more, (executeNextCommand L s).sent = s.sent ++ msg :: more := by
  refine executeNextCommand_rel L
    (fun s r => r.robot.pos = s.robot.pos ∧ r.robot.angle = s.robot.angle
      ∧ (r.lastAngle = s.lastAngle ∨ r.lastAngle = s.robot.angle)
      ∧ ∃ msg more, r.sent = s.sent ++ msg :: more) ?_ ?_ ?_ s
  · intro s _
    exact ⟨rfl, rfl, Or.inl rfl, _, [], rfl⟩
  · intro s movement rest r _ he
    obtain ⟨d, -, ha⟩ := commandEffect_done he
    obtain ⟨-, -, -, hp, hang, -, ⟨msg, hmsg⟩, hlast⟩ := armEffect_done ha
    obtain ⟨f1, f2, f3, f4, -, -⟩ := stopIfMoving_frame { s with commandQueue := rest }
    rw [f1] at hp
    rw [f2] at hang
    rw [f2, f3] at hlast
    rw [f4] at hmsg
    exact ⟨hp, hang, hlast, msg, [], hmsg⟩
  · intro s movement rest s1 r _ he ⟨h1, h2, h3, msg, more, h4⟩
    obtain ⟨f1, f2, f3, f4, -, -⟩ := stopIfMoving_frame { s with commandQueue := rest }
    rcases commandEffect_next he with rfl | ⟨e, -, rfl | rfl⟩
    · exact ⟨h1, h2, h3, msg, more, h4⟩
    · exact ⟨h1, h2, h3, e, msg :: more, by simpa [sendResponse] using h4⟩
    · simp only [sendResponse] at h1 h2 h3 h4
      rw [f1] at h1
      rw [f2] at h2
      rw [f2, f3] at h3
      rw [f4] at h4
      exact ⟨h1, h2, h3, e, msg :: more, by simpa using h4⟩

theorem completions_append (l1 l2 : List Response) :
    completions (l1 ++ l2) = completions l1 + completions l2 := by
  simp [completions]

theorem increment_turnLeftThreeTurned : increment turnLeftThreeTurned = 2 := by
  have h1 : whileAbove (2 : ℚ) = 2 := whileAbove_of_le (by norm_num [M_PI])
  have h2 : whileBelow (2 : ℚ) = 2 := whileBelow_of_le (by norm_num [M_PI])
  simp [increment, turnsLeft, angleDelta, turnLeftThreeTurned, initial, leftIncrement, h1, h2]

theorem increment_rotateLeftQuarterTurned : increment rotateLeftQuarterTurned = 1 := by
  have h1 : whileAbove (1 : ℚ) = 1 := whileAbove_of_le (by norm_num [M_PI])
  have h2 : whileBelow (1 : ℚ) = 1 := whileBelow_of_le (by norm_num [M_PI])
  simp [increment, turnsLeft, angleDelta, rotateLeftQuarterTurned, initial, leftIncrement,
    h1, h2]

/-- A command line that is not a literal and has a token goes to
`executeMovementSequence`. -/
theorem processCommand_movements (L : Lib) (s : SocketControlExample) (command : String)
    (h1 : toLower (trimmed command) ≠ "status") (h2 : toLower (trimmed command) ≠ "quit")
    (h3 : toLower (trimmed command) ≠ "stop")
    (h4 : (split ';' (trimmed command)).isEmpty = false) :
    processCommand L s command
      = executeMovementSequence L s (split ';' (trimmed command)) := by
  simp only [processCommand, if_neg h1, if_neg h2, if_neg h3, h4, Bool.false_eq_true,
    if_false]

/-- A submission made while Idle replaces the queue and starts its first token. -/
theorem executeMovementSequence_idle (L : Lib) (s : SocketControlExample)
    (movements : List String) (h1 : movements.isEmpty = false) (h2 : s.isMoving = false) :
    executeMovementSequence L s movements
      = executeNextCommand L
          { s with commandQueue := appendMovements [] movements, executingQueue := true } := by
  simp only [executeMovementSequence, h1, h2, Bool.false_eq_true, if_false]

theorem stdLib_toDouble_0 : stdLib.toDouble "0" = some 0 := by
  simp [stdLib, decimalToDouble, unsignedDecimal, digitsValue]

theorem increment_rotateLeftZeroTurned : increment rotateLeftZeroTurned = 1 := by
  have h1 : whileAbove (1 : ℚ) = 1 := whileAbove_of_le (by norm_num [M_PI])
  have h2 : whileBelow (1 : ℚ) = 1 := whileBelow_of_le (by norm_num [M_PI])
  simp [increment, turnsLeft, angleDelta, rotateLeftZeroTurned, initial, leftIncrement,
    h1, h2]

theorem processCommand_R0L :
    setPose ⟨60, 60⟩ 1 (processCommand stdLib initial "R0L") = rotateLeftZeroTurned := by
  rw [processCommand_movements _ _ _ (by decide) (by decide) (by decide) (by decide),
    show split ';' (trimmed "R0L") = ["R0L"] by decide,
    executeMovementSequence_idle stdLib initial ["R0L"] rfl rfl,
    show appendMovements [] ["R0L"] = ["R0L"] by decide,
    executeNextCommand_cons _ _ "R0L" [] rfl,
    commandEffect_number _ _ _ 0 (by decide) (by decide) stdLib_toDouble_0 (by norm_num),
    show isRotationCommand (toUpper (trimmed "R0L")) = true by decide,
    show directionOf (toUpper (trimmed "R0L")) = 'L' by decide]
  norm_num [armEffect, Outcome.finish, sendResponse, setSpeeds, resetRotationTracking,
    DEFAULT_SPEED, initial, setPose, rotateLeftZeroTurned]

/-- A sample that leaves a rotation below its target only updates the progress, the
reference heading and the pose. -/
theorem tick_below_target (L : Lib) (s : SocketControlExample) (sample : Point × ℚ)
    (hm : s.isMoving = true)
    (hk : s.currentMovementType = "rotate_left" ∨ s.currentMovementType = "rotate_right"
      ∨ s.currentMovementType = "turn_left_then_move"
      ∨ s.currentMovementType = "turn_right_then_move")
    (hlt : (setPose sample.1 sample.2 s).accumulatedRotation
        + increment (setPose sample.1 sample.2 s) < s.targetDistance) :
    tick L s sample
      = { setPose sample.1 sample.2 s with
          accumulatedRotation := s.accumulatedRotation + increment (setPose sample.1 sample.2 s)
          lastAngle := sample.2
          currentDistance :=
            s.accumulatedRotation + increment (setPose sample.1 sample.2 s) } := by
  have hm2 : (setPose sample.1 sample.2 s).isMoving = true := hm
  have hk2 : ((setPose sample.1 sample.2 s).currentMovementType = "rotate_left"
        ∨ (setPose sample.1 sample.2 s).currentMovementType = "rotate_right")
      ∨ ((setPose sample.1 sample.2 s).currentMovementType = "turn_left_then_move"
        ∨ (setPose sample.1 sample.2 s).currentMovementType = "turn_right_then_move") := by
    have : (setPose sample.1 sample.2 s).currentMovementType = s.currentMovementType := rfl
    rw [this]; tauto
  have hlt2 : ¬ (setPose sample.1 sample.2 s).targetDistance
      ≤ (setPose sample.1 sample.2 s).accumulatedRotation
        + increment (setPose sample.1 sample.2 s) := not_le.mpr hlt
  unfold tick timerEvent
  rw [if_pos hm2]
  rcases hk2 with h | h
  · rw [checkMovementProgress_rotation L _ hm2 h, if_neg hlt2]; rfl
  · rw [checkMovementProgress_turn L _ hm2 h, if_neg hlt2]; rfl

theorem ticks_keepsTurning (L : Lib) (samples : List (Point × ℚ)) :
    ∀ s : SocketControlExample, s.isMoving = true →
      (s.currentMovementType = "rotate_left" ∨ s.currentMovementType = "rotate_right"
        ∨ s.currentMovementType = "turn_left_then_move"
        ∨ s.currentMovementType = "turn_right_then_move") →
      keepsTurning L s samples →
      (ticks L s samples).isMoving = true
        ∧ (ticks L s samples).currentMovementType = s.currentMovementType
        ∧ (ticks L s samples).targetDistance = s.targetDistance
        ∧ s.accumulatedRotation ≤ (ticks L s samples).accumulatedRotation
        ∧ (samples ≠ [] → (ticks L s samples).accumulatedRotation < s.targetDistance) := by
  induction samples with
  | nil =>
    intro s hm _ _
    exact ⟨hm, rfl, rfl, le_refl _, fun h => absurd rfl h⟩
  | cons p ps ih =>
    intro s hm hk hrun
    obtain ⟨hlt, hrest⟩ := hrun
    have ht := tick_below_target L s p hm hk hlt
    have hinc := (increment_range (setPose p.1 p.2 s)).1
    have hm1 : (tick L s p).isMoving = true := by rw [ht]; exact hm
    have hk1 : (tick L s p).currentMovementType = s.currentMovementType := by rw [ht]; rfl
    have htg : (tick L s p).targetDistance = s.targetDistance := by rw [ht]; rfl
    have hacc : (tick L s p).accumulatedRotation
        = s.accumulatedRotation + increment (setPose p.1 p.2 s) := by rw [ht]
    obtain ⟨i1, i2, i3, i4, i5⟩ := ih (tick L s p) hm1 (by rw [hk1]; exact hk) hrest
    have hfold : ticks L s (p :: ps) = ticks L (tick L s p) ps := rfl
    rw [hfold]
    refine ⟨i1, i2.trans hk1, i3.trans htg, ?_, ?_⟩
    · rw [hacc] at i4; linarith
    · intro _
      by_cases hps : ps = []
      · subst hps
        show (tick L s p).accumulatedRotation < s.targetDistance
        rw [hacc]; exact hlt
      · rw [← htg]; exact i5 hps

/-! ## Ticks of a displacement -/

theorem tick_displacement_below (L : Lib) (s : SocketControlExample) (sample : Point × ℚ)
    (hm : s.isMoving = true)
    (hk : s.currentMovementType = "forward" ∨ s.currentMovementType = "backward")
    (hlt : distanceFrom L s.startPosition sample.1 < s.targetDistance) :
    tick L s sample
      = { setPose sample.1 sample.2 s with
          currentDistance := distanceFrom L s.startPosition sample.1 } := by
  unfold tick timerEvent
  rw [if_pos (show (setPose sample.1 sample.2 s).isMoving = true from hm),
    checkMovementProgress_displacement L (setPose sample.1 sample.2 s) hm hk,
    if_neg (show ¬ (setPose sample.1 sample.2 s).targetDistance
      ≤ distanceFrom L (setPose sample.1 sample.2 s).startPosition
          (setPose sample.1 sample.2 s).robot.pos from not_le.mpr hlt)]
  rfl

theorem tick_displacement_reached (L : Lib) (s : SocketControlExample) (sample : Point × ℚ)
    (hm : s.isMoving = true)
    (hk : s.currentMovementType = "forward" ∨ s.currentMovementType = "backward")
    (hq : s.commandQueue = [])
    (hge : s.targetDistance ≤ distanceFrom L s.startPosition sample.1) :
    (tick L s sample).isMoving = false
      ∧ (tick L s sample).robot.leftSpeed = 0 ∧ (tick L s sample).robot.rightSpeed = 0
      ∧ (tick L s sample).commandQueue = []
      ∧ completions (tick L s sample).sent = completions s.sent + 1 := by
  unfold tick timerEvent
  rw [if_pos (show (setPose sample.1 sample.2 s).isMoving = true from hm),
    checkMovementProgress_displacement L (setPose sample.1 sample.2 s) hm hk,
    if_pos (show (setPose sample.1 sample.2 s).targetDistance
      ≤ distanceFrom L (setPose sample.1 sample.2 s).startPosition
          (setPose sample.1 sample.2 s).robot.pos from hge)]
  split_ifs
  · rw [executeNextCommand_nil L]
    · norm_num [sendResponse, stopRobot, setPose, hq, completions_append, completions,
        isCompletion]
    · exact hq
  · norm_num [sendResponse, stopRobot, setPose, hq, completions_append, completions,
      isCompletion]

theorem ticks_idle (L : Lib) (samples : List (Point × ℚ)) :
    ∀ s : SocketControlExample, s.isMoving = false →
      (ticks L s samples).isMoving = false
        ∧ (ticks L s samples).robot.leftSpeed = s.robot.leftSpeed
        ∧ (ticks L s samples).robot.rightSpeed = s.robot.rightSpeed
        ∧ (ticks L s samples).commandQueue = s.commandQueue
        ∧ (ticks L s samples).sent = s.sent := by
  induction samples with
  | nil => intro s hm; exact ⟨hm, rfl, rfl, rfl, rfl⟩
  | cons p ps ih =>
    intro s hm
    have ht : tick L s p = setPose p.1 p.2 s := by
      unfold tick timerEvent
      rw [if_neg (show ¬ (setPose p.1 p.2 s).isMoving = true by
        rw [show (setPose p.1 p.2 s).isMoving = s.isMoving from rfl, hm]; simp)]
    have hfold : ticks L s (p :: ps) = ticks L (tick L s p) ps := rfl
    rw [hfold, ht]
    exact ih (setPose p.1 p.2 s) hm

theorem sqrt_25 : Rat.sqrt 25 = 5 := by
  rw [show (25 : ℚ) = 5 * 5 by norm_num, Rat.sqrt_eq]; norm_num

theorem sqrt_100 : Rat.sqrt 100 = 10 := by
  rw [show (100 : ℚ) = 10 * 10 by norm_num, Rat.sqrt_eq]; norm_num

theorem processCommand_10F_R90F_5F :
    processCommand stdLib initial "10F;R90F;5F" = forwardTenThenBadRotation := by
  rw [processCommand_movements _ _ _ (by decide) (by decide) (by decide) (by decide),
    show split ';' (trimmed "10F;R90F;5F") = ["10F", "R90F", "5F"] by decide,
    executeMovementSequence_idle stdLib initial ["10F", "R90F", "5F"] rfl rfl,
    show appendMovements [] ["10F", "R90F", "5F"] = ["10F", "R90F", "5F"] by decide,
    executeNextCommand_cons _ _ "10F" ["R90F", "5F"] rfl,
    commandEffect_number _ _ _ 10 (by decide) (by decide) stdLib_toDouble_10 (by norm_num),
    show isRotationCommand (toUpper (trimmed "10F")) = false by decide,
    show isDisplacementCommand (toUpper (trimmed "10F")) = true by decide,
    show directionOf (toUpper (trimmed "10F")) = 'F' by decide]
  norm_num [armEffect, Outcome.finish, sendResponse, setSpeeds, DEFAULT_SPEED, initial,
    forwardTenThenBadRotation]

theorem processCommand_10F :
    processCommand stdLib initial "10F" = forwardTenArmed := by
  rw [processCommand_movements _ _ _ (by decide) (by decide) (by decide) (by decide),
    show split ';' (trimmed "10F") = ["10F"] by decide,
    executeMovementSequence_idle stdLib initial ["10F"] rfl rfl,
    show appendMovements [] ["10F"] = ["10F"] by decide,
    executeNextCommand_cons _ _ "10F" [] rfl,
    commandEffect_number _ _ _ 10 (by decide) (by decide) stdLib_toDouble_10 (by norm_num),
    show isRotationCommand (toUpper (trimmed "10F")) = false by decide,
    show isDisplacementCommand (toUpper (trimmed "10F")) = true by decide,
    show directionOf (toUpper (trimmed "10F")) = 'F' by decide]
  norm_num [armEffect, Outcome.finish, sendResponse, setSpeeds, DEFAULT_SPEED, initial,
    forwardTenArmed]

theorem processCommand_R90F :
    processCommand stdLib initial "R90F" = stuckRotation := by
  rw [processCommand_movements _ _ _ (by decide) (by decide) (by decide) (by decide),
    show split ';' (trimmed "R90F") = ["R90F"] by decide,
    executeMovementSequence_idle stdLib initial ["R90F"] rfl rfl,
    show appendMovements [] ["R90F"] = ["R90F"] by decide,
    executeNextCommand_cons _ _ "R90F" [] rfl,
    commandEffect_number _ _ _ 90 (by decide) (by decide) stdLib_toDouble_90 (by norm_num),
    show isRotationCommand (toUpper (trimmed "R90F")) = true by decide,
    show directionOf (toUpper (trimmed "R90F")) = 'F' by decide]
  have c1 : ('F' : Char) ≠ 'L' := by decide
  have c2 : ('F' : Char) ≠ 'R' := by decide
  norm_num [armEffect, Outcome.finish, sendResponse, setSpeeds, DEFAULT_SPEED, initial,
    stuckRotation, c1, c2]

/-! ## The loops, iteration by iteration -/

/-- The first loop runs `n` times: the condition holds before each of the `n` rounds and
fails after the last, and every round subtracts `2π`. -/
theorem whileAbove_rounds (a : ℚ) :
    ∃ n : ℕ, (∀ k : ℕ, k < n → a - k * (2 * M_PI) > M_PI)
      ∧ ¬ (a - n * (2 * M_PI) > M_PI)
      ∧ whileAbove a = a - n * (2 * M_PI) := by
  induction a using whileAbove.induct with
  | case1 a h ih =>
    obtain ⟨n, h1, h2, h3⟩ := ih
    refine ⟨n + 1, ?_, ?_, ?_⟩
    · intro k hk
      cases k with
      | zero => simpa using h
      | succ j =>
        have := h1 j (by omega)
        push_cast
        linarith
    · push_cast
      intro hgt
      exact h2 (by linarith)
    · rw [whileAbove, if_pos h, h3]
      push_cast
      ring
  | case2 a h =>
    refine ⟨0, ?_, ?_, ?_⟩
    · intro k hk
      omega
    · simpa using h
    · rw [whileAbove, if_neg h]
      simp

/-- The second loop runs `m` times: the condition holds before each of the `m` rounds and
fails after the last, and every round adds `2π`. -/
theorem whileBelow_rounds (a : ℚ) :
    ∃ m : ℕ, (∀ k : ℕ, k < m → a + k * (2 * M_PI) < -M_PI)
      ∧ ¬ (a + m * (2 * M_PI) < -M_PI)
      ∧ whileBelow a = a + m * (2 * M_PI) := by
  induction a using whileBelow.induct with
  | case1 a h ih =>
    obtain ⟨m, h1, h2, h3⟩ := ih
    refine ⟨m + 1, ?_, ?_, ?_⟩
    · intro k hk
      cases k with
      | zero => simpa using h
      | succ j =>
        have := h1 j (by omega)
        push_cast
        linarith
    · push_cast
      intro hlt
      exact h2 (by linarith)
    · rw [whileBelow, if_pos h, h3]
      push_cast
      ring
  | case2 a h =>
    refine ⟨0, ?_, ?_, ?_⟩
    · intro k hk
      omega
    · simpa using h
    · rw [whileBelow, if_neg h]
      simp

theorem angleDelta_rotateLeftHalfTurnBack : angleDelta rotateLeftHalfTurnBack = -M_PI := by
  have h0 : rotateLeftHalfTurnBack.robot.angle - rotateLeftHalfTurnBack.lastAngle = -M_PI := by
    simp [rotateLeftHalfTurnBack]
  have hpi := M_PI_pos
  unfold angleDelta
  rw [h0, whileAbove_of_le (by linarith), whileBelow_of_le (le_refl _)]

/-! ## Tokens that are refused -/

theorem commandEffect_empty (L : Lib) (s : SocketControlExample) (movement : String)
    (h : isEmpty movement = true) : commandEffect L s movement = .next s := by
  simp only [commandEffect, if_pos h]

theorem commandEffect_short (L : Lib) (s : SocketControlExample) (movement : String)
    (h1 : isEmpty movement = false) (h2 : length (toUpper (trimmed movement)) < 2) :
    commandEffect L s movement
      = .next (sendResponse (.errInvalidMovementFormat movement) s) := by
  simp only [commandEffect, h1, Bool.false_eq_true, if_false, if_pos h2]

theorem commandEffect_badNumber (L : Lib) (s : SocketControlExample) (movement : String)
    (h1 : isEmpty movement = false) (h2 : 2 ≤ length (toUpper (trimmed movement)))
    (h3 : L.toDouble (numberStrOf (toUpper (trimmed movement))) = none
      ∨ ∃ d, L.toDouble (numberStrOf (toUpper (trimmed movement))) = some d ∧ d < 0) :
    commandEffect L s movement
      = .next (sendResponse
          (.errInvalidDistance movement (numberStrOf (toUpper (trimmed movement)))) s) := by
  rcases h3 with h3 | ⟨d, h3, hd⟩
  · simp only [commandEffect, h1, Bool.false_eq_true, if_false, not_lt.mpr h2, h3]
  · simp only [commandEffect, h1, Bool.false_eq_true, if_false, not_lt.mpr h2, h3, if_pos hd]

theorem armEffect_badDirection (s : SocketControlExample) (movement : String) (dir : Char)
    (d : ℚ) (hF : dir ≠ 'F') (hB : dir ≠ 'B') (hL : dir ≠ 'L') (hR : dir ≠ 'R') :
    armEffect s movement false true dir d
      = .next (sendResponse (.errInvalidDisplacementDirection dir) s) := by
  simp only [armEffect, Bool.false_eq_true, if_false, if_true, hF, hB, hL, hR]

theorem armEffect_unknown (s : SocketControlExample) (movement : String) (dir : Char)
    (d : ℚ) :
    armEffect s movement false false dir d
      = .next (sendResponse (.errUnknownCommandType movement) s) := by
  simp only [armEffect, Bool.false_eq_true, if_false]

/-- A token that is not in rotation mode and whose direction is none of the four letters
is answered with one error, after which the queue is advanced. -/
theorem commandEffect_refused (L : Lib) (s : SocketControlExample) (movement : String)
    (hne : isEmpty movement = false)
    (hrot : isRotationCommand (toUpper (trimmed movement)) = false)
    (hF : directionOf (toUpper (trimmed movement)) ≠ 'F')
    (hB : directionOf (toUpper (trimmed movement)) ≠ 'B')
    (hL : directionOf (toUpper (trimmed movement)) ≠ 'L')
    (hR : directionOf (toUpper (trimmed movement)) ≠ 'R') :
    ∃ e, isError e = true
      ∧ (commandEffect L s movement = .next (sendResponse e s)
        ∨ commandEffect L s movement
          = .next (sendResponse e (if s.isMoving then stopRobot s else s)))
      ∧ (∀ n, 2 ≤ length (toUpper (trimmed movement)) →
          L.toDouble (numberStrOf (toUpper (trimmed movement))) = some n → 0 ≤ n →
          isDisplacementCommand (toUpper (trimmed movement)) = true →
          e = .errInvalidDisplacementDirection (directionOf (toUpper (trimmed movement)))) := by
  by_cases h2 : length (toUpper (trimmed movement)) < 2
  · refine ⟨.errInvalidMovementFormat movement, rfl,
      Or.inl (commandEffect_short L s movement hne h2), ?_⟩
    intro n h2' _ _ _
    omega
  cases hv : L.toDouble (numberStrOf (toUpper (trimmed movement))) with
  | none =>
    refine ⟨.errInvalidDistance movement (numberStrOf (toUpper (trimmed movement))), rfl,
      Or.inl (commandEffect_badNumber L s movement hne (not_lt.mp h2) (Or.inl hv)), ?_⟩
    intro n _ hn _ _
    cases hn
  | some d =>
    by_cases hd : d < 0
    · refine ⟨.errInvalidDistance movement (numberStrOf (toUpper (trimmed movement))), rfl,
        Or.inl (commandEffect_badNumber L s movement hne (not_lt.mp h2) (Or.inr ⟨d, hv, hd⟩)),
        ?_⟩
      intro n _ hn hn0 _
      cases hn
      exact absurd hd (not_lt.mpr hn0)
    · have hnum := commandEffect_number L s movement d hne (not_lt.mp h2) hv (not_lt.mp hd)
      rw [hrot] at hnum
      cases hdisp : isDisplacementCommand (toUpper (trimmed movement)) with
      | true =>
        rw [hdisp, armEffect_badDirection _ _ _ _ hF hB hL hR] at hnum
        exact ⟨.errInvalidDisplacementDirection (directionOf (toUpper (trimmed movement))),
          rfl, Or.inr hnum, fun _ _ _ _ _ => rfl⟩
      | false =>
        rw [hdisp, armEffect_unknown] at hnum
        refine ⟨.errUnknownCommandType movement, rfl, Or.inr hnum, ?_⟩
        intro n _ _ _ h
        cases h

theorem sameButLog_iff (a b : SocketControlExample) :
    sameButLog a b ↔ ∃ l, b = { a with sent := l } := by
  constructor
  · intro h; exact ⟨b.sent, h.symm⟩
  · rintro ⟨l, rfl⟩; rfl

theorem armEffect_sameButLog (s : SocketControlExample) (l : List Response)
    (movement : String) (rot disp : Bool) (dir : Char) (d : ℚ) :
    Outcome.sameButLog (armEffect s movement rot disp dir d)
      (armEffect { s with sent := l } movement rot disp dir d) := by
  unfold armEffect
  split_ifs <;> simp [Outcome.sameButLog, sameButLog, sendResponse, resetRotationTracking,
    setSpeeds]

theorem commandEffect_sameButLog (L : Lib) (s : SocketControlExample) (l : List Response)
    (movement : String) :
    Outcome.sameButLog (commandEffect L s movement)
      (commandEffect L { s with sent := l } movement) := by
  have hstop : (if ({ s with sent := l } : SocketControlExample).isMoving
        then stopRobot { s with sent := l } else { s with sent := l })
      = { (if s.isMoving then stopRobot s else s) with sent := l } := by
    show (if s.isMoving then _ else _) = _
    split <;> rfl
  unfold commandEffect
  by_cases h1 : isEmpty movement = true
  · simp only [if_pos h1]; exact rfl
  simp only [if_neg h1]
  by_cases h2 : length (toUpper (trimmed movement)) < 2
  · simp only [if_pos h2]; exact rfl
  simp only [if_neg h2]
  cases L.toDouble (numberStrOf (toUpper (trimmed movement))) with
  | none => exact rfl
  | some d =>
    by_cases h3 : d < 0
    · simp only [if_pos h3]; exact rfl
    · simp only [if_neg h3]
      rw [hstop]
      exact armEffect_sameButLog _ l movement _ _ _ d

/-- What advancing the queue does to the controller does not depend on the log. -/
theorem executeNextCommand_sameButLog (L : Lib) (s t : SocketControlExample)
    (h : sameButLog s t) :
    sameButLog (executeNextCommand L s) (executeNextCommand L t) := by
  generalize hn : s.commandQueue.length = n
  induction n generalizing s t with
  | zero =>
    obtain ⟨l, rfl⟩ := (sameButLog_iff s t).mp h
    have hq : s.commandQueue = [] := List.length_eq_zero.mp hn
    rw [executeNextCommand_nil L s hq, executeNextCommand_nil L { s with sent := l } hq]
    rfl
  | succ n ih =>
    obtain ⟨l, rfl⟩ := (sameButLog_iff s t).mp h
    obtain ⟨movement, rest, hq⟩ : ∃ m r, s.commandQueue = m :: r := by
      cases hs : s.commandQueue with
      | nil => simp [hs] at hn
      | cons m r => exact ⟨m, r, rfl⟩
    rw [executeNextCommand_cons L s movement rest hq,
      executeNextCommand_cons L { s with sent := l } movement rest hq]
    have hce := commandEffect_sameButLog L { s with commandQueue := rest } l movement
    have hlen : ∀ s1, commandEffect L { s with commandQueue := rest } movement = .next s1 →
        s1.commandQueue.length = n := by
      intro s1 he
      rw [commandEffect_next_queue he]
      simp [hq] at hn
      simpa using hn
    revert hce
    cases he : commandEffect L { s with commandQueue := rest } movement with
    | next s1 =>
      cases he2 : commandEffect L
          { ({ s with sent := l } : SocketControlExample) with commandQueue := rest }
          movement with
      | next t1 =>
        intro hce
        show sameButLog (executeNextCommand L s1) (executeNextCommand L t1)
        exact ih s1 t1 (by simpa [he2, Outcome.sameButLog] using hce) (hlen s1 he)
      | done t1 =>
        intro hce
        simp [he2, Outcome.sameButLog] at hce
    | done r1 =>
      cases he2 : commandEffect L
          { ({ s with sent := l } : SocketControlExample) with commandQueue := rest }
          movement with
      | next t1 =>
        intro hce
        simp [he2, Outcome.sameButLog] at hce
      | done t1 =>
        intro hce
        show sameButLog r1 t1
        simpa [he2, Outcome.sameButLog] using hce

theorem sameButLog_sendResponse (e : Response) (s : SocketControlExample) :
    sameButLog (sendResponse e s) s := rfl

theorem parts_of_other_letter (c : String) (x : Char) (num : List Char) (dir : Char)
    (hc : c.data = x :: num ++ [dir]) (hx : isLetter x = true) (hxR : x ≠ 'R')
    (hxD : x ≠ 'D') :
    2 ≤ length c ∧ directionOf c = dir ∧ numberStrOf c = ⟨num⟩
      ∧ isRotationCommand c = false ∧ isDisplacementCommand c = false := by
  rw [string_eq_of_data c _ hc]
  have hm : magnitudeField ⟨x :: (num ++ [dir])⟩ = ⟨x :: num⟩ :=
    magnitudeField_snoc (x :: num) dir
  refine ⟨by simp [length], directionOf_snoc (x :: num) dir, ?_⟩
  simp [numberStrOf, isRotationCommand, isDisplacementCommand, startsWithLetter, hm, isEmpty,
    charAt, mid, hx, hxR, hxD]

theorem stdLib_toDouble_neg5 : stdLib.toDouble "-5" = some (-5) := by
  simp [stdLib, decimalToDouble, unsignedDecimal, digitsValue]

/-! ## Wheel speeds -/

/-- A token that denotes an intent leaves the wheel speeds of that intent. -/
theorem commandEffect_arms_speeds (L : Lib) (s : SocketControlExample) (movement : String)
    (pre num : List Char) (dir : Char) (n : ℚ) (intent : MotionIntent)
    (hform : (toUpper (trimmed movement)).data = pre ++ num ++ [dir])
    (hpre : pre = [] ∨ pre = ['D'] ∨ pre = ['R'])
    (hnum : ∃ x xs, num = x :: xs ∧ isLetter x = false)
    (hval : L.toDouble ⟨num⟩ = some n) (hn : 0 ≤ n)
    (hi : denotes pre dir n = some intent) :
    ∃ r, commandEffect L s movement = .done r
      ∧ (r.robot.leftSpeed, r.robot.rightSpeed) = speedsFor intent := by
  obtain ⟨h2, hdir, hns, hrot, hdisp⟩ := parts_of_form _ pre num dir hform hpre hnum
  have h1 : isEmpty movement = false := isEmpty_of_form movement (pre ++ num) dir hform
  rw [commandEffect_number L s movement n h1 h2 (by rw [hns]; exact hval) hn, hdir, hrot,
    hdisp]
  generalize (if s.isMoving then stopRobot s else s) = t
  unfold denotes at hi
  unfold armEffect
  by_cases hR : pre = ['R']
  · simp only [hR, if_true, decide_True] at hi ⊢
    split_ifs at hi ⊢ with hL hR2
    all_goals
      cases hi
      refine ⟨_, rfl, ?_⟩
      norm_num [speedsFor, resetRotationTracking, sendResponse, setSpeeds, DEFAULT_SPEED]
  · have hD : pre = [] ∨ pre = ['D'] := by tauto
    simp only [hR, if_false, decide_False, hD, if_true, Bool.not_false,
      Bool.false_eq_true] at hi ⊢
    split_ifs at hi ⊢
    all_goals
      cases hi
      refine ⟨_, rfl, ?_⟩
      norm_num [speedsFor, resetRotationTracking, sendResponse, setSpeeds, DEFAULT_SPEED]

/-- The sample at which the turn phase reaches its target switches the wheels to the
forward speeds. -/
theorem tick_turn_reached_speeds (L : Lib) (t : SocketControlExample) (sample : Point × ℚ)
    (hm : t.isMoving = true)
    (hk : t.currentMovementType = "turn_left_then_move"
      ∨ t.currentMovementType = "turn_right_then_move")
    (hge : t.targetDistance ≤ (setPose sample.1 sample.2 t).accumulatedRotation
        + increment (setPose sample.1 sample.2 t)) :
    (tick L t sample).robot.leftSpeed = DEFAULT_SPEED
      ∧ (tick L t sample).robot.rightSpeed = DEFAULT_SPEED
      ∧ (tick L t sample).currentMovementType = "forward"
      ∧ (tick L t sample).isMoving = true := by
  unfold tick timerEvent
  rw [if_pos (show (setPose sample.1 sample.2 t).isMoving = true from hm),
    checkMovementProgress_turn L (setPose sample.1 sample.2 t) hm hk,
    if_pos (show (setPose sample.1 sample.2 t).targetDistance ≤ _ from hge)]
  exact ⟨rfl, rfl, rfl, hm⟩

theorem processCommand_10F_5R :
    processCommand stdLib initial "10F;5R" = forwardTenActive := by
  rw [processCommand_movements _ _ _ (by decide) (by decide) (by decide) (by decide),
    show split ';' (trimmed "10F;5R") = ["10F", "5R"] by decide,
    executeMovementSequence_idle stdLib initial ["10F", "5R"] rfl rfl,
    show appendMovements [] ["10F", "5R"] = ["10F", "5R"] by decide,
    executeNextCommand_cons _ _ "10F" ["5R"] rfl,
    commandEffect_number _ _ _ 10 (by decide) (by decide) stdLib_toDouble_10 (by norm_num),
    show isRotationCommand (toUpper (trimmed "10F")) = false by decide,
    show isDisplacementCommand (toUpper (trimmed "10F")) = true by decide,
    show directionOf (toUpper (trimmed "10F")) = 'F' by decide]
  norm_num [armEffect, Outcome.finish, sendResponse, setSpeeds, DEFAULT_SPEED, initial,
    forwardTenActive]

/-- The queue is advanced when a displacement reaches its target while the queue is being
executed. -/
theorem tick_displacement_reached_next (L : Lib) (t : SocketControlExample)
    (sample : Point × ℚ) (hm : t.isMoving = true)
    (hk : t.currentMovementType = "forward" ∨ t.currentMovementType = "backward")
    (he : t.executingQueue = true)
    (hge : t.targetDistance ≤ distanceFrom L t.startPosition sample.1) :
    tick L t sample
      = executeNextCommand L (sendResponse (.okCompletedMovement "" 0)
          (stopRobot { setPose sample.1 sample.2 t with
            currentDistance := distanceFrom L t.startPosition sample.1 })) := by
  unfold tick timerEvent
  rw [if_pos (show (setPose sample.1 sample.2 t).isMoving = true from hm),
    checkMovementProgress_displacement L (setPose sample.1 sample.2 t) hm hk,
    if_pos (show (setPose sample.1 sample.2 t).targetDistance
      ≤ distanceFrom L (setPose sample.1 sample.2 t).startPosition
          (setPose sample.1 sample.2 t).robot.pos from hge),
    if_pos (show (setPose sample.1 sample.2 t).executingQueue = true from he)]
  rfl

/-! ## The calls of `executeSingleCommand` -/

theorem entries_nil (L : Lib) (s : SocketControlExample) (h : s.commandQueue = []) :
    entries L s = [] := by
  rw [entries, h]; rfl

/-- The calls of `executeSingleCommand` follow the recursion of `executeNextCommand`. -/
theorem entries_cons (L : Lib) (s : SocketControlExample) (movement : String)
    (rest : List String) (h : s.commandQueue = movement :: rest) :
    entries L s
      = ({ s with commandQueue := rest }, movement) ::
          match commandEffect L { s with commandQueue := rest } movement with
          | .next s1 => entries L s1
          | .done _ => [] := by
  rw [entries, h, entriesFrom]
  cases he : commandEffect L { s with commandQueue := rest } movement with
  | done r => rfl
  | next s1 =>
    simp only [entries]
    rw [commandEffect_next_queue he]

/-- Where `nextCallOf` gives a state, the event is handled by `executeNextCommand` on
that state. -/
theorem step_of_nextCallOf (L : Lib) (s s1 : SocketControlExample) (event : Event)
    (h : nextCallOf L s event = some s1) : step L s event = executeNextCommand L s1 := by
  cases event with
  | command line =>
    simp only [nextCallOf] at h
    split_ifs at h with h1 h2 h3 h4 h5
    cases h
    have h4' : (split ';' (trimmed line)).isEmpty = false := by simpa using h4
    have h5' : s.isMoving = false := by simpa using h5
    show processCommand L s line = _
    rw [processCommand_movements L s line h1 h2 h3 h4',
      executeMovementSequence_idle L s _ h4' h5']
  | timer =>
    simp only [nextCallOf] at h
    have hm : s.isMoving = true := by
      by_contra hc
      simp [hc] at h
    have hnm : (!s.isMoving) = false := by rw [hm]; rfl
    show timerEvent L s = _
    unfold timerEvent
    rw [if_pos hm]
    by_cases hk : s.currentMovementType = "forward" ∨ s.currentMovementType = "backward"
    · rw [checkMovementProgress_displacement L s hm hk]
      rw [hnm] at h
      simp only [hk, Bool.false_eq_true, if_false, if_true] at h
      split_ifs at h with h1 h2
      cases h
      rw [if_pos h1, if_pos h2]
    · by_cases hk2 : s.currentMovementType = "rotate_left"
          ∨ s.currentMovementType = "rotate_right"
      · rw [checkMovementProgress_rotation L s hm hk2]
        rw [hnm] at h
        simp only [hk, hk2, Bool.false_eq_true, if_false, if_true] at h
        split_ifs at h with h1 h2
        cases h
        rw [if_pos h1, if_pos h2]
      · simp [hm, hk, hk2] at h
  | world pos angle => simp [nextCallOf] at h

theorem commandEffect_next_atRest {L : Lib} {s s1 : SocketControlExample} {movement : String}
    (h : commandEffect L s movement = .next s1) (hs : AtRest s) :
    AtRest s1 ∧ s1.executingQueue = s.executingQueue := by
  obtain ⟨h1, h2, h3, h4⟩ := hs
  have hstop : (if s.isMoving then stopRobot s else s) = s := by rw [h1]; rfl
  rcases commandEffect_next h with rfl | ⟨e, -, rfl | rfl⟩
  · exact ⟨⟨h1, h2, h3, h4⟩, rfl⟩
  · exact ⟨⟨h1, h2, h3, h4⟩, rfl⟩
  · rw [hstop]; exact ⟨⟨h1, h2, h3, h4⟩, rfl⟩

/-- Every call of `executeSingleCommand` made from a state at rest is entered at rest. -/
theorem entriesFrom_atRest (L : Lib) (queue : List String) :
    ∀ s : SocketControlExample, AtRest s → ∀ e ∈ entriesFrom L queue s, AtRest e.1 := by
  induction queue with
  | nil => intro s _ e he; simp [entriesFrom] at he
  | cons movement rest ih =>
    intro s hs e he
    have hs1 : AtRest { s with commandQueue := rest } := hs
    rw [entriesFrom, List.mem_cons] at he
    rcases he with rfl | he
    · exact hs1
    · cases hc : commandEffect L { s with commandQueue := rest } movement with
      | done r => rw [hc] at he; simp at he
      | next s1 =>
        rw [hc] at he
        exact ih s1 (commandEffect_next_atRest hc hs1).1 e he

/-- Every call of `executeSingleCommand` made from a state in which no motion is active
is entered with no motion active. -/
theorem entriesFrom_idle (L : Lib) (queue : List String) :
    ∀ s : SocketControlExample, s.isMoving = false →
      ∀ e ∈ entriesFrom L queue s, e.1.isMoving = false := by
  induction queue with
  | nil => intro s _ e he; simp [entriesFrom] at he
  | cons movement rest ih =>
    intro s hs e he
    rw [entriesFrom, List.mem_cons] at he
    rcases he with rfl | he
    · exact hs
    · cases hc : commandEffect L { s with commandQueue := rest } movement with
      | done r => rw [hc] at he; simp at he
      | next s1 =>
        rw [hc] at he
        refine ih s1 ?_ e he
        have hstop : (if ({ s with commandQueue := rest } : SocketControlExample).isMoving
            then stopRobot { s with commandQueue := rest } else { s with commandQueue := rest })
            = { s with commandQueue := rest } := by
          simp [hs]
        rcases commandEffect_next hc with rfl | ⟨e, -, rfl | rfl⟩
        · exact hs
        · exact hs
        · rw [hstop]; exact hs

/-- The three call sites outside `executeSingleCommand` call `executeNextCommand` with no
motion active, in every state. -/
theorem nextCallOf_idle (L : Lib) (s s1 : SocketControlExample) (event : Event)
    (h : nextCallOf L s event = some s1) : s1.isMoving = false := by
  cases event with
  | command line =>
    simp only [nextCallOf] at h
    split_ifs at h with h1 h2 h3 h4 h5
    cases h
    simpa using h5
  | timer =>
    simp only [nextCallOf] at h
    split_ifs at h <;> (cases h; rfl)
  | world pos angle => simp [nextCallOf] at h

/-- In a state that satisfies the invariant they call it at rest, with `executingQueue`
set. -/
theorem nextCallOf_atRest (L : Lib) (s s1 : SocketControlExample) (event : Event)
    (hs : Settled s) (h : nextCallOf L s event = some s1) :
    AtRest s1 ∧ s1.executingQueue = true := by
  cases event with
  | command line =>
    simp only [nextCallOf] at h
    split_ifs at h with h1 h2 h3 h4 h5
    cases h
    have h5' : s.isMoving = false := by simpa using h5
    obtain ⟨-, a, b, c⟩ := hs.1 h5'
    exact ⟨⟨h5', a, b, c⟩, rfl⟩
  | timer =>
    simp only [nextCallOf] at h
    split_ifs at h <;> (cases h; exact ⟨⟨rfl, by norm_num [sendResponse, stopRobot],
      by norm_num [sendResponse, stopRobot], rfl⟩, by simp_all [sendResponse, stopRobot]⟩)
  | world pos angle => simp [nextCallOf] at h

/-! ## The invariant of the sequencer -/

/-- Advancing the queue from a state at rest with `executingQueue` set leads to a state
that satisfies the invariant. -/
theorem executeNextCommand_settled (L : Lib) (s : SocketControlExample) :
    AtRest s → s.executingQueue = true → Settled (executeNextCommand L s) := by
  refine executeNextCommand_rel L
    (fun s r => AtRest s → s.executingQueue = true → Settled r) ?_ ?_ ?_ s
  · intro s hq ⟨h1, h2, h3, h4⟩ _
    refine ⟨fun _ => ⟨hq, h2, h3, h4⟩, fun h => ?_⟩
    have : (sendResponse Response.okAllCompleted { s with executingQueue := false }).isMoving
        = s.isMoving := rfl
    rw [this, h1] at h
    exact absurd h (by decide)
  · intro s movement rest r _ he hs hx
    obtain ⟨d, -, ha⟩ := commandEffect_done he
    obtain ⟨-, hexec, -, -, -, hmov, -, -⟩ := armEffect_done ha
    obtain ⟨-, -, -, -, -, f6⟩ := stopIfMoving_frame { s with commandQueue := rest }
    refine ⟨fun h => ?_, fun _ => ?_⟩
    · rw [hmov] at h; exact absurd h (by decide)
    · rw [hexec, f6]; exact hx
  · intro s movement rest s1 r _ he ih hs hx
    have hs1 : AtRest { s with commandQueue := rest } := hs
    obtain ⟨a, b⟩ := commandEffect_next_atRest he hs1
    exact ih a (b.trans hx)

theorem checkMovementProgress_other (L : Lib) (s : SocketControlExample)
    (h1 : ¬ (s.currentMovementType = "forward" ∨ s.currentMovementType = "backward"))
    (h2 : ¬ (s.currentMovementType = "rotate_left" ∨ s.currentMovementType = "rotate_right"))
    (h3 : ¬ (s.currentMovementType = "turn_left_then_move"
      ∨ s.currentMovementType = "turn_right_then_move")) :
    checkMovementProgress L s = s := by
  unfold checkMovementProgress
  rw [if_neg h1, if_neg h2, if_neg h3]
  simp

/-- Every event preserves the invariant. -/
theorem step_settled (L : Lib) (s : SocketControlExample) (event : Event) (hs : Settled s) :
    Settled (step L s event) := by
  cases event with
  | world pos angle => exact hs
  | command line =>
    show Settled (processCommand L s line)
    unfold processCommand
    simp only []
    split_ifs with h1 h2 h3 h4
    · exact hs
    · exact hs
    · refine ⟨fun _ => ⟨rfl, ?_, ?_, rfl⟩, fun h => ?_⟩
      · norm_num [sendResponse, stopRobot]
      · norm_num [sendResponse, stopRobot]
      · exact absurd h (by simp [sendResponse, stopRobot])
    · exact hs
    · have h4' : (split ';' (trimmed line)).isEmpty = false := by simpa using h4
      cases hm : s.isMoving with
      | true =>
        unfold executeMovementSequence
        simp only [h4', hm, Bool.false_eq_true, if_false, if_true]
        refine ⟨fun h => ?_, fun _ => ?_⟩
        · exact absurd h (by simp [sendResponse])
        · exact hs.2 hm
      | false =>
        rw [executeMovementSequence_idle L s _ h4' hm]
        obtain ⟨-, a, b, c⟩ := hs.1 hm
        exact executeNextCommand_settled L _ ⟨hm, a, b, c⟩ rfl
  | timer =>
    show Settled (timerEvent L s)
    unfold timerEvent
    cases hm : s.isMoving with
    | false => simpa using hs
    | true =>
      rw [if_pos rfl]
      have hx := hs.2 hm
      have stay : ∀ r : SocketControlExample, r.isMoving = true → r.executingQueue = true →
          Settled r := by
        intro r a b
        exact ⟨fun h => absurd (a.symm.trans h) (by decide), fun _ => b⟩
      by_cases hk : s.currentMovementType = "forward" ∨ s.currentMovementType = "backward"
      · rw [checkMovementProgress_displacement L s hm hk, if_pos hx]
        split_ifs
        · exact executeNextCommand_settled L _
            ⟨rfl, by norm_num [sendResponse, stopRobot], by norm_num [sendResponse, stopRobot],
              rfl⟩ hx
        · exact stay _ hm hx
      by_cases hk2 : s.currentMovementType = "rotate_left"
          ∨ s.currentMovementType = "rotate_right"
      · rw [checkMovementProgress_rotation L s hm hk2, if_pos hx]
        split_ifs
        · exact executeNextCommand_settled L _
            ⟨rfl, by norm_num [sendResponse, stopRobot], by norm_num [sendResponse, stopRobot],
              rfl⟩ hx
        · exact stay _ hm hx
      by_cases hk3 : s.currentMovementType = "turn_left_then_move"
          ∨ s.currentMovementType = "turn_right_then_move"
      · rw [checkMovementProgress_turn L s hm hk3]
        split_ifs
        · exact stay _ hm hx
        · exact stay _ hm hx
      · rw [checkMovementProgress_other L s hk hk2 hk3]
        exact stay _ hm hx

theorem run_settled (L : Lib) (events : List Event) :
    ∀ s : SocketControlExample, Settled s → Settled (run L s events) := by
  induction events with
  | nil => intro s hs; exact hs
  | cons event events ih =>
    intro s hs
    exact ih _ (step_settled L s event hs)

theorem initial_settled : Settled initial :=
  ⟨fun _ => ⟨rfl, rfl, rfl, rfl⟩, fun h => absurd h (by decide)⟩

/-- Every reachable state satisfies the invariant. -/
theorem reachable_settled (L : Lib) (s : SocketControlExample) (h : Reachable L s) :
    Settled s := by
  obtain ⟨events, rfl⟩ := h
  exact run_settled L events initial initial_settled

/-! ## A rotation with a direction other than `L` and `R` -/

theorem sameMotion_refl (a : SocketControlExample) : sameMotion a a := rfl

theorem sameMotion_trans {a b c : SocketControlExample} (h1 : sameMotion a b)
    (h2 : sameMotion b c) : sameMotion a c := by
  unfold sameMotion at *
  rw [← h2, ← h1]

/-- A token in rotation mode has at least two characters and is not empty. -/
theorem length_of_isRotationCommand (movement : String)
    (h : isRotationCommand (toUpper (trimmed movement)) = true) :
    isEmpty movement = false ∧ 2 ≤ length (toUpper (trimmed movement)) := by
  have h1 : isEmpty (magnitudeField (toUpper (trimmed movement))) = false := by
    simp only [isRotationCommand, startsWithLetter, Bool.and_eq_true, Bool.not_eq_true'] at h
    exact h.1.1
  have h2 : 2 ≤ length (toUpper (trimmed movement)) := by
    by_contra hc
    have h3 : length (toUpper (trimmed movement)) - 1 = 0 := by omega
    simp [magnitudeField, left, isEmpty, h3] at h1
  refine ⟨?_, h2⟩
  cases hm : movement.data with
  | nil =>
    exfalso
    have : length (toUpper (trimmed movement)) = 0 := by
      simp [length, toUpper, trimmed, hm, trimList_eq, List.rdropWhile]
    omega
  | cons a l => simp [isEmpty, hm]

/-- The default branch of the switch on the direction of a rotation: the state is left
with `isMoving` set and the new target, one error is sent, and the call returns without
advancing the queue. -/
theorem executeSingleCommand_badRotation (L : Lib) (s : SocketControlExample)
    (movement : String) (n : ℚ) (hidle : s.isMoving = false)
    (hrot : isRotationCommand (toUpper (trimmed movement)) = true)
    (hval : L.toDouble (numberStrOf (toUpper (trimmed movement))) = some n) (hn : 0 ≤ n)
    (hL : directionOf (toUpper (trimmed movement)) ≠ 'L')
    (hR : directionOf (toUpper (trimmed movement)) ≠ 'R') :
    executeSingleCommand L s movement
      = sendResponse (.errInvalidRotationDirection (directionOf (toUpper (trimmed movement))))
          { s with
            startAngle := s.robot.angle
            targetDistance := n * M_PI / 180.0
            currentDistance := 0.0
            isMoving := true } := by
  obtain ⟨hne, hlen⟩ := length_of_isRotationCommand movement hrot
  have hs : (if s.isMoving then stopRobot s else s) = s := by rw [hidle]; rfl
  rw [executeSingleCommand_eq, commandEffect_number L s movement n hne hlen hval hn, hs, hrot]
  simp only [armEffect, if_true, if_neg hL, if_neg hR, Outcome.finish]

/-- With `isMoving` set and no kind, `checkMovementProgress` takes none of its branches. -/
theorem checkMovementProgress_noKind (L : Lib) (t : SocketControlExample)
    (hk : t.currentMovementType = "") : checkMovementProgress L t = t := by
  apply checkMovementProgress_other <;> (rw [hk]; decide)

/-- While a motion is active a line that is no literal command only extends the queue and
is answered with one message. -/
theorem processCommand_active (L : Lib) (t : SocketControlExample) (line : String)
    (hm : t.isMoving = true)
    (h1 : toLower (trimmed line) ≠ "status") (h2 : toLower (trimmed line) ≠ "quit")
    (h3 : toLower (trimmed line) ≠ "stop") :
    ∃ msg, (msg = .errInvalidCommandFormat ∨ msg = .infoAdded (split ';' (trimmed line)).length)
      ∧ processCommand L t line
        = sendResponse msg
            { t with
              commandQueue := t.commandQueue
                ++ ((split ';' (trimmed line)).filter (fun m => !isEmpty (trimmed m))).map
                    trimmed } := by
  cases h4 : (split ';' (trimmed line)).isEmpty with
  | true =>
    refine ⟨.errInvalidCommandFormat, Or.inl rfl, ?_⟩
    have h5 : split ';' (trimmed line) = [] := List.isEmpty_iff.mp h4
    simp only [processCommand, if_neg h1, if_neg h2, if_neg h3, h4, if_true, h5,
      List.filter_nil, List.map_nil, List.append_nil, List.isEmpty_nil]
  | false =>
    refine ⟨.infoAdded (split ';' (trimmed line)).length, Or.inr rfl, ?_⟩
    rw [processCommand_movements L t line h1 h2 h3 h4]
    simp only [executeMovementSequence, h4, hm, Bool.false_eq_true, if_false, if_true,
      appendMovements_eq]

/-- With `isMoving` set and no kind, an event other than `stop` changes at most the pose,
the queue, which it extends, the log and the quit flag. -/
theorem step_stuck (L : Lib) (t : SocketControlExample) (event : Event)
    (hm : t.isMoving = true) (hk : t.currentMovementType = "")
    (hs : Event.isStop event = false) :
    sameMotion t (step L t event)
      ∧ ∃ more, (step L t event).commandQueue = t.commandQueue ++ more := by
  cases event with
  | world pos angle => exact ⟨rfl, [], by simp [step, setPose]⟩
  | timer =>
    have : step L t .timer = t := by
      show timerEvent L t = t
      unfold timerEvent
      rw [if_pos hm, checkMovementProgress_noKind L t hk]
    rw [this]
    exact ⟨rfl, [], by simp⟩
  | command line =>
    have h3 : toLower (trimmed line) ≠ "stop" := by
      simpa [Event.isStop] using hs
    show sameMotion t (processCommand L t line)
      ∧ ∃ more, (processCommand L t line).commandQueue = t.commandQueue ++ more
    by_cases h1 : toLower (trimmed line) = "status"
    · have : processCommand L t line = sendRobotStatus t := by
        simp only [processCommand, if_pos h1]
      rw [this]
      exact ⟨rfl, [], by simp [sendRobotStatus, sendResponse]⟩
    by_cases h2 : toLower (trimmed line) = "quit"
    · have : processCommand L t line
          = { sendResponse .okGoodbye t with quitRequested := true } := by
        simp only [processCommand, if_neg h1, if_pos h2]
      rw [this]
      exact ⟨rfl, [], by simp [sendResponse]⟩
    obtain ⟨msg, -, hp⟩ := processCommand_active L t line hm h1 h2 h3
    rw [hp]
    exact ⟨rfl, _, rfl⟩

theorem run_stuck (L : Lib) (events : List Event) :
    ∀ t : SocketControlExample, t.isMoving = true → t.currentMovementType = "" →
      (∀ event ∈ events, Event.isStop event = false) →
      sameMotion t (run L t events)
        ∧ ∃ more, (run L t events).commandQueue = t.commandQueue ++ more := by
  induction events with
  | nil => intro t _ _ _; exact ⟨rfl, [], by simp [run]⟩
  | cons event events ih =>
    intro t hm hk hs
    obtain ⟨a, m1, b⟩ := step_stuck L t event hm hk (hs event (List.mem_cons_self _ _))
    have hm1 : (step L t event).isMoving = true := by
      unfold sameMotion at a; rw [← a]; exact hm
    have hk1 : (step L t event).currentMovementType = "" := by
      unfold sameMotion at a; rw [← a]; exact hk
    obtain ⟨c, m2, d⟩ := ih (step L t event) hm1 hk1
      (fun e he => hs e (List.mem_cons_of_mem _ he))
    refine ⟨sameMotion_trans a c, m1 ++ m2, ?_⟩
    show (run L (step L t event) events).commandQueue = _
    rw [d, b, List.append_assoc]

/-- With `isMoving` set and no kind, no event leads to a call of `executeNextCommand`. -/
theorem nextCallOf_stuck (L : Lib) (t : SocketControlExample) (event : Event)
    (hm : t.isMoving = true) (hk : t.currentMovementType = "") :
    nextCallOf L t event = none := by
  cases event with
  | world pos angle => rfl
  | timer =>
    simp only [nextCallOf, hm, hk]
    simp
  | command line =>
    simp only [nextCallOf, hm]
    split_ifs <;> rfl

theorem run_10F_reached :
    run stdLib initial [.command "10F", .world ⟨70, 60⟩ 0, .timer]
      = sendResponse .okAllCompleted
          { sendResponse (.okCompletedMovement "" 0)
              (stopRobot { setPose ⟨70, 60⟩ 0 forwardTenArmed with currentDistance := 10 }) with
            executingQueue := false } := by
  have d : distanceFrom stdLib (setPose ⟨70, 60⟩ 0 forwardTenArmed).startPosition
      (setPose ⟨70, 60⟩ 0 forwardTenArmed).robot.pos = 10 := by
    norm_num [distanceFrom, forwardTenArmed, setPose, stdLib, sqrt_100]
  simp only [run, List.foldl, step, processCommand_10F]
  unfold timerEvent
  rw [if_pos (show (setPose ⟨70, 60⟩ 0 forwardTenArmed).isMoving = true from rfl),
    checkMovementProgress_displacement _ _ rfl (Or.inl rfl), d,
    if_pos (by norm_num [forwardTenArmed, setPose]),
    if_pos (show (setPose ⟨70, 60⟩ 0 forwardTenArmed).executingQueue = true from rfl),
    executeNextCommand_nil _ _ rfl]

/-- The calls of `executeSingleCommand` at the tick that completes the forward motion of
"10F;R90F;5F" at (70, 60): one call, with the token "R90F", while "5F" waits. -/
theorem enteredBy_forwardTenThenBadRotation :
    (enteredBy stdLib (setPose ⟨70, 60⟩ 0 forwardTenThenBadRotation) .timer).map
        (fun e => (e.1.isMoving, e.1.commandQueue, e.2))
      = [(false, ["5F"], "R90F")] := by
  have d : distanceFrom stdLib (setPose ⟨70, 60⟩ 0 forwardTenThenBadRotation).startPosition
      (setPose ⟨70, 60⟩ 0 forwardTenThenBadRotation).robot.pos = 10 := by
    norm_num [distanceFrom, forwardTenThenBadRotation, setPose, stdLib, sqrt_100]
  have hcall : nextCallOf stdLib (setPose ⟨70, 60⟩ 0 forwardTenThenBadRotation) .timer
      = some (sendResponse (.okCompletedMovement "" 0)
          (stopRobot { setPose ⟨70, 60⟩ 0 forwardTenThenBadRotation with
            currentDistance := 10 })) := by
    simp only [nextCallOf]
    rw [d]
    rw [if_neg (by simp [setPose, forwardTenThenBadRotation]),
      if_pos (show (setPose ⟨70, 60⟩ 0 forwardTenThenBadRotation).currentMovementType
          = "forward"
        ∨ (setPose ⟨70, 60⟩ 0 forwardTenThenBadRotation).currentMovementType = "backward"
        from Or.inl rfl),
      if_pos (by norm_num [forwardTenThenBadRotation, setPose]),
      if_pos (show (setPose ⟨70, 60⟩ 0 forwardTenThenBadRotation).executingQueue = true
        from rfl)]
  have c1 : ('F' : Char) ≠ 'L' := by decide
  have c2 : ('F' : Char) ≠ 'R' := by decide
  unfold enteredBy
  rw [hcall]
  simp only []
  rw [entries_cons stdLib _ "R90F" ["5F"] rfl,
    commandEffect_number _ _ _ 90 (by decide) (by decide) stdLib_toDouble_90 (by norm_num),
    show isRotationCommand (toUpper (trimmed "R90F")) = true by decide,
    show directionOf (toUpper (trimmed "R90F")) = 'F' by decide]
  simp [armEffect, c1, c2, sendResponse, stopRobot]

/-! ## The normalisation loops on doubles -/

theorem roundHalfEven_of_near (x : ℚ) (n : ℤ) (h1 : (n : ℚ) - 1 / 2 < x)
    (h2 : x < (n : ℚ) + 1 / 2) : roundHalfEven x = n := by
  unfold roundHalfEven
  by_cases h : (n : ℚ) ≤ x
  · have hf : ⌊x⌋ = n := Int.floor_eq_iff.mpr ⟨h, by linarith⟩
    rw [hf, if_pos (by linarith)]
  · have hf : ⌊x⌋ = n - 1 := Int.floor_eq_iff.mpr ⟨by push_cast; linarith, by push_cast; linarith⟩
    rw [hf, if_neg (by push_cast; linarith), if_pos (by push_cast; linarith)]
    ring

theorem log_two_eq (q : ℚ) (e : ℤ) (h1 : (2 : ℚ) ^ e ≤ q) (h2 : q < (2 : ℚ) ^ (e + 1)) :
    Int.log 2 q = e := by
  have hpos : 0 < q := lt_of_lt_of_le (by positivity) h1
  have a : e ≤ Int.log 2 q :=
    (Int.zpow_le_iff_le_log (by norm_num) hpos).mp (by exact_mod_cast h1)
  have b : Int.log 2 q < e + 1 :=
    (Int.lt_zpow_iff_log_lt (by norm_num) hpos).mp (by exact_mod_cast h2)
  omega

/-- A rational within half a unit in the last place of the multiple `n * 2 ^ (e - 52)`,
in the binade of exponent `e`, is rounded to that multiple. -/
theorem roundDouble_of_near (q : ℚ) (e n : ℤ) (h1 : (2 : ℚ) ^ e ≤ |q|)
    (h2 : |q| < (2 : ℚ) ^ (e + 1))
    (h3 : (n : ℚ) - 1 / 2 < q / 2 ^ (e - 52)) (h4 : q / 2 ^ (e - 52) < (n : ℚ) + 1 / 2) :
    roundDouble q = n * 2 ^ (e - 52) := by
  have hq : q ≠ 0 := by
    intro h
    rw [h, abs_zero] at h1
    exact absurd h1 (not_le.mpr (by positivity))
  unfold roundDouble
  rw [if_neg hq, log_two_eq |q| e h1 h2, roundHalfEven_of_near _ n h3 h4]

theorem mulDouble_two_pi : mulDouble 2 M_PI = 2 * M_PI := by
  unfold mulDouble
  rw [roundDouble_of_near (2 * M_PI) 2 7074237752028440
    (by rw [abs_of_pos (by norm_num [M_PI])]; norm_num [M_PI])
    (by rw [abs_of_pos (by norm_num [M_PI])]; norm_num [M_PI])
    (by norm_num [M_PI]) (by norm_num [M_PI])]
  norm_num [M_PI]

theorem subDouble_1e17_zero : subDouble 100000000000000000 0 = 100000000000000000 := by
  unfold subDouble
  rw [roundDouble_of_near (100000000000000000 - 0) 56 6250000000000000
    (by rw [abs_of_pos (by norm_num)]; norm_num)
    (by rw [abs_of_pos (by norm_num)]; norm_num)
    (by norm_num) (by norm_num)]
  norm_num

/-- The heart of the matter: `1e17 - 2*M_PI` is `1e17` again, since the doubles around
`1e17` are 16 apart and `2*M_PI` is less than half of that. -/
theorem subDouble_1e17_two_pi :
    subDouble 100000000000000000 (mulDouble 2 M_PI) = 100000000000000000 := by
  rw [mulDouble_two_pi]
  unfold subDouble
  rw [roundDouble_of_near (100000000000000000 - 2 * M_PI) 56 6250000000000000
    (by rw [abs_of_pos (by norm_num [M_PI])]; norm_num [M_PI])
    (by rw [abs_of_pos (by norm_num [M_PI])]; norm_num [M_PI])
    (by norm_num [M_PI]) (by norm_num [M_PI])]
  norm_num

theorem addDouble_neg_1e17_two_pi :
    addDouble (-100000000000000000) (mulDouble 2 M_PI) = -100000000000000000 := by
  rw [mulDouble_two_pi]
  unfold addDouble
  rw [roundDouble_of_near (-100000000000000000 + 2 * M_PI) 56 (-6250000000000000)
    (by rw [abs_of_neg (by norm_num [M_PI])]; norm_num [M_PI])
    (by rw [abs_of_neg (by norm_num [M_PI])]; norm_num [M_PI])
    (by norm_num [M_PI]) (by norm_num [M_PI])]
  norm_num

theorem subDouble_seven_two_pi : subDouble 7 (mulDouble 2 M_PI) = 7 - 2 * M_PI := by
  rw [mulDouble_two_pi]
  unfold subDouble
  rw [roundDouble_of_near (7 - 2 * M_PI) (-1) 6456492766959424
    (by rw [abs_of_pos (by norm_num [M_PI])]; norm_num [M_PI])
    (by rw [abs_of_pos (by norm_num [M_PI])]; norm_num [M_PI])
    (by norm_num [M_PI]) (by norm_num [M_PI])]
  norm_num [M_PI]

theorem whileAboveDouble_1e17 (fuel : ℕ) :
    whileAboveDouble fuel 100000000000000000 = none := by
  induction fuel with
  | zero => rw [whileAboveDouble, if_pos (by norm_num [M_PI])]
  | succ fuel ih =>
    rw [whileAboveDouble, if_pos (by norm_num [M_PI]), subDouble_1e17_two_pi, ih]

theorem whileBelowDouble_neg_1e17 (fuel : ℕ) :
    whileBelowDouble fuel (-100000000000000000) = none := by
  induction fuel with
  | zero => rw [whileBelowDouble, if_pos (by norm_num [M_PI])]
  | succ fuel ih =>
    rw [whileBelowDouble, if_pos (by norm_num [M_PI]), addDouble_neg_1e17_two_pi, ih]

/-! ## The tokens that reach `executeSingleCommand` -/

/-- The loop of `executeMovementSequence` appends no empty token. -/
theorem appendMovements_clean (queue movements : List String)
    (h : ∀ m ∈ queue, isEmpty m = false) :
    ∀ m ∈ appendMovements queue movements, isEmpty m = false := by
  intro m hm
  rw [appendMovements_eq, List.mem_append] at hm
  rcases hm with hm | hm
  · exact h m hm
  · obtain ⟨x, hx, rfl⟩ := List.mem_map.mp hm
    have := (List.mem_filter.mp hx).2
    simpa using this

/-- Advancing the queue leaves a final part of it. -/
theorem executeNextCommand_queue (L : Lib) (s : SocketControlExample) :
    (executeNextCommand L s).commandQueue <:+ s.commandQueue := by
  refine executeNextCommand_rel L (fun s r => r.commandQueue <:+ s.commandQueue) ?_ ?_ ?_ s
  · intro s _
    exact List.suffix_refl _
  · intro s movement rest r hq he
    obtain ⟨d, -, ha⟩ := commandEffect_done he
    obtain ⟨hr, -⟩ := armEffect_done ha
    obtain ⟨-, -, -, -, f5, -⟩ := stopIfMoving_frame { s with commandQueue := rest }
    rw [hr, f5, hq]
    exact List.suffix_cons movement rest
  · intro s movement rest s1 r hq he ih
    rw [commandEffect_next_queue he] at ih
    rw [hq]
    exact ih.trans (List.suffix_cons movement rest)

theorem cleanQueue_of_suffix {s r : SocketControlExample} (hs : CleanQueue s)
    (h : r.commandQueue <:+ s.commandQueue) : CleanQueue r :=
  fun m hm => hs m (h.subset hm)

/-- One call of `checkMovementProgress` leaves a final part of the queue. -/
theorem checkMovementProgress_queue (L : Lib) (s : SocketControlExample) :
    (checkMovementProgress L s).commandQueue <:+ s.commandQueue := by
  cases hm : s.isMoving with
  | false =>
    have : checkMovementProgress L s = s := by
      unfold checkMovementProgress
      simp [hm]
    rw [this]
  | true =>
    by_cases hk : s.currentMovementType = "forward" ∨ s.currentMovementType = "backward"
    · rw [checkMovementProgress_displacement L s hm hk]
      split_ifs
      · exact executeNextCommand_queue L _
      · exact List.suffix_refl _
      · exact List.suffix_refl _
    by_cases hk2 : s.currentMovementType = "rotate_left"
        ∨ s.currentMovementType = "rotate_right"
    · rw [checkMovementProgress_rotation L s hm hk2]
      split_ifs
      · exact executeNextCommand_queue L _
      · exact List.suffix_refl _
      · exact List.suffix_refl _
    by_cases hk3 : s.currentMovementType = "turn_left_then_move"
        ∨ s.currentMovementType = "turn_right_then_move"
    · rw [checkMovementProgress_turn L s hm hk3]
      split_ifs
      · exact List.suffix_refl _
      · exact List.suffix_refl _
    · rw [checkMovementProgress_other L s hk hk2 hk3]

/-- Every event leaves the queue without an empty token. -/
theorem step_cleanQueue (L : Lib) (s : SocketControlExample) (event : Event)
    (hs : CleanQueue s) : CleanQueue (step L s event) := by
  cases event with
  | world pos angle => exact hs
  | timer =>
    show CleanQueue (timerEvent L s)
    unfold timerEvent
    split_ifs
    · exact cleanQueue_of_suffix hs (checkMovementProgress_queue L s)
    · exact hs
  | command line =>
    show CleanQueue (processCommand L s line)
    unfold processCommand
    simp only []
    split_ifs with h1 h2 h3 h4
    · exact hs
    · exact hs
    · intro m hm
      simp [sendResponse] at hm
    · exact hs
    · have h4' : (split ';' (trimmed line)).isEmpty = false := by simpa using h4
      cases hm : s.isMoving with
      | true =>
        unfold executeMovementSequence
        simp only [h4', hm, Bool.false_eq_true, if_false, if_true]
        exact appendMovements_clean _ _ hs
      | false =>
        rw [executeMovementSequence_idle L s _ h4' hm]
        refine cleanQueue_of_suffix (s := { s with
          commandQueue := appendMovements [] (split ';' (trimmed line))
          executingQueue := true }) ?_ (executeNextCommand_queue L _)
        exact appendMovements_clean _ _ (fun m hm => by simp at hm)

/-- In every reachable state no token of the queue is empty. -/
theorem reachable_cleanQueue (L : Lib) (s : SocketControlExample) (h : Reachable L s) :
    CleanQueue s := by
  obtain ⟨events, rfl⟩ := h
  have key : ∀ (events : List Event) (s : SocketControlExample), CleanQueue s →
      CleanQueue (run L s events) := by
    intro events
    induction events with
    | nil => intro s hs; exact hs
    | cons event events ih => intro s hs; exact ih _ (step_cleanQueue L s event hs)
  exact key events initial (fun m hm => by simp [initial] at hm)

/-- The three call sites hand a queue without an empty token to `executeNextCommand`. -/
theorem nextCallOf_cleanQueue (L : Lib) (s s1 : SocketControlExample) (event : Event)
    (hs : CleanQueue s) (h : nextCallOf L s event = some s1) : CleanQueue s1 := by
  cases event with
  | command line =>
    simp only [nextCallOf] at h
    split_ifs at h with h1 h2 h3 h4 h5
    cases h
    exact appendMovements_clean _ _ (fun m hm => by simp at hm)
  | timer =>
    simp only [nextCallOf] at h
    split_ifs at h <;> (cases h; exact hs)
  | world pos angle => simp [nextCallOf] at h

/-- The tokens of the calls are tokens of the queue. -/
theorem entriesFrom_token (L : Lib) (queue : List String) :
    ∀ s : SocketControlExample, ∀ e ∈ entriesFrom L queue s, e.2 ∈ queue := by
  induction queue with
  | nil => intro s e he; simp [entriesFrom] at he
  | cons movement rest ih =>
    intro s e he
    rw [entriesFrom, List.mem_cons] at he
    rcases he with rfl | he
    · exact List.mem_cons_self _ _
    · cases hc : commandEffect L { s with commandQueue := rest } movement with
      | done r => rw [hc] at he; simp at he
      | next s1 =>
        rw [hc] at he
        exact List.mem_cons_of_mem _ (ih s1 e he)

/-- No call of `executeSingleCommand` receives the empty token: the queue is filled with
trimmed tokens that are not empty only. -/
theorem received_not_empty (L : Lib) (movement : String) (h : Received L movement) :
    isEmpty movement = false := by
  obtain ⟨s, event, e, hs, he⟩ := h
  unfold enteredBy at he
  cases hc : nextCallOf L s event with
  | none => rw [hc] at he; simp at he
  | some s1 =>
    rw [hc] at he
    exact nextCallOf_cleanQueue L s s1 event (reachable_cleanQueue L s hs) hc movement
      (entriesFrom_token L _ s1 (e, movement) he)

/-- A token alone on a line submitted to the initial state is received. -/
theorem received_of_line (L : Lib) (movement : String)
    (h1 : toLower (trimmed movement) ≠ "status") (h2 : toLower (trimmed movement) ≠ "quit")
    (h3 : toLower (trimmed movement) ≠ "stop")
    (h4 : split ';' (trimmed movement) = [movement]) (h5 : trimmed movement = movement)
    (h6 : isEmpty movement = false) : Received L movement := by
  refine ⟨initial, .command movement,
    { initial with commandQueue := [], executingQueue := true }, ⟨[], rfl⟩, ?_⟩
  have hcall : nextCallOf L initial (.command movement)
      = some { initial with commandQueue := [movement], executingQueue := true } := by
    simp only [nextCallOf, if_neg h1, if_neg h2, if_neg h3, h4, appendMovements_eq]
    simp [h5, h6, initial]
  unfold enteredBy
  rw [hcall]
  simp only []
  rw [entries_cons L _ movement [] rfl]
  exact List.mem_cons_self _ _

/-! ## Tokens that are too short or carry no valid number -/

/-- The guard `if (movement.isEmpty())` of `executeSingleCommand`: the empty token is
skipped without any message and the queue is advanced.  No call receives the empty token
(`received_not_empty`), so the guard is never taken. -/
theorem executeSingleCommand_empty_token :
    length (toUpper (trimmed "")) < 2
    ∧ executeSingleCommand stdLib initial "" = executeNextCommand stdLib initial
    ∧ (executeSingleCommand stdLib initial "").sent = [.okAllCompleted]
    ∧ (executeSingleCommand stdLib initial "").sent.countP isError = 0 := by
  have h : executeSingleCommand stdLib initial "" = executeNextCommand stdLib initial := by
    rw [executeSingleCommand_eq, commandEffect_empty _ _ _ (by decide)]; rfl
  rw [h, executeNextCommand_nil _ _ rfl]
  exact ⟨by decide, rfl, rfl, rfl⟩

/-- A token that is not empty and is too short, or whose number does not parse or is
negative, is answered with one error, after which the queue is advanced from the state
the call started from. -/
theorem executeSingleCommand_short_or_bad_number (L : Lib) (s : SocketControlExample)
    (movement : String) (hne : isEmpty movement = false) :
    (length (toUpper (trimmed movement)) < 2 →
        executeSingleCommand L s movement
          = executeNextCommand L (sendResponse (.errInvalidMovementFormat movement) s)
        ∧ sameButLog (executeSingleCommand L s movement) (executeNextCommand L s))
    ∧ (2 ≤ length (toUpper (trimmed movement)) →
        (L.toDouble (numberStrOf (toUpper (trimmed movement))) = none
          ∨ ∃ d, L.toDouble (numberStrOf (toUpper (trimmed movement))) = some d ∧ d < 0) →
        executeSingleCommand L s movement
          = executeNextCommand L (sendResponse
              (.errInvalidDistance movement (numberStrOf (toUpper (trimmed movement)))) s)
        ∧ sameButLog (executeSingleCommand L s movement) (executeNextCommand L s)) := by
  constructor
  · intro h2
    have heq : executeSingleCommand L s movement
        = executeNextCommand L (sendResponse (.errInvalidMovementFormat movement) s) := by
      rw [executeSingleCommand_eq, commandEffect_short L s movement hne h2]; rfl
    refine ⟨heq, ?_⟩
    rw [heq]
    exact executeNextCommand_sameButLog L _ _ (sameButLog_sendResponse _ s)
  · intro h2 h3
    have heq : executeSingleCommand L s movement
        = executeNextCommand L (sendResponse
            (.errInvalidDistance movement (numberStrOf (toUpper (trimmed movement)))) s) := by
      rw [executeSingleCommand_eq, commandEffect_badNumber L s movement hne h2 h3]; rfl
    refine ⟨heq, ?_⟩
    rw [heq]
    exact executeNextCommand_sameButLog L _ _ (sameButLog_sendResponse _ s)

/-- In exact arithmetic the two normalisation loops end for every pair of headings: the
first runs `n` rounds and the second `m` rounds, each for as long as its condition holds;
the result differs from the raw difference by the integer multiple `(m - n) * 2π` and its
absolute value is at most `π`. -/
theorem normalisation_exact (heading lastAngle : ℚ) :
    ∃ n m : ℕ,
      (∀ k : ℕ, k < n → heading - lastAngle - k * (2 * M_PI) > M_PI)
      ∧ ¬ (heading - lastAngle - n * (2 * M_PI) > M_PI)
      ∧ whileAbove (heading - lastAngle) = heading - lastAngle - n * (2 * M_PI)
      ∧ (∀ k : ℕ, k < m → whileAbove (heading - lastAngle) + k * (2 * M_PI) < -M_PI)
      ∧ ¬ (whileAbove (heading - lastAngle) + m * (2 * M_PI) < -M_PI)
      ∧ whileBelow (whileAbove (heading - lastAngle))
          = heading - lastAngle + ((m : ℤ) - (n : ℤ)) * (2 * M_PI)
      ∧ |whileBelow (whileAbove (heading - lastAngle))| ≤ M_PI := by
  obtain ⟨n, a1, a2, a3⟩ := whileAbove_rounds (heading - lastAngle)
  obtain ⟨m, b1, b2, b3⟩ := whileBelow_rounds (whileAbove (heading - lastAngle))
  refine ⟨n, m, a1, a2, a3, b1, b2, ?_, ?_⟩
  · rw [b3, a3]
    push_cast
    ring
  · exact abs_le.mpr ⟨whileBelow_ge _, whileBelow_le (whileAbove_le _)⟩

theorem subDouble_seven_zero : subDouble 7 0 = 7 := by
  unfold subDouble
  rw [roundDouble_of_near (7 - 0) 2 7881299347898368
    (by rw [abs_of_pos (by norm_num)]; norm_num)
    (by rw [abs_of_pos (by norm_num)]; norm_num)
    (by norm_num) (by norm_num)]
  norm_num

/-! ## The claims -/

/-- C1, the code at a failing input: "10F;R90F;5F" is submitted to the initial state, the
robot reaches (70, 60) and the timer fires.  The forward motion completes and the queue
is advanced: "R90F" is popped and answered with one error, but processing does not go on
to "5F", which stays in the queue while no motion is armed (no kind, both speeds zero) and
`isMoving` is left true, so that no later tick advances the queue either. -/
theorem C1_rotation_error_stops_queue :
    (run stdLib initial [.command "10F;R90F;5F", .world ⟨70, 60⟩ 0, .timer]).sent
        = [.okMovingForward 10, .okCompletedMovement "" 0, .errInvalidRotationDirection 'F']
    ∧ (run stdLib initial [.command "10F;R90F;5F", .world ⟨70, 60⟩ 0, .timer]).commandQueue
        = ["5F"]
    ∧ (run stdLib initial [.command "10F;R90F;5F", .world ⟨70, 60⟩ 0, .timer]).isMoving = true
    ∧ (run stdLib initial
        [.command "10F;R90F;5F", .world ⟨70, 60⟩ 0, .timer]).currentMovementType = ""
    ∧ (run stdLib initial
        [.command "10F;R90F;5F", .world ⟨70, 60⟩ 0, .timer]).robot.leftSpeed = 0
    ∧ (run stdLib initial
        [.command "10F;R90F;5F", .world ⟨70, 60⟩ 0, .timer]).robot.rightSpeed = 0
    ∧ timerEvent stdLib
          (run stdLib initial [.command "10F;R90F;5F", .world ⟨70, 60⟩ 0, .timer])
        = run stdLib initial [.command "10F;R90F;5F", .world ⟨70, 60⟩ 0, .timer] := by
  have hrun : run stdLib initial [.command "10F;R90F;5F", .world ⟨70, 60⟩ 0, .timer]
      = { stuckRotation with
          robot := { pos := ⟨70, 60⟩, angle := 0, leftSpeed := 0, rightSpeed := 0 }
          startPosition := ⟨60, 60⟩
          commandQueue := ["5F"]
          sent := [.okMovingForward 10, .okCompletedMovement "" 0,
            .errInvalidRotationDirection 'F'] } := by
    have d : distanceFrom stdLib (setPose ⟨70, 60⟩ 0 forwardTenThenBadRotation).startPosition
        (setPose ⟨70, 60⟩ 0 forwardTenThenBadRotation).robot.pos = 10 := by
      norm_num [distanceFrom, forwardTenThenBadRotation, setPose, stdLib, sqrt_100]
    simp only [run, List.foldl, step, processCommand_10F_R90F_5F]
    unfold timerEvent
    rw [if_pos (show (setPose ⟨70, 60⟩ 0 forwardTenThenBadRotation).isMoving = true from rfl),
      checkMovementProgress_displacement _ _ rfl (Or.inl rfl), d,
      if_pos (by norm_num [forwardTenThenBadRotation, setPose]),
      if_pos (show (setPose ⟨70, 60⟩ 0 forwardTenThenBadRotation).executingQueue = true
        from rfl),
      executeNextCommand_cons _ _ "R90F" ["5F"] rfl,
      commandEffect_number _ _ _ 90 (by decide) (by decide) stdLib_toDouble_90 (by norm_num),
      show isRotationCommand (toUpper (trimmed "R90F")) = true by decide,
      show directionOf (toUpper (trimmed "R90F")) = 'F' by decide]
    have c1 : ('F' : Char) ≠ 'L' := by decide
    have c2 : ('F' : Char) ≠ 'R' := by decide
    norm_num [armEffect, Outcome.finish, sendResponse, setSpeeds, DEFAULT_SPEED, initial,
      stuckRotation, stopRobot, setPose, forwardTenThenBadRotation, c1, c2]
  rw [hrun]
  refine ⟨rfl, rfl, rfl, rfl, rfl, rfl, ?_⟩
  unfold timerEvent checkMovementProgress
  simp [stuckRotation, initial]

/-- C2, the code at a failing input: "10F" is submitted to the initial state, which arms
the kind `forward` with target 10; the robot reaches (70, 60) and the timer fires.  The
completion report carries the empty kind and the target 0, the values `stopRobot` has just
written, not the kind and the target of the motion that completed.  The controller is
Idle afterwards. -/
theorem C2_completion_report_after_stopRobot :
    (run stdLib initial [.command "10F"]).currentMovementType = "forward"
    ∧ (run stdLib initial [.command "10F"]).targetDistance = 10
    ∧ (run stdLib initial [.command "10F", .world ⟨70, 60⟩ 0, .timer]).sent
        = [.okMovingForward 10, .okCompletedMovement "" 0, .okAllCompleted]
    ∧ (run stdLib initial [.command "10F", .world ⟨70, 60⟩ 0, .timer]).isMoving = false := by
  have h1 : run stdLib initial [.command "10F"] = forwardTenArmed := by
    simp only [run, List.foldl, step, processCommand_10F]
  have hrun : run stdLib initial [.command "10F", .world ⟨70, 60⟩ 0, .timer]
      = sendResponse .okAllCompleted
          { sendResponse (.okCompletedMovement "" 0)
              (stopRobot { setPose ⟨70, 60⟩ 0 forwardTenArmed with currentDistance := 10 }) with
            executingQueue := false } := by
    have d : distanceFrom stdLib (setPose ⟨70, 60⟩ 0 forwardTenArmed).startPosition
        (setPose ⟨70, 60⟩ 0 forwardTenArmed).robot.pos = 10 := by
      norm_num [distanceFrom, forwardTenArmed, setPose, stdLib, sqrt_100]
    simp only [run, List.foldl, step, processCommand_10F]
    unfold timerEvent
    rw [if_pos (show (setPose ⟨70, 60⟩ 0 forwardTenArmed).isMoving = true from rfl),
      checkMovementProgress_displacement _ _ rfl (Or.inl rfl), d,
      if_pos (by norm_num [forwardTenArmed, setPose]),
      if_pos (show (setPose ⟨70, 60⟩ 0 forwardTenArmed).executingQueue = true from rfl),
      executeNextCommand_nil _ _ rfl]
  rw [h1, hrun]
  exact ⟨rfl, rfl, rfl, rfl⟩

/-- C3, the code at a failing input: the line "R90F" submitted to the initial state leads
to a reachable state in which `isMoving` is true while both wheel speeds are zero, so the
equivalence between "no active motion" and "zero speeds" does not hold in every reachable
state. -/
theorem C3_moving_with_zero_speeds :
    Reachable stdLib (run stdLib initial [.command "R90F"])
    ∧ (run stdLib initial [.command "R90F"]).isMoving = true
    ∧ (run stdLib initial [.command "R90F"]).robot.leftSpeed = 0
    ∧ (run stdLib initial [.command "R90F"]).robot.rightSpeed = 0
    ∧ ¬ (∀ s, Reachable stdLib s →
          (s.isMoving = false ↔ s.robot.leftSpeed = 0 ∧ s.robot.rightSpeed = 0)) := by
  have h1 : run stdLib initial [.command "R90F"] = stuckRotation := by
    simp only [run, List.foldl, step, processCommand_R90F]
  have hr : Reachable stdLib (run stdLib initial [.command "R90F"]) := ⟨_, rfl⟩
  refine ⟨hr, ?_, ?_, ?_, ?_⟩
  · rw [h1]; rfl
  · rw [h1]; rfl
  · rw [h1]; rfl
  · intro h
    have h2 := (h _ hr).mpr (by rw [h1]; exact ⟨rfl, rfl⟩)
    rw [h1] at h2
    exact absurd h2 (by decide)

/-- C4: a token whose trimmed, upper-cased form is an optional mode prefix (none, `D` or
`R`), a numeral of value `n ≥ 0` and a direction letter arms the intent of the table of
the parser: without prefix or with `D`, the letters `F` and `B` arm forward and backward
with target `n`, zero progress and the current position as reference; with `R`, the
letters `L` and `R` arm the rotations with target `n * π / 180` and the current heading as
reference; without prefix or with `D`, the letters `L` and `R` arm the turn-then-move
motions with rotation target `π / 2` and pending distance `n`.  It holds from every
state, the Idle ones in particular. -/
theorem C4_token_arms_table_intent (L : Lib) (s : SocketControlExample) (movement : String)
    (pre num : List Char) (dir : Char) (n : ℚ)
    (hform : (toUpper (trimmed movement)).data = pre ++ num ++ [dir])
    (hpre : pre = [] ∨ pre = ['D'] ∨ pre = ['R'])
    (hnum : ∃ x xs, num = x :: xs ∧ isLetter x = false)
    (hval : L.toDouble ⟨num⟩ = some n) (hn : 0 ≤ n) :
    (pre ≠ ['R'] → dir = 'F' →
        Armed (executeSingleCommand L s movement) s.robot.pos s.robot.angle (.Forward n))
    ∧ (pre ≠ ['R'] → dir = 'B' →
        Armed (executeSingleCommand L s movement) s.robot.pos s.robot.angle (.Backward n))
    ∧ (pre = ['R'] → dir = 'L' →
        Armed (executeSingleCommand L s movement) s.robot.pos s.robot.angle
          (.RotateLeft (n * M_PI / 180)))
    ∧ (pre = ['R'] → dir = 'R' →
        Armed (executeSingleCommand L s movement) s.robot.pos s.robot.angle
          (.RotateRight (n * M_PI / 180)))
    ∧ (pre ≠ ['R'] → dir = 'L' →
        Armed (executeSingleCommand L s movement) s.robot.pos s.robot.angle
          (.TurnLeftThenMove n))
    ∧ (pre ≠ ['R'] → dir = 'R' →
        Armed (executeSingleCommand L s movement) s.robot.pos s.robot.angle
          (.TurnRightThenMove n)) := by
  have key : ∀ intent, denotes pre dir n = some intent →
      Armed (executeSingleCommand L s movement) s.robot.pos s.robot.angle intent := by
    intro intent hi
    obtain ⟨r, hr, harmed, -⟩ :=
      commandEffect_arms L s movement pre num dir n intent hform hpre hnum hval hn hi
    rw [executeSingleCommand_eq, hr]
    exact harmed
  have hD : pre ≠ ['R'] → (pre = [] ∨ pre = ['D']) := by
    intro h; tauto
  refine ⟨?_, ?_, ?_, ?_, ?_, ?_⟩
  · intro h1 h2; exact key _ (by simp [denotes, h1, h2, hD h1])
  · intro h1 h2; exact key _ (by simp [denotes, h1, h2, hD h1])
  · intro h1 h2; exact key _ (by simp [denotes, h1, h2])
  · intro h1 h2; exact key _ (by simp [denotes, h1, h2])
  · intro h1 h2; exact key _ (by simp [denotes, h1, h2, hD h1])
  · intro h1 h2; exact key _ (by simp [denotes, h1, h2, hD h1])

/-- The three examples of C4: "10F" arms forward 10, "R90L" arms a left rotation by
`π / 2`, "D5B" arms backward 5. -/
theorem C4_token_arms_table_intent_witness :
    Armed (executeSingleCommand stdLib initial "10F") ⟨60, 60⟩ 0 (.Forward 10)
    ∧ (Armed (executeSingleCommand stdLib initial "R90L") ⟨60, 60⟩ 0
          (.RotateLeft (90 * M_PI / 180)) ∧ 90 * M_PI / 180 = M_PI / 2)
    ∧ Armed (executeSingleCommand stdLib initial "D5B") ⟨60, 60⟩ 0 (.Backward 5) :=
  ⟨(C4_token_arms_table_intent stdLib initial "10F" [] ['1', '0'] 'F' 10 (by decide)
      (Or.inl rfl) ⟨'1', ['0'], rfl, by decide⟩ stdLib_toDouble_10 (by norm_num)).1
      (by decide) rfl,
    ⟨(C4_token_arms_table_intent stdLib initial "R90L" ['R'] ['9', '0'] 'L' 90 (by decide)
      (Or.inr (Or.inr rfl)) ⟨'9', ['0'], rfl, by decide⟩ stdLib_toDouble_90
      (by norm_num)).2.2.1 rfl rfl, by ring⟩,
    (C4_token_arms_table_intent stdLib initial "D5B" ['D'] ['5'] 'B' 5 (by decide)
      (Or.inr (Or.inl rfl)) ⟨'5', [], rfl, by decide⟩ stdLib_toDouble_5 (by norm_num)).2.1
      (by decide) rfl⟩

/-- C5: a forward or backward motion armed with an empty queue, fed any sequence of pose
samples by ticks.  As long as every sample so far is closer to the reference position
than the target, the motion is still active with the wheel speeds unchanged and no
completion report has been sent; once a sample at a distance of at least the target has
occurred, the controller is Idle with both speeds zero and exactly one completion report
has been sent, whatever samples follow.  The statement holds for every sequence, hence
for every prefix of a sequence: the report is sent at the first such sample, not before
and not again. -/
theorem C5_displacement_completes_exactly_once (L : Lib) (samples : List (Point × ℚ)) :
    ∀ s : SocketControlExample, s.isMoving = true →
      (s.currentMovementType = "forward" ∨ s.currentMovementType = "backward") →
      s.commandQueue = [] →
      ((∀ p ∈ samples, distanceFrom L s.startPosition p.1 < s.targetDistance) →
          (ticks L s samples).isMoving = true
          ∧ (ticks L s samples).currentMovementType = s.currentMovementType
          ∧ (ticks L s samples).robot.leftSpeed = s.robot.leftSpeed
          ∧ (ticks L s samples).robot.rightSpeed = s.robot.rightSpeed
          ∧ completions (ticks L s samples).sent = completions s.sent)
      ∧ ((∃ p ∈ samples, s.targetDistance ≤ distanceFrom L s.startPosition p.1) →
          (ticks L s samples).isMoving = false
          ∧ (ticks L s samples).robot.leftSpeed = 0
          ∧ (ticks L s samples).robot.rightSpeed = 0
          ∧ completions (ticks L s samples).sent = completions s.sent + 1) := by
  induction samples with
  | nil =>
    intro s hm _ _
    refine ⟨fun _ => ⟨hm, rfl, rfl, rfl, rfl⟩, ?_⟩
    rintro ⟨p, hp, -⟩
    simp at hp
  | cons p ps ih =>
    intro s hm hk hq
    have hfold : ticks L s (p :: ps) = ticks L (tick L s p) ps := rfl
    rw [hfold]
    by_cases hlt : distanceFrom L s.startPosition p.1 < s.targetDistance
    · have ht := tick_displacement_below L s p hm hk hlt
      have h1 : (tick L s p).isMoving = true := by rw [ht]; exact hm
      have h2 : (tick L s p).currentMovementType = s.currentMovementType := by rw [ht]; rfl
      have h3 : (tick L s p).commandQueue = [] := by rw [ht]; exact hq
      have h4 : (tick L s p).startPosition = s.startPosition := by rw [ht]; rfl
      have h5 : (tick L s p).targetDistance = s.targetDistance := by rw [ht]; rfl
      have h6 : (tick L s p).robot.leftSpeed = s.robot.leftSpeed := by rw [ht]; rfl
      have h7 : (tick L s p).robot.rightSpeed = s.robot.rightSpeed := by rw [ht]; rfl
      have h8 : (tick L s p).sent = s.sent := by rw [ht]; rfl
      obtain ⟨ihA, ihB⟩ := ih (tick L s p) h1 (by rw [h2]; exact hk) h3
      simp only [h4, h5, h2, h6, h7, h8] at ihA ihB
      refine ⟨fun hall => ihA (fun q hq2 => hall q (List.mem_cons_of_mem _ hq2)), ?_⟩
      rintro ⟨q, hq2, hge⟩
      rcases List.mem_cons.mp hq2 with rfl | hq3
      · exact absurd hlt (not_lt.mpr hge)
      · exact ihB ⟨q, hq3, hge⟩
    · have hge := not_lt.mp hlt
      obtain ⟨r1, r2, r3, r4, r5⟩ := tick_displacement_reached L s p hm hk hq hge
      obtain ⟨j1, j2, j3, -, j5⟩ := ticks_idle L ps (tick L s p) r1
      refine ⟨fun hall => absurd (hall p (List.mem_cons_self _ _)) hlt, fun _ => ?_⟩
      exact ⟨j1, j2.trans r2, j3.trans r3, by rw [j5]; exact r5⟩

/-- The example of C5: the forward motion of "10F" armed at (60, 60).  The sample
(65, 60) leaves it active; among the samples (65, 60), (70, 60), (75, 60) the second is at
distance 10, and after the three of them the controller is Idle with one completion
report. -/
theorem C5_displacement_completes_exactly_once_witness :
    (ticks stdLib forwardTenArmed [(⟨65, 60⟩, 0)]).isMoving = true
    ∧ completions (ticks stdLib forwardTenArmed [(⟨65, 60⟩, 0)]).sent = 0
    ∧ (ticks stdLib forwardTenArmed [(⟨65, 60⟩, 0), (⟨70, 60⟩, 0), (⟨75, 60⟩, 0)]).isMoving
        = false
    ∧ completions
        (ticks stdLib forwardTenArmed [(⟨65, 60⟩, 0), (⟨70, 60⟩, 0), (⟨75, 60⟩, 0)]).sent
        = 1 := by
  have d1 : distanceFrom stdLib forwardTenArmed.startPosition (⟨65, 60⟩ : Point) = 5 := by
    norm_num [distanceFrom, forwardTenArmed, stdLib, sqrt_25]
  have d2 : distanceFrom stdLib forwardTenArmed.startPosition (⟨70, 60⟩ : Point) = 10 := by
    norm_num [distanceFrom, forwardTenArmed, stdLib, sqrt_100]
  have hA := (C5_displacement_completes_exactly_once stdLib [(⟨65, 60⟩, 0)] forwardTenArmed
    rfl (Or.inl rfl) rfl).1 (by
      intro p hp
      rw [List.mem_singleton.mp hp, d1]
      norm_num [forwardTenArmed])
  have hB := (C5_displacement_completes_exactly_once stdLib
    [(⟨65, 60⟩, 0), (⟨70, 60⟩, 0), (⟨75, 60⟩, 0)] forwardTenArmed rfl (Or.inl rfl) rfl).2
      ⟨(⟨70, 60⟩, 0), by simp, by rw [d2]; norm_num [forwardTenArmed]⟩
  exact ⟨hA.1, hA.2.2.2.2, hB.1, hB.2.2.2⟩

/-- C6: at the sample where the accumulated rotation of a turn-then-move with pending
distance `d` reaches `π / 2`, `checkMovementProgress` switches to the forward phase: kind
`forward`, target `d`, zero progress, reference position the position of the robot at
that sample, wheel speeds `(S, S)`, no pending distance, still moving, the queue
untouched, and the single message sent is the phase message.  No sample of the turn phase
sends a completion report. -/
theorem C6_turn_phase_switches_to_forward (L : Lib) (s : SocketControlExample) (d : ℚ)
    (hm : s.isMoving = true)
    (hk : s.currentMovementType = "turn_left_then_move"
      ∨ s.currentMovementType = "turn_right_then_move")
    (hp : s.pendingMoveDistance = d) (ht : s.targetDistance = M_PI / 2) :
    (M_PI / 2 ≤ s.accumulatedRotation + increment s →
        (checkMovementProgress L s).currentMovementType = "forward"
        ∧ (checkMovementProgress L s).targetDistance = d
        ∧ (checkMovementProgress L s).currentDistance = 0
        ∧ (checkMovementProgress L s).startPosition = s.robot.pos
        ∧ (checkMovementProgress L s).robot.leftSpeed = DEFAULT_SPEED
        ∧ (checkMovementProgress L s).robot.rightSpeed = DEFAULT_SPEED
        ∧ (checkMovementProgress L s).pendingMoveDistance = 0
        ∧ (checkMovementProgress L s).isMoving = true
        ∧ (checkMovementProgress L s).commandQueue = s.commandQueue
        ∧ (checkMovementProgress L s).sent = s.sent ++ [.okRotationComplete d])
    ∧ completions (checkMovementProgress L s).sent = completions s.sent := by
  rw [checkMovementProgress_turn L s hm hk, ht]
  constructor
  · intro hreach
    rw [if_pos hreach]
    simp [sendResponse, setSpeeds, hm, hp]
  · split_ifs
    · simp [sendResponse, setSpeeds, completions_append, completions, isCompletion]
    · rfl

/-- The example of C6: the turn phase of "3L", with "5F" waiting, at a sample where the
robot has turned by 2 radians. -/
theorem C6_turn_phase_switches_to_forward_witness :
    M_PI / 2 ≤ turnLeftThreeTurned.accumulatedRotation + increment turnLeftThreeTurned
    ∧ (checkMovementProgress stdLib turnLeftThreeTurned).currentMovementType = "forward"
    ∧ (checkMovementProgress stdLib turnLeftThreeTurned).targetDistance = 3
    ∧ (checkMovementProgress stdLib turnLeftThreeTurned).commandQueue = ["5F"]
    ∧ (checkMovementProgress stdLib turnLeftThreeTurned).sent
        = [.okTurningLeft 3, .okRotationComplete 3] := by
  have hreach : M_PI / 2
      ≤ turnLeftThreeTurned.accumulatedRotation + increment turnLeftThreeTurned := by
    rw [increment_turnLeftThreeTurned]
    norm_num [turnLeftThreeTurned, initial, M_PI]
  have h := (C6_turn_phase_switches_to_forward stdLib turnLeftThreeTurned 3 rfl (Or.inl rfl)
    rfl rfl).1 hreach
  exact ⟨hreach, h.1, h.2.1, h.2.2.2.2.2.2.2.2.1, h.2.2.2.2.2.2.2.2.2⟩

/-- C7: one sample of an active rotation (pure rotation or turn phase) accumulates by the
directional rule.  With `increment s` the amount the rule gives for the normalised
difference between the heading and `lastAngle` (for the left-turning kinds the difference
itself when positive, `2π` plus it when below `-π/2`, otherwise nothing; for the
right-turning kinds its absolute value when negative, `2π` minus it when above `π/2`,
otherwise nothing): `lastAngle` becomes the heading in every case; when the old progress
plus the increment is below the target, it is the new progress and nothing else happens;
when it reaches the target, the sample ends the rotation and a message is sent. -/
theorem C7_rotation_accumulation_rule (L : Lib) (s : SocketControlExample)
    (hm : s.isMoving = true)
    (hk : s.currentMovementType = "rotate_left" ∨ s.currentMovementType = "rotate_right"
      ∨ s.currentMovementType = "turn_left_then_move"
      ∨ s.currentMovementType = "turn_right_then_move") :
    increment s
        = (if s.currentMovementType = "rotate_left"
              ∨ s.currentMovementType = "turn_left_then_move" then
            if angleDelta s > 0 then angleDelta s
            else if angleDelta s < -M_PI / 2 then 2 * M_PI + angleDelta s
            else 0
          else
            if angleDelta s < 0 then |angleDelta s|
            else if angleDelta s > M_PI / 2 then 2 * M_PI - angleDelta s
            else 0)
    ∧ (checkMovementProgress L s).lastAngle = s.robot.angle
    ∧ (s.accumulatedRotation + increment s < s.targetDistance →
        (checkMovementProgress L s).accumulatedRotation = s.accumulatedRotation + increment s
        ∧ (checkMovementProgress L s).currentDistance = s.accumulatedRotation + increment s
        ∧ (checkMovementProgress L s).isMoving = true
        ∧ (checkMovementProgress L s).currentMovementType = s.currentMovementType
        ∧ (checkMovementProgress L s).targetDistance = s.targetDistance
        ∧ (checkMovementProgress L s).sent = s.sent)
    ∧ (s.targetDistance ≤ s.accumulatedRotation + increment s →
        ∃ msg more, (checkMovementProgress L s).sent = s.sent ++ msg :: more) := by
  refine ⟨?_, ?_⟩
  · simp [increment, turnsLeft, leftIncrement, rightIncrement]
  have hk2 : (s.currentMovementType = "rotate_left" ∨ s.currentMovementType = "rotate_right")
      ∨ (s.currentMovementType = "turn_left_then_move"
        ∨ s.currentMovementType = "turn_right_then_move") := by tauto
  rcases hk2 with hk2 | hk2
  · rw [checkMovementProgress_rotation L s hm hk2]
    refine ⟨?_, ?_, ?_⟩
    · split_ifs
      · obtain ⟨-, h2, h3, -⟩ := executeNextCommand_frame L
          (sendResponse (.okCompletedRotation "" 0)
            { stopRobot s with accumulatedRotation := 0, lastAngle := s.robot.angle })
        rcases h3 with h3 | h3
        · exact h3
        · exact h3
      · rfl
      · rfl
    · intro hlt
      rw [if_neg (not_le.mpr hlt)]
      exact ⟨rfl, rfl, hm, rfl, rfl, rfl⟩
    · intro hge
      rw [if_pos hge]
      split_ifs
      · obtain ⟨-, -, -, msg, more, h4⟩ := executeNextCommand_frame L
          (sendResponse (.okCompletedRotation "" 0)
            { stopRobot s with accumulatedRotation := 0, lastAngle := s.robot.angle })
        exact ⟨.okCompletedRotation "" 0, msg :: more,
          by rw [h4]; simp [sendResponse, stopRobot]⟩
      · exact ⟨_, [], rfl⟩
  · rw [checkMovementProgress_turn L s hm hk2]
    refine ⟨?_, ?_, ?_⟩
    · split_ifs <;> rfl
    · intro hlt
      rw [if_neg (not_le.mpr hlt)]
      exact ⟨rfl, rfl, hm, rfl, rfl, rfl⟩
    · intro hge
      rw [if_pos hge]
      exact ⟨_, [], rfl⟩

/-- The example of C7: the rotation of "R90L" at a sample where the robot has turned by 1
radian, which is below the target. -/
theorem C7_rotation_accumulation_rule_witness :
    rotateLeftQuarterTurned.accumulatedRotation + increment rotateLeftQuarterTurned
        < rotateLeftQuarterTurned.targetDistance
    ∧ (checkMovementProgress stdLib rotateLeftQuarterTurned).accumulatedRotation = 1
    ∧ (checkMovementProgress stdLib rotateLeftQuarterTurned).lastAngle = 1 := by
  have hlt : rotateLeftQuarterTurned.accumulatedRotation + increment rotateLeftQuarterTurned
      < rotateLeftQuarterTurned.targetDistance := by
    rw [increment_rotateLeftQuarterTurned]
    norm_num [rotateLeftQuarterTurned, initial, M_PI]
  have h := C7_rotation_accumulation_rule stdLib rotateLeftQuarterTurned rfl (Or.inl rfl)
  refine ⟨hlt, ?_, h.2.1⟩
  rw [(h.2.2.1 hlt).1, increment_rotateLeftQuarterTurned]
  norm_num [rotateLeftQuarterTurned, initial]

/-- C8, amended: along every sequence of samples fed to a rotation armed with progress 0
and a target that is not negative, none of which completes it, the motion stays the same,
the progress never decreases and, after at least one sample, is below the target; and for
the next sample, whatever it is, the increment is at least 0 and below `3π/2`, the
progress it yields is at least the progress before, it is the stored progress if it is
below the target, and if it reaches the target it exceeds the target by at most the
increment, by less than the increment when the target is positive. -/
theorem C8_rotation_progress_monotone_bounded (L : Lib) (s0 : SocketControlExample)
    (samples : List (Point × ℚ)) (hm : s0.isMoving = true)
    (hk : s0.currentMovementType = "rotate_left" ∨ s0.currentMovementType = "rotate_right"
      ∨ s0.currentMovementType = "turn_left_then_move"
      ∨ s0.currentMovementType = "turn_right_then_move")
    (hacc : s0.accumulatedRotation = 0) (htarget : 0 ≤ s0.targetDistance)
    (hrun : keepsTurning L s0 samples) :
    (ticks L s0 samples).isMoving = true
    ∧ (ticks L s0 samples).currentMovementType = s0.currentMovementType
    ∧ (ticks L s0 samples).targetDistance = s0.targetDistance
    ∧ s0.accumulatedRotation ≤ (ticks L s0 samples).accumulatedRotation
    ∧ (samples ≠ [] → (ticks L s0 samples).accumulatedRotation < s0.targetDistance)
    ∧ ∀ next : Point × ℚ,
        0 ≤ increment (setPose next.1 next.2 (ticks L s0 samples))
        ∧ increment (setPose next.1 next.2 (ticks L s0 samples)) < 3 * M_PI / 2
        ∧ (ticks L s0 samples).accumulatedRotation
            ≤ (ticks L s0 samples).accumulatedRotation
              + increment (setPose next.1 next.2 (ticks L s0 samples))
        ∧ ((ticks L s0 samples).accumulatedRotation
              + increment (setPose next.1 next.2 (ticks L s0 samples)) < s0.targetDistance →
            (tick L (ticks L s0 samples) next).accumulatedRotation
              = (ticks L s0 samples).accumulatedRotation
                + increment (setPose next.1 next.2 (ticks L s0 samples)))
        ∧ (s0.targetDistance ≤ (ticks L s0 samples).accumulatedRotation
              + increment (setPose next.1 next.2 (ticks L s0 samples)) →
            (ticks L s0 samples).accumulatedRotation
                + increment (setPose next.1 next.2 (ticks L s0 samples)) - s0.targetDistance
              ≤ increment (setPose next.1 next.2 (ticks L s0 samples))
            ∧ (0 < s0.targetDistance →
              (ticks L s0 samples).accumulatedRotation
                  + increment (setPose next.1 next.2 (ticks L s0 samples)) - s0.targetDistance
                < increment (setPose next.1 next.2 (ticks L s0 samples)))) := by
  obtain ⟨i1, i2, i3, i4, i5⟩ := ticks_keepsTurning L samples s0 hm hk hrun
  refine ⟨i1, i2, i3, i4, i5, ?_⟩
  intro next
  obtain ⟨hlo, hhi⟩ := increment_range (setPose next.1 next.2 (ticks L s0 samples))
  have hle : (ticks L s0 samples).accumulatedRotation ≤ s0.targetDistance := by
    by_cases hs : samples = []
    · subst hs
      show s0.accumulatedRotation ≤ s0.targetDistance
      rw [hacc]; exact htarget
    · exact le_of_lt (i5 hs)
  have hlt : 0 < s0.targetDistance →
      (ticks L s0 samples).accumulatedRotation < s0.targetDistance := by
    intro hpos
    by_cases hs : samples = []
    · subst hs
      show s0.accumulatedRotation < s0.targetDistance
      rw [hacc]; exact hpos
    · exact i5 hs
  refine ⟨hlo, hhi, by linarith, ?_, ?_⟩
  · intro hbelow
    rw [tick_below_target L _ next i1 (by rw [i2]; exact hk) (by rw [i3]; exact hbelow)]
  · intro _
    refine ⟨by linarith, ?_⟩
    intro hpos
    have := hlt hpos
    linarith

/-- The example of C8: the rotation of "R90L", one sample at heading 1 that does not
complete it, and a next sample at heading 2 that does. -/
theorem C8_rotation_progress_monotone_bounded_witness :
    keepsTurning stdLib rotateLeftQuarterArmed [(⟨60, 60⟩, 1)]
    ∧ (ticks stdLib rotateLeftQuarterArmed [(⟨60, 60⟩, 1)]).accumulatedRotation
        < rotateLeftQuarterArmed.targetDistance
    ∧ 0 ≤ increment (setPose ⟨60, 60⟩ 2 (ticks stdLib rotateLeftQuarterArmed [(⟨60, 60⟩, 1)]))
    ∧ increment (setPose ⟨60, 60⟩ 2 (ticks stdLib rotateLeftQuarterArmed [(⟨60, 60⟩, 1)]))
        < 3 * M_PI / 2 := by
  have hrun : keepsTurning stdLib rotateLeftQuarterArmed [(⟨60, 60⟩, 1)] := by
    refine ⟨?_, trivial⟩
    show rotateLeftQuarterTurned.accumulatedRotation + increment rotateLeftQuarterTurned
      < rotateLeftQuarterArmed.targetDistance
    rw [increment_rotateLeftQuarterTurned]
    norm_num [rotateLeftQuarterTurned, rotateLeftQuarterArmed, initial, M_PI]
  have h := C8_rotation_progress_monotone_bounded stdLib rotateLeftQuarterArmed
    [(⟨60, 60⟩, 1)] rfl (Or.inl rfl) rfl (by norm_num [rotateLeftQuarterArmed, M_PI]) hrun
  exact ⟨hrun, h.2.2.2.2.1 (by simp), (h.2.2.2.2.2 (⟨60, 60⟩, 2)).1,
    (h.2.2.2.2.2 (⟨60, 60⟩, 2)).2.1⟩

/-- C8 as stated fails for a target of zero: "R0L" arms a left rotation with target 0 and
progress 0; the first sample, at which the robot has turned by 1 radian, completes it with
progress 1, which exceeds the target by the whole increment 1, not by less. -/
theorem C8_counterexample_zero_target :
    setPose ⟨60, 60⟩ 1 (processCommand stdLib initial "R0L") = rotateLeftZeroTurned
    ∧ rotateLeftZeroTurned.accumulatedRotation = 0
    ∧ rotateLeftZeroTurned.targetDistance = 0
    ∧ increment rotateLeftZeroTurned = 1
    ∧ (timerEvent stdLib rotateLeftZeroTurned).isMoving = false
    ∧ (timerEvent stdLib rotateLeftZeroTurned).sent
        = [.okRotatingLeft 0, .okCompletedRotation "" 0, .okAllCompleted]
    ∧ ¬ (rotateLeftZeroTurned.accumulatedRotation + increment rotateLeftZeroTurned
          - rotateLeftZeroTurned.targetDistance < increment rotateLeftZeroTurned) := by
  have hstep : timerEvent stdLib rotateLeftZeroTurned
      = sendResponse .okAllCompleted
          { sendResponse (.okCompletedRotation "" 0)
              { stopRobot rotateLeftZeroTurned with
                accumulatedRotation := 0, lastAngle := rotateLeftZeroTurned.robot.angle } with
            executingQueue := false } := by
    unfold timerEvent
    rw [if_pos (show rotateLeftZeroTurned.isMoving = true from rfl),
      checkMovementProgress_rotation _ _ rfl (Or.inl rfl),
      increment_rotateLeftZeroTurned, if_pos (by norm_num [rotateLeftZeroTurned, initial]),
      if_pos (show rotateLeftZeroTurned.executingQueue = true from rfl),
      executeNextCommand_nil _ _ rfl]
  refine ⟨processCommand_R0L, rfl, rfl, increment_rotateLeftZeroTurned, ?_, ?_, ?_⟩
  · rw [hstep]; rfl
  · rw [hstep]; rfl
  · rw [increment_rotateLeftZeroTurned]
    norm_num [rotateLeftZeroTurned, initial]

/-- C9: a submission `t1, ..., tn` made while Idle, whose first token is an optional mode
prefix, a numeral of value `n ≥ 0` and a direction letter that together denote an intent,
discards the previous queue, arms that intent at once with a single message that is not
an error, and leaves in the queue exactly the tokens `t2, ..., tn` that are not empty once
trimmed, trimmed, in their order. -/
theorem C9_idle_submission_arms_first_queues_rest (L : Lib) (s : SocketControlExample)
    (t1 : String) (ts : List String) (pre num : List Char) (dir : Char) (n : ℚ)
    (intent : MotionIntent) (hidle : s.isMoving = false)
    (hform : (toUpper (trimmed t1)).data = pre ++ num ++ [dir])
    (hpre : pre = [] ∨ pre = ['D'] ∨ pre = ['R'])
    (hnum : ∃ x xs, num = x :: xs ∧ isLetter x = false)
    (hval : L.toDouble ⟨num⟩ = some n) (hn : 0 ≤ n)
    (hi : denotes pre dir n = some intent) :
    Armed (executeMovementSequence L s (t1 :: ts)) s.robot.pos s.robot.angle intent
    ∧ (executeMovementSequence L s (t1 :: ts)).commandQueue
        = (ts.filter (fun m => !isEmpty (trimmed m))).map trimmed
    ∧ ∃ msg, (executeMovementSequence L s (t1 :: ts)).sent = s.sent ++ [msg]
        ∧ isError msg = false := by
  have hne : isEmpty (trimmed t1) = false := isEmpty_trimmed_of_form t1 (pre ++ num) dir hform
  have hq : appendMovements [] (t1 :: ts)
      = trimmed t1 :: (ts.filter (fun m => !isEmpty (trimmed m))).map trimmed := by
    rw [appendMovements_eq]
    simp [hne]
  have key : ∀ (S : SocketControlExample) (rest : List String), S.robot = s.robot →
      S.sent = s.sent → S.commandQueue = trimmed t1 :: rest →
      Armed (executeNextCommand L S) s.robot.pos s.robot.angle intent
        ∧ (executeNextCommand L S).commandQueue = rest
        ∧ ∃ msg, (executeNextCommand L S).sent = s.sent ++ [msg] ∧ isError msg = false := by
    intro S rest hrobot hsent hS
    rw [executeNextCommand_cons L S (trimmed t1) rest hS]
    obtain ⟨r, hr, harmed, hqueue, -, msg, hmsg, herr⟩ :=
      commandEffect_arms L { S with commandQueue := rest } (trimmed t1) pre num dir n intent
        (by rw [trimmed_trimmed]; exact hform) hpre hnum hval hn hi
    rw [hr]
    refine ⟨?_, hqueue, msg, ?_, herr⟩
    · rw [← hrobot]; exact harmed
    · rw [← hsent]; exact hmsg
  unfold executeMovementSequence
  simp only [List.isEmpty_cons, Bool.false_eq_true, if_false, hidle, hq]
  exact key _ _ rfl rfl rfl

/-- The example of C9: "10F;5R" submitted to the initial state arms forward 10 and leaves
the single token "5R" in the queue. -/
theorem C9_idle_submission_arms_first_queues_rest_witness :
    split ';' "10F;5R" = ["10F", "5R"]
    ∧ Armed (executeMovementSequence stdLib initial ["10F", "5R"]) ⟨60, 60⟩ 0 (.Forward 10)
    ∧ (executeMovementSequence stdLib initial ["10F", "5R"]).commandQueue = ["5R"] :=
  ⟨by decide,
    (C9_idle_submission_arms_first_queues_rest stdLib initial "10F" ["5R"] [] ['1', '0'] 'F'
      10 (.Forward 10) rfl (by decide) (Or.inl rfl) ⟨'1', ['0'], rfl, by decide⟩
      stdLib_toDouble_10 (by norm_num) (by decide)).1,
    (C9_idle_submission_arms_first_queues_rest stdLib initial "10F" ["5R"] [] ['1', '0'] 'F'
      10 (.Forward 10) rfl (by decide) (Or.inl rfl) ⟨'1', ['0'], rfl, by decide⟩
      stdLib_toDouble_10 (by norm_num) (by decide)).2.1.trans (by decide)⟩

/-- C10: a submission made while a motion is active appends rather than restarts: the
kind, target, progress, reference position and headings, pending distance and both wheel
speeds of the active motion are unchanged, and the new queue is the old queue followed by
the submitted tokens that are not empty once trimmed, trimmed, in their order. -/
theorem C10_submission_while_active_appends (L : Lib) (s : SocketControlExample)
    (movements : List String) (hmoving : s.isMoving = true) :
    (executeMovementSequence L s movements).isMoving = true
    ∧ (executeMovementSequence L s movements).currentMovementType = s.currentMovementType
    ∧ (executeMovementSequence L s movements).targetDistance = s.targetDistance
    ∧ (executeMovementSequence L s movements).currentDistance = s.currentDistance
    ∧ (executeMovementSequence L s movements).accumulatedRotation = s.accumulatedRotation
    ∧ (executeMovementSequence L s movements).startPosition = s.startPosition
    ∧ (executeMovementSequence L s movements).startAngle = s.startAngle
    ∧ (executeMovementSequence L s movements).lastAngle = s.lastAngle
    ∧ (executeMovementSequence L s movements).pendingMoveDistance = s.pendingMoveDistance
    ∧ (executeMovementSequence L s movements).robot = s.robot
    ∧ (executeMovementSequence L s movements).commandQueue
        = s.commandQueue ++ (movements.filter (fun m => !isEmpty (trimmed m))).map trimmed := by
  unfold executeMovementSequence
  cases movements with
  | nil => simp [sendResponse, hmoving]
  | cons m ms =>
    simp only [List.isEmpty_cons, Bool.false_eq_true, if_false, hmoving, if_true,
      appendMovements_eq]
    simp [sendResponse, hmoving]

/-- A submission of three tokens, one of them blank, while the forward motion of "10F"
is active. -/
theorem C10_submission_while_active_appends_witness :
    forwardTenActive.isMoving = true
    ∧ (executeMovementSequence stdLib forwardTenActive [" 3B", " ", "R45L "]).commandQueue
        = ["5R", "3B", "R45L"]
    ∧ (executeMovementSequence stdLib forwardTenActive [" 3B", " ", "R45L "]).targetDistance
        = 10 :=
  ⟨rfl,
    (C10_submission_while_active_appends stdLib forwardTenActive [" 3B", " ", "R45L "]
      rfl).2.2.2.2.2.2.2.2.2.2.trans (by decide),
    (C10_submission_while_active_appends stdLib forwardTenActive [" 3B", " ", "R45L "]
      rfl).2.2.1⟩

/-- C11: `stop` is total and idempotent.  From every state, a command line that is `stop`
up to case and surrounding blanks leaves both wheel speeds zero, no active motion and an
empty queue, and answers with the one message "stopped and queue cleared"; a second such
line answers with the same message and leaves every member of the controller as the
first one left it. -/
theorem C11_stop_idempotent_total (L : Lib) (s : SocketControlExample) (c1 c2 : String)
    (h1 : toLower (trimmed c1) = "stop") (h2 : toLower (trimmed c2) = "stop") :
    (processCommand L s c1).robot.leftSpeed = 0
    ∧ (processCommand L s c1).robot.rightSpeed = 0
    ∧ (processCommand L s c1).isMoving = false
    ∧ (processCommand L s c1).commandQueue = []
    ∧ (processCommand L s c1).sent = s.sent ++ [.okStopped]
    ∧ (processCommand L (processCommand L s c1) c2).sent
        = (processCommand L s c1).sent ++ [.okStopped]
    ∧ { processCommand L (processCommand L s c1) c2 with
          sent := (processCommand L s c1).sent } = processCommand L s c1 := by
  have e1 : ("stop" : String) ≠ "status" := by decide
  have e2 : ("stop" : String) ≠ "quit" := by decide
  have hstop : ∀ (t : SocketControlExample) (c : String), toLower (trimmed c) = "stop" →
      processCommand L t c
        = sendResponse .okStopped
            { stopRobot t with commandQueue := [], executingQueue := false } := by
    intro t c hc
    simp only [processCommand, hc, e1, e2, if_false, if_true]
  rw [hstop _ c2 h2, hstop s c1 h1]
  norm_num [sendResponse, stopRobot]

/-- The example of C11: `stop` while the forward motion of "10F" is active with "5R"
queued, then ` STOP ` again. -/
theorem C11_stop_idempotent_total_witness :
    toLower (trimmed "stop") = "stop" ∧ toLower (trimmed " STOP ") = "stop"
    ∧ (processCommand stdLib forwardTenActive "stop").robot.leftSpeed = 0
    ∧ (processCommand stdLib forwardTenActive "stop").commandQueue = []
    ∧ { processCommand stdLib (processCommand stdLib forwardTenActive "stop") " STOP " with
          sent := (processCommand stdLib forwardTenActive "stop").sent }
        = processCommand stdLib forwardTenActive "stop" :=
  ⟨by decide, by decide,
    (C11_stop_idempotent_total stdLib forwardTenActive "stop" " STOP " (by decide)
      (by decide)).1,
    (C11_stop_idempotent_total stdLib forwardTenActive "stop" " STOP " (by decide)
      (by decide)).2.2.2.1,
    (C11_stop_idempotent_total stdLib forwardTenActive "stop" " STOP " (by decide)
      (by decide)).2.2.2.2.2.2⟩

/-- C12 as stated fails in two ways.  By design: "5X" run from Idle with "5F" waiting is
answered with the error and the queue goes on, so that afterwards the forward motion of
"5F" is armed.  By the defect of the rotation branch: "R90F" run from Idle with nothing
waiting is answered with the error, but `isMoving` is left true and the target is now
`90 * π / 180`. -/
theorem C12_counterexample_queue_goes_on :
    idleFiveForwardQueued.isMoving = false
    ∧ (executeSingleCommand stdLib idleFiveForwardQueued "5X").sent
        = [.errInvalidDisplacementDirection 'X', .okMovingForward 5]
    ∧ (executeSingleCommand stdLib idleFiveForwardQueued "5X").isMoving = true
    ∧ (executeSingleCommand stdLib idleFiveForwardQueued "5X").targetDistance = 5
    ∧ (executeSingleCommand stdLib idleFiveForwardQueued "5X").robot.leftSpeed = 5
    ∧ (executeSingleCommand stdLib initial "R90F").sent = [.errInvalidRotationDirection 'F']
    ∧ (executeSingleCommand stdLib initial "R90F").isMoving = true
    ∧ (executeSingleCommand stdLib initial "R90F").targetDistance = 90 * M_PI / 180 := by
  have c1 : ('F' : Char) ≠ 'L' := by decide
  have c2 : ('F' : Char) ≠ 'R' := by decide
  have hA : executeSingleCommand stdLib idleFiveForwardQueued "5X"
      = { initial with
          robot := { initial.robot with leftSpeed := 5, rightSpeed := 5 }
          isMoving := true
          targetDistance := 5
          startPosition := ⟨60, 60⟩
          currentMovementType := "forward"
          executingQueue := true
          sent := [.errInvalidDisplacementDirection 'X', .okMovingForward 5] } := by
    rw [executeSingleCommand_eq,
      commandEffect_number _ _ _ 5 (by decide) (by decide) stdLib_toDouble_5 (by norm_num),
      show isRotationCommand (toUpper (trimmed "5X")) = false by decide,
      show isDisplacementCommand (toUpper (trimmed "5X")) = true by decide,
      show directionOf (toUpper (trimmed "5X")) = 'X' by decide,
      armEffect_badDirection _ _ _ _ (by decide) (by decide) (by decide) (by decide)]
    show executeNextCommand stdLib _ = _
    rw [executeNextCommand_cons _ _ "5F" [] rfl,
      commandEffect_number _ _ _ 5 (by decide) (by decide) stdLib_toDouble_5 (by norm_num),
      show isRotationCommand (toUpper (trimmed "5F")) = false by decide,
      show isDisplacementCommand (toUpper (trimmed "5F")) = true by decide,
      show directionOf (toUpper (trimmed "5F")) = 'F' by decide]
    norm_num [armEffect, Outcome.finish, sendResponse, setSpeeds, DEFAULT_SPEED, initial,
      idleFiveForwardQueued]
  have hB : executeSingleCommand stdLib initial "R90F"
      = { initial with
          isMoving := true
          targetDistance := 90 * M_PI / 180
          sent := [.errInvalidRotationDirection 'F'] } := by
    rw [executeSingleCommand_eq,
      commandEffect_number _ _ _ 90 (by decide) (by decide) stdLib_toDouble_90 (by norm_num),
      show isRotationCommand (toUpper (trimmed "R90F")) = true by decide,
      show directionOf (toUpper (trimmed "R90F")) = 'F' by decide]
    norm_num [armEffect, Outcome.finish, sendResponse, initial, c1, c2]
  rw [hA, hB]
  exact ⟨rfl, rfl, rfl, rfl, rfl, rfl, rfl, rfl⟩

/-- C12, amended: a token that is not empty and not in rotation mode, whose last character
is none of `F`, `B`, `L`, `R`, run from Idle, is answered with one error (the invalid
displacement direction when its number is valid and its mode is displacement) and arms no
motion: the call goes on with the next queued token, from the state it started from, and
every member of the controller but the log ends as advancing the queue alone leaves it.
With nothing queued the controller is Idle afterwards, target and robot unchanged. -/
theorem C12_unpermitted_direction_refused (L : Lib) (s : SocketControlExample)
    (movement : String) (hidle : s.isMoving = false) (hne : isEmpty movement = false)
    (hrot : isRotationCommand (toUpper (trimmed movement)) = false)
    (hF : directionOf (toUpper (trimmed movement)) ≠ 'F')
    (hB : directionOf (toUpper (trimmed movement)) ≠ 'B')
    (hL : directionOf (toUpper (trimmed movement)) ≠ 'L')
    (hR : directionOf (toUpper (trimmed movement)) ≠ 'R') :
    ∃ e, isError e = true
      ∧ executeSingleCommand L s movement = executeNextCommand L (sendResponse e s)
      ∧ sameButLog (executeSingleCommand L s movement) (executeNextCommand L s)
      ∧ (∀ n, 2 ≤ length (toUpper (trimmed movement)) →
          L.toDouble (numberStrOf (toUpper (trimmed movement))) = some n → 0 ≤ n →
          isDisplacementCommand (toUpper (trimmed movement)) = true →
          e = .errInvalidDisplacementDirection (directionOf (toUpper (trimmed movement))))
      ∧ (s.commandQueue = [] →
          (executeSingleCommand L s movement).isMoving = false
          ∧ (executeSingleCommand L s movement).targetDistance = s.targetDistance
          ∧ (executeSingleCommand L s movement).robot = s.robot
          ∧ (executeSingleCommand L s movement).sent = s.sent ++ [e, .okAllCompleted]) := by
  obtain ⟨e, he, hce, hkind⟩ := commandEffect_refused L s movement hne hrot hF hB hL hR
  have hs : (if s.isMoving then stopRobot s else s) = s := by
    rw [hidle]; rfl
  rw [hs, or_self] at hce
  have heq : executeSingleCommand L s movement = executeNextCommand L (sendResponse e s) := by
    rw [executeSingleCommand_eq, hce]; rfl
  refine ⟨e, he, heq, ?_, hkind, ?_⟩
  · rw [heq]
    exact executeNextCommand_sameButLog L _ _ (sameButLog_sendResponse e s)
  · intro hq
    rw [heq, executeNextCommand_nil L (sendResponse e s) hq]
    simp [sendResponse, hidle]

/-- The example of C12: "5X" run from the initial state. -/
theorem C12_unpermitted_direction_refused_witness :
    (executeSingleCommand stdLib initial "5X").isMoving = false
    ∧ (executeSingleCommand stdLib initial "5X").targetDistance = 0
    ∧ (executeSingleCommand stdLib initial "5X").sent
        = [.errInvalidDisplacementDirection 'X', .okAllCompleted] := by
  obtain ⟨e, -, -, -, hkind, hend⟩ := C12_unpermitted_direction_refused stdLib initial "5X"
    rfl (by decide) (by decide) (by decide) (by decide) (by decide) (by decide)
  have he := hkind 5 (by decide) stdLib_toDouble_5 (by norm_num) (by decide)
  obtain ⟨h1, h2, -, h4⟩ := hend rfl
  refine ⟨h1, h2, ?_⟩
  rw [h4, he]
  rfl

/-- C13: every token that `executeSingleCommand` receives (one that some event leads to a
call with, in some reachable state) and whose trimmed form has fewer than 2 characters is
answered with the one error "invalid movement format" naming it; every such token of at
least 2 characters whose magnitude field, once an optional letter prefix is stripped, does
not parse or parses as a negative number is answered with the one error "invalid distance"
naming it.  In both cases no motion is armed for the token: the call goes on with the next
queued token from the state it started from, and every member of the controller but the
log ends as advancing the queue alone leaves it.  It holds from every state. -/
theorem C13_short_or_bad_number_refused (L : Lib) (s : SocketControlExample)
    (movement : String) (hrecv : Received L movement) :
    (length (toUpper (trimmed movement)) < 2 →
        executeSingleCommand L s movement
          = executeNextCommand L (sendResponse (.errInvalidMovementFormat movement) s)
        ∧ sameButLog (executeSingleCommand L s movement) (executeNextCommand L s))
    ∧ (2 ≤ length (toUpper (trimmed movement)) →
        (L.toDouble (numberStrOf (toUpper (trimmed movement))) = none
          ∨ ∃ d, L.toDouble (numberStrOf (toUpper (trimmed movement))) = some d ∧ d < 0) →
        executeSingleCommand L s movement
          = executeNextCommand L (sendResponse
              (.errInvalidDistance movement (numberStrOf (toUpper (trimmed movement)))) s)
        ∧ sameButLog (executeSingleCommand L s movement) (executeNextCommand L s)) :=
  executeSingleCommand_short_or_bad_number L s movement (received_not_empty L movement hrecv)

/-- The examples of C13: "F" is too short, "-5F" has a negative number; each is received
when it is submitted alone to the initial state and, run from the initial state, is
answered with its error, and the queue, which is empty, is advanced. -/
theorem C13_short_or_bad_number_refused_witness :
    executeSingleCommand stdLib initial "F"
        = executeNextCommand stdLib (sendResponse (.errInvalidMovementFormat "F") initial)
    ∧ numberStrOf (toUpper (trimmed "-5F")) = "-5"
    ∧ executeSingleCommand stdLib initial "-5F"
        = executeNextCommand stdLib
            (sendResponse (.errInvalidDistance "-5F" (numberStrOf (toUpper (trimmed "-5F"))))
              initial) :=
  ⟨((C13_short_or_bad_number_refused stdLib initial "F"
      (received_of_line stdLib "F" (by decide) (by decide) (by decide) (by decide)
        (by decide) (by decide))).1 (by decide)).1,
    by decide,
    ((C13_short_or_bad_number_refused stdLib initial "-5F"
      (received_of_line stdLib "-5F" (by decide) (by decide) (by decide) (by decide)
        (by decide) (by decide))).2 (by decide)
      (Or.inr ⟨-5, stdLib_toDouble_neg5, by norm_num⟩)).1⟩

/-- C14 as stated fails: "X5F" run from the initial state is answered with the error
"unknown command type" and arms nothing, whereas "5F" arms the forward motion with
target 5. -/
theorem C14_counterexample_other_letter :
    (executeSingleCommand stdLib initial "X5F").sent
        = [.errUnknownCommandType "X5F", .okAllCompleted]
    ∧ (executeSingleCommand stdLib initial "X5F").isMoving = false
    ∧ (executeSingleCommand stdLib initial "X5F").currentMovementType = ""
    ∧ (executeSingleCommand stdLib initial "5F").isMoving = true
    ∧ (executeSingleCommand stdLib initial "5F").currentMovementType = "forward"
    ∧ (executeSingleCommand stdLib initial "5F").targetDistance = 5 := by
  have hA : executeSingleCommand stdLib initial "X5F"
      = sendResponse .okAllCompleted (sendResponse (.errUnknownCommandType "X5F") initial) := by
    rw [executeSingleCommand_eq,
      commandEffect_number _ _ _ 5 (by decide) (by decide) stdLib_toDouble_5 (by norm_num),
      show isRotationCommand (toUpper (trimmed "X5F")) = false by decide,
      show isDisplacementCommand (toUpper (trimmed "X5F")) = false by decide,
      armEffect_unknown]
    show executeNextCommand stdLib _ = _
    rw [executeNextCommand_nil _ _ rfl]
    rfl
  have hB : executeSingleCommand stdLib initial "5F"
      = { initial with
          robot := { initial.robot with leftSpeed := 5, rightSpeed := 5 }
          isMoving := true
          targetDistance := 5
          startPosition := ⟨60, 60⟩
          currentMovementType := "forward"
          sent := [.okMovingForward 5] } := by
    rw [executeSingleCommand_eq,
      commandEffect_number _ _ _ 5 (by decide) (by decide) stdLib_toDouble_5 (by norm_num),
      show isRotationCommand (toUpper (trimmed "5F")) = false by decide,
      show isDisplacementCommand (toUpper (trimmed "5F")) = true by decide,
      show directionOf (toUpper (trimmed "5F")) = 'F' by decide]
    norm_num [armEffect, Outcome.finish, sendResponse, setSpeeds, DEFAULT_SPEED, initial]
  rw [hA, hB]
  exact ⟨rfl, rfl, rfl, rfl, rfl, rfl⟩

/-- C14, amended: a token whose magnitude field starts with a letter other than `R` and
`D`, followed by a number that parses and is not negative and by any last character, is
not taken as a displacement: it is answered with the one error "unknown command type"
naming it, after `stopRobot` if a motion was under way, and no motion is armed for it; the
call goes on with the next queued token, and when run from Idle every member of the
controller but the log ends as advancing the queue alone leaves it. -/
theorem C14_other_letter_prefix_refused (L : Lib) (s : SocketControlExample)
    (movement : String) (x : Char) (num : List Char) (dir : Char) (n : ℚ)
    (hform : (toUpper (trimmed movement)).data = x :: num ++ [dir])
    (hx : isLetter x = true) (hxR : x ≠ 'R') (hxD : x ≠ 'D')
    (hval : L.toDouble ⟨num⟩ = some n) (hn : 0 ≤ n) :
    executeSingleCommand L s movement
        = executeNextCommand L (sendResponse (.errUnknownCommandType movement)
            (if s.isMoving then stopRobot s else s))
    ∧ (s.isMoving = false →
        sameButLog (executeSingleCommand L s movement) (executeNextCommand L s)) := by
  obtain ⟨h2, -, hns, hrot, hdisp⟩ := parts_of_other_letter _ x num dir hform hx hxR hxD
  have h1 : isEmpty movement = false := isEmpty_of_form movement (x :: num) dir hform
  have heq : executeSingleCommand L s movement
      = executeNextCommand L (sendResponse (.errUnknownCommandType movement)
          (if s.isMoving then stopRobot s else s)) := by
    rw [executeSingleCommand_eq,
      commandEffect_number L s movement n h1 h2 (by rw [hns]; exact hval) hn, hrot, hdisp,
      armEffect_unknown]
    rfl
  refine ⟨heq, ?_⟩
  intro hidle
  rw [heq, hidle]
  exact executeNextCommand_sameButLog L _ _ (sameButLog_sendResponse _ s)

/-- The example of C14: "X5F" run from the initial state. -/
theorem C14_other_letter_prefix_refused_witness :
    executeSingleCommand stdLib initial "X5F"
        = executeNextCommand stdLib (sendResponse (.errUnknownCommandType "X5F") initial)
    ∧ sameButLog (executeSingleCommand stdLib initial "X5F")
        (executeNextCommand stdLib initial) :=
  ⟨(C14_other_letter_prefix_refused stdLib initial "X5F" 'X' ['5'] 'F' 5 (by decide)
      (by decide) (by decide) (by decide) stdLib_toDouble_5 (by norm_num)).1,
    (C14_other_letter_prefix_refused stdLib initial "X5F" 'X' ['5'] 'F' 5 (by decide)
      (by decide) (by decide) (by decide) stdLib_toDouble_5 (by norm_num)).2 rfl⟩

/-- C15, the code at a failing input: the line "; ;" is not a literal and holds no token
once split on `;` and trimmed, yet `split` keeps its blank part, so the line is not
refused.  Submitted to the initial state it is answered with "All commands completed";
submitted while the forward motion of "10F" is active it is answered with "Added 1
commands to queue", the queue being unchanged.  The line ";;" is refused with the format
error. -/
theorem C15_blank_token_line_not_refused :
    split ';' (trimmed "; ;") = [" "]
    ∧ appendMovements [] [" "] = []
    ∧ (processCommand stdLib initial "; ;").sent = [.okAllCompleted]
    ∧ (processCommand stdLib forwardTenActive "; ;").sent
        = forwardTenActive.sent ++ [.infoAdded 1]
    ∧ (processCommand stdLib forwardTenActive "; ;").commandQueue
        = forwardTenActive.commandQueue
    ∧ (processCommand stdLib initial ";;").sent = [.errInvalidCommandFormat] := by
  have hsplit : split ';' (trimmed "; ;") = [" "] := by decide
  have happ : appendMovements [] [" "] = [] := by decide
  have hA : processCommand stdLib initial "; ;"
      = sendResponse .okAllCompleted { initial with commandQueue := [] } := by
    rw [processCommand_movements _ _ _ (by decide) (by decide) (by decide) (by decide),
      hsplit, executeMovementSequence_idle stdLib initial [" "] rfl rfl, happ,
      executeNextCommand_nil _ _ rfl]
    rfl
  have hB : processCommand stdLib forwardTenActive "; ;"
      = sendResponse (.infoAdded 1) forwardTenActive := by
    rw [processCommand_movements _ _ _ (by decide) (by decide) (by decide) (by decide),
      hsplit]
    have hq : appendMovements forwardTenActive.commandQueue [" "]
        = forwardTenActive.commandQueue := by decide
    simp only [executeMovementSequence, List.isEmpty_cons, Bool.false_eq_true, if_false,
      show forwardTenActive.isMoving = true from rfl, if_true, hq, List.length_singleton]
    rfl
  have hC : processCommand stdLib initial ";;" = sendResponse .errInvalidCommandFormat initial := by
    have h1 : toLower (trimmed ";;") ≠ "status" := by decide
    have h2 : toLower (trimmed ";;") ≠ "quit" := by decide
    have h3 : toLower (trimmed ";;") ≠ "stop" := by decide
    have h4 : (split ';' (trimmed ";;")).isEmpty = true := by decide
    simp only [processCommand, if_neg h1, if_neg h2, if_neg h3, h4, if_true]
  rw [hA, hB, hC]
  exact ⟨hsplit, happ, rfl, rfl, rfl, rfl⟩

/-- C16: with `S` the base speed `DEFAULT_SPEED = 5.0`, a token that denotes an intent
leaves the wheel speeds `(S, S)` for forward, `(-S, -S)` for backward, `(-0.6 S, 0.6 S)`
for a left rotation and the turn phase of a left turn-then-move, `(0.6 S, -0.6 S)` for a
right rotation and the turn phase of a right turn-then-move; the tick that switches a
turn-then-move to its forward phase leaves `(S, S)`; and a tick that neither completes
the motion nor switches its phase leaves the speeds as they were. -/
theorem C16_wheel_speeds_by_intent (L : Lib) :
    DEFAULT_SPEED = 5
    ∧ (∀ (s : SocketControlExample) (movement : String) (pre num : List Char) (dir : Char)
        (n : ℚ) (intent : MotionIntent),
        (toUpper (trimmed movement)).data = pre ++ num ++ [dir] →
        (pre = [] ∨ pre = ['D'] ∨ pre = ['R']) →
        (∃ x xs, num = x :: xs ∧ isLetter x = false) →
        L.toDouble ⟨num⟩ = some n → 0 ≤ n → denotes pre dir n = some intent →
        ((executeSingleCommand L s movement).robot.leftSpeed,
          (executeSingleCommand L s movement).robot.rightSpeed) = speedsFor intent)
    ∧ (∀ (t : SocketControlExample) (sample : Point × ℚ), t.isMoving = true →
        (t.currentMovementType = "turn_left_then_move"
          ∨ t.currentMovementType = "turn_right_then_move") →
        t.targetDistance ≤ (setPose sample.1 sample.2 t).accumulatedRotation
          + increment (setPose sample.1 sample.2 t) →
        (tick L t sample).robot.leftSpeed = DEFAULT_SPEED
        ∧ (tick L t sample).robot.rightSpeed = DEFAULT_SPEED)
    ∧ (∀ (t : SocketControlExample) (sample : Point × ℚ), t.isMoving = true →
        (t.currentMovementType = "forward" ∨ t.currentMovementType = "backward") →
        distanceFrom L t.startPosition sample.1 < t.targetDistance →
        (tick L t sample).robot.leftSpeed = t.robot.leftSpeed
        ∧ (tick L t sample).robot.rightSpeed = t.robot.rightSpeed)
    ∧ (∀ (t : SocketControlExample) (sample : Point × ℚ), t.isMoving = true →
        (t.currentMovementType = "rotate_left" ∨ t.currentMovementType = "rotate_right"
          ∨ t.currentMovementType = "turn_left_then_move"
          ∨ t.currentMovementType = "turn_right_then_move") →
        (setPose sample.1 sample.2 t).accumulatedRotation
          + increment (setPose sample.1 sample.2 t) < t.targetDistance →
        (tick L t sample).robot.leftSpeed = t.robot.leftSpeed
        ∧ (tick L t sample).robot.rightSpeed = t.robot.rightSpeed) := by
  refine ⟨by norm_num [DEFAULT_SPEED], ?_, ?_, ?_, ?_⟩
  · intro s movement pre num dir n intent hform hpre hnum hval hn hi
    obtain ⟨r, hr, hsp⟩ :=
      commandEffect_arms_speeds L s movement pre num dir n intent hform hpre hnum hval hn hi
    rw [executeSingleCommand_eq, hr]
    exact hsp
  · intro t sample hm hk hge
    obtain ⟨h1, h2, -, -⟩ := tick_turn_reached_speeds L t sample hm hk hge
    exact ⟨h1, h2⟩
  · intro t sample hm hk hlt
    rw [tick_displacement_below L t sample hm hk hlt]
    exact ⟨rfl, rfl⟩
  · intro t sample hm hk hlt
    rw [tick_below_target L t sample hm hk hlt]
    exact ⟨rfl, rfl⟩

/-- The examples of C16: "R90L" from the initial state leaves `(-3, 3)`; the turn phase
of "3L" switches to `(5, 5)` at a sample where the robot has turned by 2 radians; the
forward motion of "10F" keeps `(5, 5)` at the sample (65, 60). -/
theorem C16_wheel_speeds_by_intent_witness :
    ((executeSingleCommand stdLib initial "R90L").robot.leftSpeed,
        (executeSingleCommand stdLib initial "R90L").robot.rightSpeed) = (-3, 3)
    ∧ (tick stdLib turnLeftThreeTurned (⟨60, 60⟩, 2)).robot.leftSpeed = 5
    ∧ (tick stdLib forwardTenArmed (⟨65, 60⟩, 0)).robot.leftSpeed = 5 := by
  have h := C16_wheel_speeds_by_intent stdLib
  refine ⟨?_, ?_, ?_⟩
  · rw [h.2.1 initial "R90L" ['R'] ['9', '0'] 'L' 90 (.RotateLeft (90 * M_PI / 180))
      (by decide) (Or.inr (Or.inr rfl)) ⟨'9', ['0'], rfl, by decide⟩ stdLib_toDouble_90
      (by norm_num) (by simp [denotes])]
    norm_num [speedsFor, DEFAULT_SPEED]
  · rw [(h.2.2.1 turnLeftThreeTurned (⟨60, 60⟩, 2) rfl (Or.inl rfl) (by
      show turnLeftThreeTurned.targetDistance
        ≤ turnLeftThreeTurned.accumulatedRotation + increment turnLeftThreeTurned
      rw [increment_turnLeftThreeTurned]
      norm_num [turnLeftThreeTurned, initial, M_PI])).1, h.1]
  · rw [(h.2.2.2.1 forwardTenArmed (⟨65, 60⟩, 0) rfl (Or.inl rfl) (by
      norm_num [distanceFrom, forwardTenArmed, stdLib, sqrt_25])).1]
    rfl

/-- C17 as stated fails: after "10F;5R" is submitted to the initial state the token "5R"
is queued; when the forward motion completes at (70, 60) and "5R" is started, the motion
armed is `turn_right_then_move` with rotation target `π / 2` and pending distance 5, not
`rotate_right` with target `5 * π / 180`. -/
theorem C17_counterexample_five_R_turns_then_moves :
    (run stdLib initial [.command "10F;5R"]).commandQueue = ["5R"]
    ∧ (run stdLib initial [.command "10F;5R", .world ⟨70, 60⟩ 0, .timer]).currentMovementType
        = "turn_right_then_move"
    ∧ (run stdLib initial [.command "10F;5R", .world ⟨70, 60⟩ 0, .timer]).targetDistance
        = M_PI / 2
    ∧ (run stdLib initial [.command "10F;5R", .world ⟨70, 60⟩ 0, .timer]).pendingMoveDistance
        = 5
    ∧ (run stdLib initial [.command "10F;5R", .world ⟨70, 60⟩ 0, .timer]).currentMovementType
        ≠ "rotate_right"
    ∧ (run stdLib initial [.command "10F;5R", .world ⟨70, 60⟩ 0, .timer]).targetDistance
        ≠ 5 * M_PI / 180 := by
  have h1 : run stdLib initial [.command "10F;5R"] = forwardTenActive := by
    simp only [run, List.foldl, step, processCommand_10F_5R]
  have hrun : run stdLib initial [.command "10F;5R", .world ⟨70, 60⟩ 0, .timer]
      = { initial with
          robot := { pos := ⟨70, 60⟩, angle := 0, leftSpeed := 3, rightSpeed := -3 }
          isMoving := true
          targetDistance := M_PI / 2
          startPosition := ⟨60, 60⟩
          currentMovementType := "turn_right_then_move"
          pendingMoveDistance := 5
          executingQueue := true
          sent := [.okMovingForward 10, .okCompletedMovement "" 0, .okTurningRight 5] } := by
    have d : distanceFrom stdLib forwardTenActive.startPosition (⟨70, 60⟩ : Point) = 10 := by
      norm_num [distanceFrom, forwardTenActive, stdLib, sqrt_100]
    have c1 : ('R' : Char) ≠ 'F' := by decide
    have c2 : ('R' : Char) ≠ 'B' := by decide
    have c3 : ('R' : Char) ≠ 'L' := by decide
    simp only [run, List.foldl, step, processCommand_10F_5R]
    show tick stdLib forwardTenActive (⟨70, 60⟩, 0) = _
    rw [tick_displacement_reached_next stdLib forwardTenActive (⟨70, 60⟩, 0) rfl (Or.inl rfl)
        rfl (by rw [d]; norm_num [forwardTenActive]),
      executeNextCommand_cons _ _ "5R" [] rfl,
      commandEffect_number _ _ _ 5 (by decide) (by decide) stdLib_toDouble_5 (by norm_num),
      show isRotationCommand (toUpper (trimmed "5R")) = false by decide,
      show isDisplacementCommand (toUpper (trimmed "5R")) = true by decide,
      show directionOf (toUpper (trimmed "5R")) = 'R' by decide]
    norm_num [armEffect, Outcome.finish, sendResponse, setSpeeds, resetRotationTracking,
      DEFAULT_SPEED, initial, stopRobot, setPose, forwardTenActive, c1, c2, c3, d]
  rw [h1, hrun]
  refine ⟨rfl, rfl, rfl, rfl, by decide, ?_⟩
  show M_PI / 2 ≠ 5 * M_PI / 180
  norm_num [M_PI]

/-- C17, amended: a token made of a numeral of value `n ≥ 0` followed by `R`, with no
prefix, denotes a right turn of `π / 2` followed by a forward move of `n`: it arms
`turn_right_then_move` with rotation target `π / 2` and pending distance `n`.  So does
such a token when it is the head of the queue at the tick that completes a forward or
backward motion: the motion armed at the pose of that sample is the turn-then-move, and
the tokens behind it stay queued. -/
theorem C17_number_then_R_turns_then_moves (L : Lib) (movement : String) (num : List Char)
    (n : ℚ) (hform : (toUpper (trimmed movement)).data = num ++ ['R'])
    (hnum : ∃ x xs, num = x :: xs ∧ isLetter x = false)
    (hval : L.toDouble ⟨num⟩ = some n) (hn : 0 ≤ n) :
    (∀ s : SocketControlExample,
        Armed (executeSingleCommand L s movement) s.robot.pos s.robot.angle
          (.TurnRightThenMove n))
    ∧ (∀ (t : SocketControlExample) (sample : Point × ℚ) (rest : List String),
        t.isMoving = true →
        (t.currentMovementType = "forward" ∨ t.currentMovementType = "backward") →
        t.executingQueue = true → t.commandQueue = movement :: rest →
        t.targetDistance ≤ distanceFrom L t.startPosition sample.1 →
        Armed (tick L t sample) sample.1 sample.2 (.TurnRightThenMove n)
        ∧ (tick L t sample).commandQueue = rest) := by
  have hform2 : (toUpper (trimmed movement)).data = [] ++ num ++ ['R'] := by simpa using hform
  have hi : denotes [] 'R' n = some (.TurnRightThenMove n) := by simp [denotes]
  constructor
  · intro s
    obtain ⟨r, hr, harmed, -⟩ :=
      commandEffect_arms L s movement [] num 'R' n _ hform2 (Or.inl rfl) hnum hval hn hi
    rw [executeSingleCommand_eq, hr]
    exact harmed
  · intro t sample rest hm hk he hq hge
    have key : ∀ X : SocketControlExample, X.commandQueue = movement :: rest →
        Armed (executeNextCommand L X) X.robot.pos X.robot.angle (.TurnRightThenMove n)
          ∧ (executeNextCommand L X).commandQueue = rest := by
      intro X hX
      rw [executeNextCommand_cons L X movement rest hX]
      obtain ⟨r, hr, harmed, hqueue, -⟩ :=
        commandEffect_arms L { X with commandQueue := rest } movement [] num 'R' n _ hform2
          (Or.inl rfl) hnum hval hn hi
      rw [hr]
      exact ⟨harmed, hqueue⟩
    rw [tick_displacement_reached_next L t sample hm hk he hge]
    exact key _ hq

/-- The example of C17: the forward motion of "10F" with "5R" queued, at the sample
(70, 60) that completes it. -/
theorem C17_number_then_R_turns_then_moves_witness :
    Armed (tick stdLib forwardTenActive (⟨70, 60⟩, 0)) ⟨70, 60⟩ 0 (.TurnRightThenMove 5)
    ∧ (tick stdLib forwardTenActive (⟨70, 60⟩, 0)).commandQueue = [] :=
  (C17_number_then_R_turns_then_moves stdLib "5R" ['5'] 5 (by decide)
    ⟨'5', [], rfl, by decide⟩ stdLib_toDouble_5 (by norm_num)).2 forwardTenActive
    (⟨70, 60⟩, 0) [] rfl (Or.inl rfl) rfl rfl (by
      norm_num [distanceFrom, forwardTenActive, stdLib, sqrt_100])

/-- C18, the code at a failing input: the line "3B; ;R45L" arrives while the forward
motion of "10F" is active with one token queued.  It is split into the tokens "3B", " "
and "R45L"; two of them are appended, the blank one being dropped, but the message
reports 3, the size of the submission. -/
theorem C18_reported_count_includes_blank_tokens :
    forwardTenActive.isMoving = true
    ∧ forwardTenActive.commandQueue.length = 1
    ∧ split ';' (trimmed "3B; ;R45L") = ["3B", " ", "R45L"]
    ∧ processCommand stdLib forwardTenActive "3B; ;R45L"
        = executeMovementSequence stdLib forwardTenActive ["3B", " ", "R45L"]
    ∧ (processCommand stdLib forwardTenActive "3B; ;R45L").commandQueue
        = ["5R", "3B", "R45L"]
    ∧ (processCommand stdLib forwardTenActive "3B; ;R45L").commandQueue.length
        - forwardTenActive.commandQueue.length = 2
    ∧ (processCommand stdLib forwardTenActive "3B; ;R45L").sent
        = forwardTenActive.sent ++ [.infoAdded 3] := by
  have hsplit : split ';' (trimmed "3B; ;R45L") = ["3B", " ", "R45L"] := by decide
  have hq : appendMovements forwardTenActive.commandQueue ["3B", " ", "R45L"]
      = ["5R", "3B", "R45L"] := by decide
  have hp : processCommand stdLib forwardTenActive "3B; ;R45L"
      = executeMovementSequence stdLib forwardTenActive ["3B", " ", "R45L"] := by
    rw [processCommand_movements _ _ _ (by decide) (by decide) (by decide) (by decide),
      hsplit]
  have h : executeMovementSequence stdLib forwardTenActive ["3B", " ", "R45L"]
      = sendResponse (.infoAdded 3)
          { forwardTenActive with commandQueue := ["5R", "3B", "R45L"] } := by
    simp only [executeMovementSequence, List.isEmpty_cons, Bool.false_eq_true, if_false,
      show forwardTenActive.isMoving = true from rfl, if_true, hq, List.length_cons,
      List.length_nil]
  refine ⟨rfl, rfl, hsplit, hp, ?_, ?_, ?_⟩ <;> rw [hp, h] <;> rfl

/-- C19 as stated fails at the lower end: with the robot at heading 0 and the reference
heading `M_PI`, the raw difference is `-M_PI`, neither loop runs, and the normalised
difference is `-M_PI` itself, which is not greater than `-M_PI`. -/
theorem C19_counterexample_minus_pi :
    rotateLeftHalfTurnBack.robot.angle = 0
    ∧ rotateLeftHalfTurnBack.lastAngle = M_PI
    ∧ whileBelow (whileAbove (0 - M_PI)) = -M_PI
    ∧ angleDelta rotateLeftHalfTurnBack = -M_PI
    ∧ ¬ (-M_PI < angleDelta rotateLeftHalfTurnBack)
    ∧ (checkMovementProgress stdLib rotateLeftHalfTurnBack).accumulatedRotation = M_PI := by
  have hd := angleDelta_rotateLeftHalfTurnBack
  have hpi := M_PI_pos
  have hinc : increment rotateLeftHalfTurnBack = M_PI := by
    unfold increment leftIncrement
    rw [hd]
    have : turnsLeft rotateLeftHalfTurnBack.currentMovementType = true := by decide
    rw [if_pos this, if_neg (by linarith), if_pos (by linarith)]
    ring
  refine ⟨rfl, rfl, ?_, hd, ?_, ?_⟩
  · have := hd
    unfold angleDelta at this
    simpa [rotateLeftHalfTurnBack] using this
  · rw [hd]; exact lt_irrefl _
  · rw [checkMovementProgress_rotation _ _ rfl (Or.inl rfl), hinc,
      if_neg (by norm_num [rotateLeftHalfTurnBack, initial, M_PI])]
    norm_num [rotateLeftHalfTurnBack, initial]

/-- C19, amended: for every current heading and every reference heading, the normalised
difference computed for a rotation sample lies in the closed interval from `-π` to `π`. -/
theorem C19_normalised_difference_closed_interval (heading lastAngle : ℚ) :
    -M_PI ≤ whileBelow (whileAbove (heading - lastAngle))
    ∧ whileBelow (whileAbove (heading - lastAngle)) ≤ M_PI :=
  ⟨whileBelow_ge _, whileBelow_le (whileAbove_le _)⟩

/-- C20, the code at a failing input: a rotation is under way with `lastAngle` 0 and the
robot is at the heading `1e17`, a finite double.  On doubles the raw difference is `1e17`,
which is above `M_PI`, and `1e17 - 2*M_PI` is `1e17` again: the doubles around `1e17` are
16 apart.  So the first loop makes no progress: whatever the number of rounds, its
condition still holds, and the normalisation never returns.  The second loop does the same
at `-1e17`.  At the heading 7 the same loops return `7 - 2*M_PI` after one round. -/
theorem C20_first_loop_never_ends_at_1e17 :
    subDouble 100000000000000000 0 = 100000000000000000
    ∧ (100000000000000000 : ℚ) > M_PI
    ∧ subDouble 100000000000000000 (mulDouble 2 M_PI) = 100000000000000000
    ∧ (∀ fuel, whileAboveDouble fuel (subDouble 100000000000000000 0) = none)
    ∧ (∀ fuel, normaliseDouble fuel 100000000000000000 0 = none)
    ∧ (∀ fuel, whileBelowDouble fuel (-100000000000000000) = none)
    ∧ normaliseDouble 1 7 0 = some (7 - 2 * M_PI) := by
  refine ⟨subDouble_1e17_zero, by norm_num [M_PI], subDouble_1e17_two_pi, ?_, ?_,
    whileBelowDouble_neg_1e17, ?_⟩
  · intro fuel
    rw [subDouble_1e17_zero]
    exact whileAboveDouble_1e17 fuel
  · intro fuel
    unfold normaliseDouble
    rw [subDouble_1e17_zero, whileAboveDouble_1e17 fuel]
    rfl
  · unfold normaliseDouble
    rw [subDouble_seven_zero, whileAboveDouble, if_pos (by norm_num [M_PI]),
      subDouble_seven_two_pi, whileAboveDouble, if_neg (by norm_num [M_PI])]
    simp only [Option.some_bind]
    rw [whileBelowDouble, if_neg (by norm_num [M_PI])]

/-- C21: in every state reachable from the initial state by command lines, timer ticks
and moves of the robot to arbitrary poses, if no motion is active (`isMoving` is false)
then the command queue is empty, both wheel speeds are zero and `currentMovementType` is
empty.  Every call of `executeSingleCommand` that an event leads to in a reachable state
is entered with `isMoving` false (and with zero speeds and no kind), and no token is
queued while no motion is active. -/
theorem C21_idle_means_empty_queue_and_rest (L : Lib) (s : SocketControlExample)
    (h : Reachable L s) :
    (s.isMoving = false →
        s.commandQueue = [] ∧ s.robot.leftSpeed = 0 ∧ s.robot.rightSpeed = 0
          ∧ s.currentMovementType = "")
    ∧ (∀ event, ∀ e ∈ enteredBy L s event,
        e.1.isMoving = false ∧ e.1.robot.leftSpeed = 0 ∧ e.1.robot.rightSpeed = 0
          ∧ e.1.currentMovementType = "")
    ∧ (s.commandQueue ≠ [] → s.isMoving = true) := by
  have hs := reachable_settled L s h
  refine ⟨hs.1, ?_, ?_⟩
  · intro event e he
    unfold enteredBy at he
    cases hc : nextCallOf L s event with
    | none => rw [hc] at he; simp at he
    | some s1 =>
      rw [hc] at he
      exact entriesFrom_atRest L _ s1 (nextCallOf_atRest L s s1 event hs hc).1 e he
  · intro hq
    cases hm : s.isMoving with
    | true => rfl
    | false => exact absurd (hs.1 hm).1 hq

/-- Two reachable states of C21.  After "10F" is submitted and completed at (70, 60) no
motion is active: the queue is empty, both speeds are zero and no kind is set.  After
"10F;R90F;5F" is submitted and the robot is at (70, 60), the timer leads to one call of
`executeSingleCommand`, entered with `isMoving` false. -/
theorem C21_idle_means_empty_queue_and_rest_witness :
    (run stdLib initial [.command "10F", .world ⟨70, 60⟩ 0, .timer]).isMoving = false
    ∧ ((run stdLib initial [.command "10F", .world ⟨70, 60⟩ 0, .timer]).commandQueue = []
      ∧ (run stdLib initial [.command "10F", .world ⟨70, 60⟩ 0, .timer]).robot.leftSpeed = 0
      ∧ (run stdLib initial [.command "10F", .world ⟨70, 60⟩ 0, .timer]).robot.rightSpeed = 0
      ∧ (run stdLib initial
          [.command "10F", .world ⟨70, 60⟩ 0, .timer]).currentMovementType = "")
    ∧ (enteredBy stdLib (run stdLib initial [.command "10F;R90F;5F", .world ⟨70, 60⟩ 0])
          .timer).length = 1
    ∧ ∀ e ∈ enteredBy stdLib
        (run stdLib initial [.command "10F;R90F;5F", .world ⟨70, 60⟩ 0]) .timer,
        e.1.isMoving = false ∧ e.1.robot.leftSpeed = 0 ∧ e.1.robot.rightSpeed = 0
          ∧ e.1.currentMovementType = "" :=
  ⟨by rw [run_10F_reached]; rfl,
    (C21_idle_means_empty_queue_and_rest stdLib _ ⟨_, rfl⟩).1 (by rw [run_10F_reached]; rfl),
    by
      have h := congrArg List.length enteredBy_forwardTenThenBadRotation
      simp only [List.length_map] at h
      simpa [run, step, processCommand_10F_R90F_5F] using h,
    (C21_idle_means_empty_queue_and_rest stdLib _ ⟨_, rfl⟩).2.1 .timer⟩

/-- C22: a token in rotation mode with a valid number `n ≥ 0` and a direction other than
`L` and `R`, executed while the controller is at rest, is answered with one error and
leaves `isMoving` true, both wheel speeds zero and no kind, the queue untouched.  After
any sequence of events without `stop` (ticks at any pose, command lines) the state is
still so, with the same motion members and a queue that has only been extended; in it a
tick at any pose changes nothing but the pose and sends nothing, a line that is no literal
command only extends the queue, no event leads to a call of `executeSingleCommand`, and
`stop` ends it: no motion is active and the queue is empty. -/
theorem C22_bad_rotation_direction_sticks (L : Lib) (s : SocketControlExample)
    (movement : String) (n : ℚ) (r : SocketControlExample) (events : List Event)
    (t : SocketControlExample)
    (hidle : s.isMoving = false) (hl : s.robot.leftSpeed = 0) (hr : s.robot.rightSpeed = 0)
    (hk : s.currentMovementType = "")
    (hrot : isRotationCommand (toUpper (trimmed movement)) = true)
    (hval : L.toDouble (numberStrOf (toUpper (trimmed movement))) = some n) (hn : 0 ≤ n)
    (hL : directionOf (toUpper (trimmed movement)) ≠ 'L')
    (hR : directionOf (toUpper (trimmed movement)) ≠ 'R')
    (hexec : executeSingleCommand L s movement = r)
    (hev : ∀ event ∈ events, Event.isStop event = false)
    (hrun : run L r events = t) :
    (r.isMoving = true ∧ r.robot.leftSpeed = 0 ∧ r.robot.rightSpeed = 0
      ∧ r.currentMovementType = "" ∧ r.commandQueue = s.commandQueue
      ∧ r.sent = s.sent
          ++ [.errInvalidRotationDirection (directionOf (toUpper (trimmed movement)))])
    ∧ (t.isMoving = true ∧ t.robot.leftSpeed = 0 ∧ t.robot.rightSpeed = 0
      ∧ t.currentMovementType = "" ∧ sameMotion r t
      ∧ ∃ more, t.commandQueue = r.commandQueue ++ more)
    ∧ (∀ sample : Point × ℚ, checkMovementProgress L (setPose sample.1 sample.2 t)
          = setPose sample.1 sample.2 t
        ∧ tick L t sample = setPose sample.1 sample.2 t)
    ∧ (∀ line, toLower (trimmed line) ≠ "status" → toLower (trimmed line) ≠ "quit" →
        toLower (trimmed line) ≠ "stop" →
        ∃ msg, (msg = .errInvalidCommandFormat
            ∨ msg = .infoAdded (split ';' (trimmed line)).length) ∧
          processCommand L t line
            = sendResponse msg
                { t with
                  commandQueue := t.commandQueue
                    ++ ((split ';' (trimmed line)).filter
                        (fun m => !isEmpty (trimmed m))).map trimmed })
    ∧ (∀ event, enteredBy L t event = [])
    ∧ (∀ line, toLower (trimmed line) = "stop" →
        (processCommand L t line).isMoving = false
          ∧ (processCommand L t line).commandQueue = []) := by
  have hr0 := executeSingleCommand_badRotation L s movement n hidle hrot hval hn hL hR
  rw [hexec] at hr0
  have r1 : r.isMoving = true := by rw [hr0]; rfl
  have r2 : r.robot.leftSpeed = 0 := by rw [hr0]; exact hl
  have r3 : r.robot.rightSpeed = 0 := by rw [hr0]; exact hr
  have r4 : r.currentMovementType = "" := by rw [hr0]; exact hk
  obtain ⟨hsame, more, hq⟩ := run_stuck L events r r1 r4 hev
  rw [hrun] at hsame hq
  have hsame2 := hsame
  unfold sameMotion at hsame2
  have t1 : t.isMoving = true := by rw [← hsame2]; exact r1
  have t2 : t.robot.leftSpeed = 0 := by rw [← hsame2]; exact r2
  have t3 : t.robot.rightSpeed = 0 := by rw [← hsame2]; exact r3
  have t4 : t.currentMovementType = "" := by rw [← hsame2]; exact r4
  refine ⟨⟨r1, r2, r3, r4, by rw [hr0]; rfl, by rw [hr0]; rfl⟩,
    ⟨t1, t2, t3, t4, hsame, more, hq⟩, ?_, ?_, ?_, ?_⟩
  · intro sample
    have hc : checkMovementProgress L (setPose sample.1 sample.2 t)
        = setPose sample.1 sample.2 t :=
      checkMovementProgress_noKind L _ t4
    refine ⟨hc, ?_⟩
    unfold tick timerEvent
    rw [if_pos (show (setPose sample.1 sample.2 t).isMoving = true from t1), hc]
  · intro line h1 h2 h3
    exact processCommand_active L t line t1 h1 h2 h3
  · intro event
    unfold enteredBy
    rw [nextCallOf_stuck L t event t1 t4]
  · intro line hstop
    have h1 : toLower (trimmed line) ≠ "status" := by rw [hstop]; decide
    have h2 : toLower (trimmed line) ≠ "quit" := by rw [hstop]; decide
    simp only [processCommand, if_neg h1, if_neg h2, if_pos hstop]
    exact ⟨rfl, rfl⟩

/-- The example of C22: "R90F" executed at rest with "5F" queued leaves `isMoving` true
and "5F" in the queue; after the robot is moved, the timer fires and the line "3B" is
submitted, `isMoving` is still true with no kind, and the timer leads to no call of
`executeSingleCommand`. -/
theorem C22_bad_rotation_direction_sticks_witness :
    (executeSingleCommand stdLib idleBadRotationPopped "R90F").isMoving = true
    ∧ (executeSingleCommand stdLib idleBadRotationPopped "R90F").commandQueue = ["5F"]
    ∧ (run stdLib (executeSingleCommand stdLib idleBadRotationPopped "R90F")
        [.world ⟨61, 60⟩ 1, .timer, .command "3B"]).isMoving = true
    ∧ (run stdLib (executeSingleCommand stdLib idleBadRotationPopped "R90F")
        [.world ⟨61, 60⟩ 1, .timer, .command "3B"]).currentMovementType = ""
    ∧ enteredBy stdLib (run stdLib (executeSingleCommand stdLib idleBadRotationPopped "R90F")
        [.world ⟨61, 60⟩ 1, .timer, .command "3B"]) .timer = [] := by
  have h := C22_bad_rotation_direction_sticks stdLib idleBadRotationPopped "R90F" 90
    (executeSingleCommand stdLib idleBadRotationPopped "R90F")
    [.world ⟨61, 60⟩ 1, .timer, .command "3B"]
    (run stdLib (executeSingleCommand stdLib idleBadRotationPopped "R90F")
      [.world ⟨61, 60⟩ 1, .timer, .command "3B"])
    rfl rfl rfl rfl (by decide)
    (by rw [show numberStrOf (toUpper (trimmed "R90F")) = "90" by decide]
        exact stdLib_toDouble_90)
    (by norm_num) (by decide) (by decide) rfl
    (by
      intro event he
      simp only [List.mem_cons, List.mem_singleton, List.not_mem_nil, or_false] at he
      rcases he with rfl | rfl | rfl
      · rfl
      · rfl
      · decide)
    rfl
  exact ⟨h.1.1, h.1.2.2.2.2.1, h.2.1.1, h.2.1.2.2.2.1, h.2.2.2.2.1 .timer⟩

end LBot
